import Mathlib

/-!
Hyperscene: scene graph (`src/scene.c`) and cameras (`src/camera.c`).

A shallow embedding of the two source files and the properties proved about it.

Conventions of the embedding.

* `float` values live in a type `F` of which only the operations the code applies
  are required (`+`, `-`, `0`, `1`, `<`).  Nothing is assumed about these
  operations unless a theorem says so.
* A matrix (`float[16]`) is a value of a type `M`; the matrix library
  (`hpgMultMat4`, `hpgTranslateRotateScale`, ...) is not part of the two source
  files and is the parameter `Hypermath F M`.
* Pointers are addresses (`Addr`).  A node owns its children, so a node together
  with everything below it is a value of the tree type `HPGnode`; the address
  of each record is kept in the field `addr`.
* Calls that leave the two files (spatial partition, payload destructors,
  pipeline callbacks) are recorded, in order, in a trace of `Call`s.
-/

namespace HPG

/-! ## Data model -/

/-- Pointer values; `0` is the null pointer. -/
abbrev Addr := Nat

/-- The struct `BoundingSphere`: center `x y z` and radius `r`. -/
structure BoundingSphere (F : Type) where
  x : F
  y : F
  z : F
  r : F
deriving DecidableEq, Repr

/-- The struct `pipeline` (`HPGpipeline`): the alpha flag and the three callbacks
(function pointers). -/
structure HPGpipeline where
  hasAlpha : Bool
  preRender : Addr
  render : Addr
  postRender : Addr
deriving DecidableEq, Repr

/-- A call that leaves `scene.c` and `camera.c`.
* `partitionAddNode n s`: `partitionInterface->addNode(&n->partitionData, s)`
* `partitionRemoveNode n`: `partitionInterface->removeNode(&n->partitionData)`
* `partitionUpdateNode n`: `partitionInterface->updateNode(&n->partitionData)`
* `delete fn data`: `node->delete(node->data)` with `fn = node->delete`
* `preRender p n`: `p->preRender(n)` for the pipeline at address `p`
* `render p data`: `p->render(data)` for the pipeline at address `p`
* `postRender p`: `p->postRender()` for the pipeline at address `p` -/
inductive Call where
  | partitionAddNode (node : Addr) (partitionStruct : Addr)
  | partitionRemoveNode (node : Addr)
  | partitionUpdateNode (node : Addr)
  | delete (fn : Addr) (data : Addr)
  | preRender (p : Addr) (node : Addr)
  | render (p : Addr) (data : Addr)
  | postRender (p : Addr)
deriving DecidableEq, Repr

/-- The struct `HPGvector` of the vector library (not among the sources):
`data` holds the slots of the backing array that have been written so far (the
live ones first, then stale ones), `size` is the number of live slots, `capacity`
the allocated slot count. -/
structure HPGvector (α : Type) where
  data : List α
  size : Nat
  capacity : Nat
deriving DecidableEq, Repr

/-- The live elements `data[0 .. size)` of a vector, what `hpgVectorValue(v, i)`
ranges over for `i < v.size`. -/
def HPGvector.live {α : Type} (v : HPGvector α) : List α :=
  v.data.take v.size

/-- The matrix library used by both files (not among the sources), as a
parameter.  The result argument of the C functions is the returned value. -/
structure Hypermath (F M : Type) where
  hpgIdentityMat4 : M
  hpgMultMat4 : M → M → M
  hpgTranslateRotateScale : F → F → F → F → F → F → F → F → M
  hpgCameraInverse : M → M
  hpgLookAt : F → F → F → F → F → F → F → F → F → M

/-- The scalar fields of the struct `HPGnode`, all but the child vector.
* `addr`: the address of the record (the value of an `HPGnode *` to it; also
  `partitionData.data`)
* `x y z`: local offset; `rx ry rz angle`: rotation axis and angle
* `transformSlot`: the pointer `transform`; `transform`: the matrix it points to
* `boundingSphereSlot`: the pointer `partitionData.boundingSphere`;
  `boundingSphere`: the sphere it points to
* `pipeline`, `data`, `delete`: the three pointers of the same name
* `needsUpdate`: the dirty flag
* `childrenCapacity`: `children.capacity`

The pointer `parent` is not stored: the parent of a node is the holder of the
list the node is in (`hpgAddNode` stores `parent` and pushes the node onto that
parent's list, or onto `topLevelNodes` when the parent is the scene). -/
structure HPGnodeFields (F M : Type) where
  addr : Addr
  x : F
  y : F
  z : F
  rx : F
  ry : F
  rz : F
  angle : F
  transformSlot : Addr
  transform : M
  boundingSphereSlot : Addr
  boundingSphere : BoundingSphere F
  pipeline : Addr
  data : Addr
  delete : Addr
  needsUpdate : Bool
  childrenCapacity : Nat
deriving DecidableEq, Repr

/-- The struct `HPGnode`: its scalar fields and the live elements of its
`children` vector, each child owned by the node. -/
inductive HPGnode (F M : Type) where
  | mk (f : HPGnodeFields F M) (children : List (HPGnode F M)) : HPGnode F M

/-- The scalar fields of a node. -/
def HPGnode.fields {F M : Type} : HPGnode F M → HPGnodeFields F M
  | .mk f _ => f

/-- The live elements of `node->children`. -/
def HPGnode.children {F M : Type} : HPGnode F M → List (HPGnode F M)
  | .mk _ cs => cs

/-- Modelled from the spec: the pool allocator (`hpgMakePool`, `hpgAllocateFrom`,
`hpgDeleteFrom`, `hpgClearPool`) is not among the sources.  A pool is the list of
slots that have been released to it and not handed out again, most recent
first ("`release(slot)` returns a slot to the free list for reuse"). -/
structure HPGpool where
  free : List Addr
deriving DecidableEq, Repr

/-- Modelled from the spec: `hpgDeleteFrom(slot, pool)` of the missing pool
allocator, "returns a slot to the free list for reuse". -/
def hpgDeleteFrom (slot : Addr) (pool : HPGpool) : HPGpool :=
  { free := slot :: pool.free }

/-- The struct `HPGscene`: the four pools, the partition structure, the live
elements of `topLevelNodes`, and the trace of the calls made so far on behalf of
this scene (partition interface, payload destructors). -/
structure HPGscene (F M : Type) where
  nodePool : HPGpool
  transformPool : HPGpool
  boundingSpherePool : HPGpool
  partitionPool : HPGpool
  partitionStruct : Addr
  topLevelNodes : List (HPGnode F M)
  trace : List Call

/-! ## `scene.c`: the update pass -/

mutual
/-- The function `updateNode(node, scene, x, y, z)`.

`parent` is what the test `(HPGscene *) node->parent == scene` and the read
`node->parent->transform` need: `none` when the parent is the scene (the call
comes from `hpgUpdateScene`), `some t` when the parent is a node whose
transform is `t` (the call comes from that node).  `mark = true` is the
assignment `child->needsUpdate = true` made by the caller just before the call
(see `updateNode_mark`); `hpgUpdateScene` and the clean branch call with
`mark = false`.  The trace is threaded through. -/
def updateNode {F M : Type} [Add F] [One F] (L : Hypermath F M) (parent : Option M)
    (x y z : F) (mark : Bool) : HPGnode F M → List Call → HPGnode F M × List Call
  | .mk f cs, trace =>
    let nx := x + f.x
    let ny := y + f.y
    let nz := z + f.z
    if mark || f.needsUpdate then
      let bs : BoundingSphere F := { f.boundingSphere with x := nx, y := ny, z := nz }
      let trans := L.hpgTranslateRotateScale nx ny nz f.rx f.ry f.rz f.angle 1
      let transform :=
        match parent with
        | none => trans
        | some parentTransform => L.hpgMultMat4 trans parentTransform
      let trace1 := trace ++ [Call.partitionUpdateNode f.addr]
      let r := updateNodes L (some transform) nx ny nz true cs trace1
      (.mk { f with boundingSphere := bs, transform := transform, needsUpdate := false } r.1,
        r.2)
    else
      let r := updateNodes L (some f.transform) nx ny nz false cs trace
      (.mk f r.1, r.2)
/-- The loops `for (i = 0; i < node->children.size; i++)` of `updateNode` (with
`mark = true` the one that first sets `child->needsUpdate = true`) and of
`hpgUpdateScene`: `updateNode` on each element in order. -/
def updateNodes {F M : Type} [Add F] [One F] (L : Hypermath F M) (parent : Option M)
    (x y z : F) (mark : Bool) : List (HPGnode F M) → List Call →
    List (HPGnode F M) × List Call
  | [], trace => ([], trace)
  | c :: rest, trace =>
    let r := updateNode L parent x y z mark c trace
    let r2 := updateNodes L parent x y z mark rest r.2
    (r.1 :: r2.1, r2.2)
end

/-- The function `hpgUpdateScene(scene)`: `updateNode(n, scene, 0.0, 0.0, 0.0)` for
each top-level node in order. -/
def hpgUpdateScene {F M : Type} [Add F] [Zero F] [One F] (L : Hypermath F M)
    (scene : HPGscene F M) : HPGscene F M :=
  let r := updateNodes L none 0 0 0 false scene.topLevelNodes scene.trace
  { scene with topLevelNodes := r.1, trace := r.2 }

/-- The statics of `scene.c` that the update pass reads: the scene records by
address and the live elements of `activeScenes` (scene pointers, in push order; a
scene can be in the list more than once). -/
structure SceneStatics (F M : Type) where
  mem : Addr → HPGscene F M
  activeScenes : List Addr

/-- The function `hpgUpdateScenes()`: `hpgUpdateScene` on each element of
`activeScenes` in order. -/
def hpgUpdateScenes {F M : Type} [Add F] [Zero F] [One F] (L : Hypermath F M)
    (w : SceneStatics F M) : SceneStatics F M :=
  w.activeScenes.foldl
    (fun w a => { w with mem := Function.update w.mem a (hpgUpdateScene L (w.mem a)) }) w

/-! ## `scene.c`: deleting nodes -/

mutual
/-- The function `freeNode(node, scene)`.  `hpgDeleteVector` (vector library, not
among the sources) is a parameter: the state it leaves the vector record in.
The result is the node as it is in memory afterwards, and the scene. -/
def freeNode {F M : Type} (hpgDeleteVector : (α : Type) → HPGvector α → HPGvector α) :
    HPGnode F M → HPGscene F M → HPGnode F M × HPGscene F M
  | .mk f cs, scene =>
    let scene1 := { scene with trace := scene.trace ++ [Call.delete f.delete f.data] }
    if f.childrenCapacity ≠ 0 then
      let r := freeNodes hpgDeleteVector cs scene1
      let v := hpgDeleteVector _ ⟨r.1, r.1.length, f.childrenCapacity⟩
      (.mk { f with childrenCapacity := v.capacity } v.live, r.2)
    else
      (.mk f cs, scene1)
/-- The loop `for (i = 0; i < node->children.size; i++) freeNode(...)`. -/
def freeNodes {F M : Type} (hpgDeleteVector : (α : Type) → HPGvector α → HPGvector α) :
    List (HPGnode F M) → HPGscene F M → List (HPGnode F M) × HPGscene F M
  | [], scene => ([], scene)
  | c :: rest, scene =>
    let r := freeNode hpgDeleteVector c scene
    let r2 := freeNodes hpgDeleteVector rest r.2
    (r.1 :: r2.1, r2.2)
end

mutual
/-- The function `deleteNode(node, scene)`. -/
def deleteNode {F M : Type} (hpgDeleteVector : (α : Type) → HPGvector α → HPGvector α) :
    HPGnode F M → HPGscene F M → HPGnode F M × HPGscene F M
  | .mk f cs, scene =>
    let scene1 := { scene with trace := scene.trace ++ [Call.partitionRemoveNode f.addr] }
    let scene2 := { scene1 with
      boundingSpherePool := hpgDeleteFrom f.boundingSphereSlot scene1.boundingSpherePool }
    let scene3 := { scene2 with
      transformPool := hpgDeleteFrom f.transformSlot scene2.transformPool }
    let r := deleteNodes hpgDeleteVector cs scene3
    freeNode hpgDeleteVector (.mk f r.1) r.2
/-- The loop `for (i = 0; i < node->children.size; i++) deleteNode(...)`. -/
def deleteNodes {F M : Type} (hpgDeleteVector : (α : Type) → HPGvector α → HPGvector α) :
    List (HPGnode F M) → HPGscene F M → List (HPGnode F M) × HPGscene F M
  | [], scene => ([], scene)
  | c :: rest, scene =>
    let r := deleteNode hpgDeleteVector c scene
    let r2 := deleteNodes hpgDeleteVector rest r.2
    (r.1 :: r2.1, r2.2)
end

/-- The function `hpgDeleteNode(node)`: `deleteNode(node, getScene(node))`, with the
scene that owns the node passed in for `getScene(node)`.  The result is the node
record (and the records below it) as the call leaves them in memory, and the
scene with its pools and trace after the call; the code does not touch the list
that holds the node (`topLevelNodes` or the child vector of the parent). -/
def hpgDeleteNode {F M : Type} (hpgDeleteVector : (α : Type) → HPGvector α → HPGvector α)
    (node : HPGnode F M) (scene : HPGscene F M) : HPGnode F M × HPGscene F M :=
  deleteNode hpgDeleteVector node scene

/-! ## `camera.c`: data -/

/-- The struct `HPGmat4` of `camera.c`: the sixteen floats of a matrix, in memory
order. -/
structure HPGmat4 (F : Type) where
  _11 : F
  _12 : F
  _13 : F
  _14 : F
  _21 : F
  _22 : F
  _23 : F
  _24 : F
  _31 : F
  _32 : F
  _33 : F
  _34 : F
  _41 : F
  _42 : F
  _43 : F
  _44 : F
deriving DecidableEq, Repr

/-- The enum `Faces` of `camera.c`. -/
inductive Faces where
  | RIGHT
  | LEFT
  | TOP
  | BOTTOM
  | NEAR
  | FAR
deriving DecidableEq, Repr

/-- The integer value of each enumerator of `Faces` (declaration order, from `0`),
as an index into `planes[6]`. -/
def Faces.index : Faces → Fin 6
  | .RIGHT => 0
  | .LEFT => 1
  | .TOP => 2
  | .BOTTOM => 3
  | .NEAR => 4
  | .FAR => 5

/-- The struct `Plane`: the coefficients of `a x + b y + c z + d`. -/
structure Plane (F : Type) where
  a : F
  b : F
  c : F
  d : F
deriving DecidableEq, Repr

/-- The struct behind `position`, `up` and `object` of a camera. -/
structure Point (F : Type) where
  x : F
  y : F
  z : F
deriving DecidableEq, Repr

/-- The enum `HPGcameraType`; it also stands for the function pointer `update`
(`&hpgOrthoCamera` or `&hpgPerspectiveCamera`). -/
inductive HPGcameraType where
  | HPG_ORTHO
  | HPG_PERSPECTIVE
deriving DecidableEq, Repr

/-- The struct `camera` (`HPGcamera`), with the fields the source uses. `scene` is
the pointer to the owning scene. -/
structure HPGcamera (F M : Type) where
  n : F
  f : F
  viewAngle : F
  position : Point F
  up : Point F
  object : Point F
  angle : F
  update : HPGcameraType
  isLookAt : Bool
  scene : Addr
  projection : M
  viewProjection : M
  modelViewProjection : M
  planes : Fin 6 → Plane F

/-- The statics of `camera.c` that rendering one camera uses: the two queues (each
slot holds a node pointer, given here as the record it points to),
`currentCamera`, and the trace of the pipeline callbacks called so far. -/
structure CameraStatics (F M : Type) where
  renderQueue : HPGvector (HPGnodeFields F M)
  alphaQueue : HPGvector (HPGnodeFields F M)
  currentCamera : HPGcamera F M
  trace : List Call

/-- What `camera.c` reaches through pointers it does not own.
* `pipelineAt p`: the struct `pipeline` at address `p` (`n->pipeline->hasAlpha`)
* `doVisible s planes`: the nodes that `partitionInterface->doVisible` of the scene
  at `s` passes to the visit callback for these planes, in call order
* `asHPGmat4 m`: the sixteen floats of the matrix `m`, what the cast
  `(HPGmat4 *) camera->viewProjection` reads -/
structure CameraEnv (F M : Type) where
  pipelineAt : Addr → HPGpipeline
  doVisible : Addr → (Fin 6 → Plane F) → List (HPGnodeFields F M)
  asHPGmat4 : M → HPGmat4 F

/-- How a run of the model can stop without a result. -/
inductive Fault where
  | outOfFuel
  | outOfBounds
deriving DecidableEq, Repr

/-- The function `qsort` of the C library, as a parameter: it leaves in the array
a rearrangement of what the array held. -/
structure Qsort where
  sort : {α : Type} → (α → α → Int) → List α → List α
  perm : ∀ {α : Type} (cmp : α → α → Int) (l : List α), (sort cmp l).Perm l

/-- The call `qsort(data, nmemb, sizeof(void *), cmp)`: the first `nmemb` slots of the
backing array are rearranged, the others are left alone.  `cmp` is given here on
the node records.  In the C code `qsort` hands the comparator the addresses of two
slots, and the comparators of `camera.c` cast these to `HPGnode *` without reading
the slot, so which rearrangement the call makes depends on the memory around the
slots; a statement for every `Q : Qsort` covers each rearrangement. -/
def Qsort.inPlace {α : Type} (Q : Qsort) (cmp : α → α → Int) (nmemb : Nat) (data : List α) :
    List α :=
  Q.sort cmp (data.take nmemb) ++ data.drop nmemb

/-- Modelled from the spec: `hpgPush(vector, value)` of the missing vector library,
which "appends" the value: it is stored in slot `size` of the backing array (a new
slot when the array has none left) and `size` grows by one; `capacity` grows only
as far as the new size needs. -/
def hpgPush {α : Type} (v : HPGvector α) (x : α) : HPGvector α :=
  { data := v.data.take v.size ++ [x] ++ v.data.drop (v.size + 1)
    size := v.size + 1
    capacity := max v.capacity (v.size + 1) }

/-! ## `camera.c`: building the queues -/

/-- The function `addToQueue(node)`, with `n = (HPGnode *) node->data`. -/
def addToQueue {F M : Type} (E : CameraEnv F M) (g : CameraStatics F M)
    (n : HPGnodeFields F M) : CameraStatics F M :=
  if n.pipeline = 0 then g
  else if (E.pipelineAt n.pipeline).hasAlpha then
    { g with alphaQueue := hpgPush g.alphaQueue n }
  else
    { g with renderQueue := hpgPush g.renderQueue n }

/-- The function `clearQueues()`. -/
def clearQueues {F M : Type} (g : CameraStatics F M) : CameraStatics F M :=
  { g with
    renderQueue := { g.renderQueue with size := 0 }
    alphaQueue := { g.alphaQueue with size := 0 } }

/-- The function `computePlanes(camera)`. -/
def computePlanes {F M : Type} [Add F] [Sub F] (E : CameraEnv F M) (camera : HPGcamera F M) :
    HPGcamera F M :=
  let ps := camera.planes
  let m := E.asHPGmat4 camera.viewProjection
  let ps := Function.update ps Faces.LEFT.index
    ⟨m._41 + m._11, m._42 + m._12, m._43 + m._13, m._44 + m._14⟩
  let ps := Function.update ps Faces.RIGHT.index
    ⟨m._41 - m._11, m._42 - m._12, m._43 - m._13, m._44 - m._14⟩
  let ps := Function.update ps Faces.BOTTOM.index
    ⟨m._41 + m._21, m._42 + m._22, m._43 + m._23, m._44 + m._24⟩
  let ps := Function.update ps Faces.TOP.index
    ⟨m._41 - m._21, m._42 - m._22, m._43 - m._23, m._44 - m._24⟩
  let ps := Function.update ps Faces.NEAR.index
    ⟨m._41 + m._31, m._42 + m._32, m._43 + m._33, m._44 + m._34⟩
  let ps := Function.update ps Faces.FAR.index
    ⟨m._41 - m._31, m._42 - m._32, m._43 - m._33, m._44 - m._34⟩
  { camera with planes := ps }

/-- The view matrix `view` that `hpgRenderCamera` computes for `c = &currentCamera`:
the `if (c->isLookAt) ... else ...` statement. -/
def hpgRenderCamera.view {F M : Type} [One F] (L : Hypermath F M) (c : HPGcamera F M) : M :=
  if c.isLookAt then
    let cameraMat := L.hpgTranslateRotateScale c.position.x c.position.y c.position.z
      c.up.x c.up.y c.up.z c.angle 1
    L.hpgCameraInverse cameraMat
  else
    L.hpgLookAt c.position.x c.position.y c.position.z
      c.object.x c.object.y c.object.z c.up.x c.up.y c.up.z

/-- The function `hpgRenderCamera(camera)` up to and including the `doVisible` call:
copy into `currentCamera`, `clearQueues`, view and view-projection matrix,
`computePlanes`, and `addToQueue` on every node the partition visits. -/
def hpgRenderCamera.build {F M : Type} [Add F] [Sub F] [One F] (L : Hypermath F M)
    (E : CameraEnv F M) (camera : HPGcamera F M) (g : CameraStatics F M) :
    CameraStatics F M :=
  let g := { g with currentCamera := camera }
  let g := clearQueues g
  let c := g.currentCamera
  let view := hpgRenderCamera.view L c
  let c := { c with viewProjection := L.hpgMultMat4 c.projection view }
  let c := computePlanes E c
  let g := { g with currentCamera := c }
  (E.doVisible camera.scene c.planes).foldl (addToQueue E) g

/-! ## `camera.c`: sorting and dispatching the queues

`qsort` hands a comparator the addresses of two array slots; the comparators of
`camera.c` cast these to `HPGnode *`.  Here a comparator receives the two node
records the slots point to. -/

/-- The comparator `xNegative` of `camera.c`. -/
def xNegative {F M : Type} [Add F] [LT F] [DecidableRel (fun a b : F => a < b)]
    (a b : HPGnodeFields F M) : Int :=
  let xa := a.boundingSphere.x + a.boundingSphere.r
  let xb := b.boundingSphere.x + b.boundingSphere.r
  if xa < xb then 1
  else if xa > xb then -1
  else 0

/-- The comparator `xPositive` of `camera.c`. -/
def xPositive {F M : Type} [Add F] [LT F] [DecidableRel (fun a b : F => a < b)]
    (a b : HPGnodeFields F M) : Int :=
  let xa := a.boundingSphere.x + a.boundingSphere.r
  let xb := b.boundingSphere.x + b.boundingSphere.r
  if xa > xb then 1
  else if xa < xb then -1
  else 0

/-- The comparator `yNegative` of `camera.c`. -/
def yNegative {F M : Type} [Add F] [LT F] [DecidableRel (fun a b : F => a < b)]
    (a b : HPGnodeFields F M) : Int :=
  let ya := a.boundingSphere.y + a.boundingSphere.r
  let yb := b.boundingSphere.y + b.boundingSphere.r
  if ya < yb then 1
  else if ya > yb then -1
  else 0

/-- The comparator `yPositive` of `camera.c`. -/
def yPositive {F M : Type} [Add F] [LT F] [DecidableRel (fun a b : F => a < b)]
    (a b : HPGnodeFields F M) : Int :=
  let ya := a.boundingSphere.y + a.boundingSphere.r
  let yb := b.boundingSphere.y + b.boundingSphere.r
  if ya > yb then 1
  else if ya < yb then -1
  else 0

/-- The comparator `zNegative` of `camera.c`. -/
def zNegative {F M : Type} [Add F] [LT F] [DecidableRel (fun a b : F => a < b)]
    (a b : HPGnodeFields F M) : Int :=
  let za := a.boundingSphere.z + a.boundingSphere.r
  let zb := b.boundingSphere.z + b.boundingSphere.r
  if za < zb then 1
  else if za > zb then -1
  else 0

/-- The comparator `zPositive` of `camera.c`. -/
def zPositive {F M : Type} [Add F] [LT F] [DecidableRel (fun a b : F => a < b)]
    (a b : HPGnodeFields F M) : Int :=
  let za := a.boundingSphere.z + a.boundingSphere.r
  let zb := b.boundingSphere.z + b.boundingSphere.r
  if za > zb then 1
  else if za < zb then -1
  else 0

/-- The comparator `xGreaterThan` of `camera.c`. -/
def xGreaterThan {F M : Type} [LT F] [DecidableRel (fun a b : F => a < b)]
    (a b : HPGnodeFields F M) : Int :=
  let xa := a.boundingSphere.x
  let xb := b.boundingSphere.x
  if xa < xb then 1
  else if xa > xb then -1
  else 0

/-- The comparator `xLessThan` of `camera.c`. -/
def xLessThan {F M : Type} [LT F] [DecidableRel (fun a b : F => a < b)]
    (a b : HPGnodeFields F M) : Int :=
  let xa := a.boundingSphere.x
  let xb := b.boundingSphere.x
  if xa > xb then 1
  else if xa < xb then -1
  else 0

/-- The comparator `yGreaterThan` of `camera.c`. -/
def yGreaterThan {F M : Type} [LT F] [DecidableRel (fun a b : F => a < b)]
    (a b : HPGnodeFields F M) : Int :=
  let ya := a.boundingSphere.y
  let yb := b.boundingSphere.y
  if ya < yb then 1
  else if ya > yb then -1
  else 0

/-- The comparator `yLessThan` of `camera.c`. -/
def yLessThan {F M : Type} [LT F] [DecidableRel (fun a b : F => a < b)]
    (a b : HPGnodeFields F M) : Int :=
  let ya := a.boundingSphere.y
  let yb := b.boundingSphere.y
  if ya > yb then 1
  else if ya < yb then -1
  else 0

/-- The comparator `zGreaterThan` of `camera.c`. -/
def zGreaterThan {F M : Type} [LT F] [DecidableRel (fun a b : F => a < b)]
    (a b : HPGnodeFields F M) : Int :=
  let za := a.boundingSphere.z
  let zb := b.boundingSphere.z
  if za < zb then 1
  else if za > zb then -1
  else 0

/-- The comparator `zLessThan` of `camera.c`. -/
def zLessThan {F M : Type} [LT F] [DecidableRel (fun a b : F => a < b)]
    (a b : HPGnodeFields F M) : Int :=
  let za := a.boundingSphere.z
  let zb := b.boundingSphere.z
  if za > zb then 1
  else if za < zb then -1
  else 0

/-- The comparator `programSort` of `camera.c`: the pipeline pointers, converted to
`unsigned int` (32 bits). -/
def programSort {F M : Type} (a b : HPGnodeFields F M) : Int :=
  let pa := a.pipeline % 2 ^ 32
  let pb := b.pipeline % 2 ^ 32
  if pa < pb then -1
  else if pa > pb then 1
  else 0

/-- The conversions between `float` and `int` that C applies around the call of
`abs` (declared in `stdlib.h` as `int abs(int)`). -/
structure FloatInt (F : Type) where
  toInt : F → Int
  ofInt : Int → F

/-- The function `setSortFuns(plane, alphaSort, renderSort)`.  The two comparators
are parameters passed by value; the result is the value of these two local
variables when the function returns, which the caller does not see. -/
def setSortFuns {F M : Type} [Add F] [Zero F] [LT F] [DecidableRel (fun a b : F => a < b)]
    (K : FloatInt F) (plane : Plane F)
    (alphaSort renderSort : HPGnodeFields F M → HPGnodeFields F M → Int) :
    (HPGnodeFields F M → HPGnodeFields F M → Int) ×
      (HPGnodeFields F M → HPGnodeFields F M → Int) :=
  let aa := K.ofInt (K.toInt plane.a).natAbs
  let ab := K.ofInt (K.toInt plane.b).natAbs
  let ac := K.ofInt (K.toInt plane.c).natAbs
  let _unused := (alphaSort, renderSort)
  if aa > ab ∧ aa > ac then
    if plane.a < 0 then (xLessThan, xNegative)
    else (xGreaterThan, xPositive)
  else if ab > ac then
    if plane.b < 0 then (yLessThan, yNegative)
    else (yGreaterThan, yPositive)
  else
    if plane.c < 0 then (zLessThan, zNegative)
    else (zGreaterThan, zPositive)

/-- The two queues of `camera.c`, by name. -/
inductive Queue where
  | alphaQueue
  | renderQueue
deriving DecidableEq, Repr

/-- The queue of that name. -/
def CameraStatics.queue {F M : Type} (g : CameraStatics F M) :
    Queue → HPGvector (HPGnodeFields F M)
  | .alphaQueue => g.alphaQueue
  | .renderQueue => g.renderQueue

/-- Overwrite the backing array of the queue of that name. -/
def CameraStatics.setData {F M : Type} (g : CameraStatics F M) (k : Queue)
    (data : List (HPGnodeFields F M)) : CameraStatics F M :=
  match k with
  | .alphaQueue => { g with alphaQueue := { g.alphaQueue with data := data } }
  | .renderQueue => { g with renderQueue := { g.renderQueue with data := data } }

/-- The function `renderNode(node, camera)` with `camera = &currentCamera`. -/
def renderNode {F M : Type} (L : Hypermath F M) (node : HPGnodeFields F M)
    (g : CameraStatics F M) : CameraStatics F M :=
  { g with
    currentCamera := { g.currentCamera with
      modelViewProjection := L.hpgMultMat4 g.currentCamera.viewProjection node.transform }
    trace := g.trace ++ [Call.render node.pipeline node.data] }

/-- The inner loop of `renderQueues` on the queue `k`, entered with this `count`:
`for (...; count < (queue.size - i);) { m = queue[i + count]; if (m->pipeline == p)
count++; else qsort(queue.data, count, sizeof(void *), sort); }`.
The result is the final `count`.  Each evaluation of the loop condition uses one
unit of fuel. -/
def renderQueues.count {F M : Type} (Q : Qsort) (k : Queue)
    (sort : HPGnodeFields F M → HPGnodeFields F M → Int) (p : Addr) (i : Nat) :
    Nat → Nat → CameraStatics F M → Except Fault (Nat × CameraStatics F M)
  | 0, _, _ => .error .outOfFuel
  | fuel + 1, count, g =>
    if count < (g.queue k).size - i then
      match (g.queue k).data[i + count]? with
      | none => .error .outOfBounds
      | some m =>
        if m.pipeline = p then
          renderQueues.count Q k sort p i fuel (count + 1) g
        else
          renderQueues.count Q k sort p i fuel count
            (g.setData k (Q.inPlace sort count (g.queue k).data))
    else
      .ok (count, g)

/-- The loop `for (j = 0; j < count; j++) renderNode(queue[i + j], camera)` of
`renderQueues` on the queue `k`, over the values `js` of `j`. -/
def renderQueues.run {F M : Type} (L : Hypermath F M) (k : Queue) (i : Nat) :
    List Nat → CameraStatics F M → Except Fault (CameraStatics F M)
  | [], g => .ok g
  | j :: js, g =>
    match (g.queue k).data[i + j]? with
    | none => .error .outOfBounds
    | some node => renderQueues.run L k i js (renderNode L node g)

/-- The outer loop `for (i = 0; i < queue.size;)` of `renderQueues` on the queue `k`,
entered with this `i`.  Each evaluation of the loop condition uses one unit of
fuel, and the inner loop gets what is left. -/
def renderQueues.dispatch {F M : Type} (Q : Qsort) (L : Hypermath F M) (k : Queue)
    (sort : HPGnodeFields F M → HPGnodeFields F M → Int) :
    Nat → Nat → CameraStatics F M → Except Fault (CameraStatics F M)
  | 0, _, _ => .error .outOfFuel
  | fuel + 1, i, g =>
    if i < (g.queue k).size then
      match (g.queue k).data[i]? with
      | none => .error .outOfBounds
      | some n =>
        let p := n.pipeline
        let g := { g with trace := g.trace ++ [Call.preRender p n.addr] }
        match renderQueues.count Q k sort p i fuel 1 g with
        | .error e => .error e
        | .ok (count, g) =>
          match renderQueues.run L k i (List.range count) g with
          | .error e => .error e
          | .ok g =>
            let g := { g with trace := g.trace ++ [Call.postRender p] }
            renderQueues.dispatch Q L k sort fuel (i + count) g
    else
      .ok g

/-- The function `renderQueues(camera)` with `camera = &currentCamera`.
`alphaSort` and `renderSort` are the values that the two uninitialised local
variables of that name hold; `setSortFuns` receives copies of them and cannot
change them. -/
def renderQueues {F M : Type} [Add F] [Zero F] [LT F] [DecidableRel (fun a b : F => a < b)]
    (K : FloatInt F) (Q : Qsort) (L : Hypermath F M) (fuel : Nat)
    (alphaSort renderSort : HPGnodeFields F M → HPGnodeFields F M → Int)
    (g : CameraStatics F M) : Except Fault (CameraStatics F M) :=
  let _unused := setSortFuns K (g.currentCamera.planes Faces.NEAR.index) alphaSort renderSort
  let g := g.setData .renderQueue
    (Q.inPlace programSort g.alphaQueue.size g.renderQueue.data)
  let g := g.setData .renderQueue
    (Q.inPlace programSort g.renderQueue.size g.renderQueue.data)
  match renderQueues.dispatch Q L .alphaQueue alphaSort fuel 0 g with
  | .error e => .error e
  | .ok g => renderQueues.dispatch Q L .renderQueue renderSort fuel 0 g

/-- The function `hpgRenderCamera(camera)`: the result is `*camera` and the statics
after the call. -/
def hpgRenderCamera {F M : Type} [Add F] [Sub F] [Zero F] [One F] [LT F]
    [DecidableRel (fun a b : F => a < b)]
    (K : FloatInt F) (Q : Qsort) (L : Hypermath F M) (E : CameraEnv F M) (fuel : Nat)
    (alphaSort renderSort : HPGnodeFields F M → HPGnodeFields F M → Int)
    (camera : HPGcamera F M) (g : CameraStatics F M) :
    Except Fault (HPGcamera F M × CameraStatics F M) :=
  match renderQueues K Q L fuel alphaSort renderSort (hpgRenderCamera.build L E camera g) with
  | .error e => .error e
  | .ok g => .ok (g.currentCamera, g)

/-- The function `hpgCameraLookAt(camera, x, y, z)`. -/
def hpgCameraLookAt {F M : Type} (camera : HPGcamera F M) (x y z : F) : HPGcamera F M :=
  { camera with isLookAt := true, object := ⟨x, y, z⟩ }

/-- The function `hpgRotateCamera(camera, angle)`. -/
def hpgRotateCamera {F M : Type} [Add F] (camera : HPGcamera F M) (angle : F) :
    HPGcamera F M :=
  { camera with isLookAt := false, angle := camera.angle + angle }

/-- The function `hpgSetCameraRotation(camera, x, y, z, angle)`. -/
def hpgSetCameraRotation {F M : Type} (camera : HPGcamera F M) (x y z angle : F) :
    HPGcamera F M :=
  { camera with isLookAt := false, up := ⟨x, y, z⟩, angle := angle }

/-! ## Vocabulary for the statements about trees -/

mutual
/-- For every node of the tree, in depth-first pre-order, its chain: the scalar
fields of its ancestors from the top-level node down, then its own; `anc` is the
chain of the parent. -/
def HPGnode.chains {F M : Type} (anc : List (HPGnodeFields F M)) :
    HPGnode F M → List (List (HPGnodeFields F M))
  | .mk f cs => (anc ++ [f]) :: chainsOfList (anc ++ [f]) cs
/-- The chains of every node of a list of sibling trees. -/
def chainsOfList {F M : Type} (anc : List (HPGnodeFields F M)) :
    List (HPGnode F M) → List (List (HPGnodeFields F M))
  | [] => []
  | c :: rest => c.chains anc ++ chainsOfList anc rest
end

/-- The chains of every node reachable from the top-level list of a scene. -/
def HPGscene.chains {F M : Type} (scene : HPGscene F M) : List (List (HPGnodeFields F M)) :=
  chainsOfList [] scene.topLevelNodes

mutual
/-- All nodes of a subtree (their scalar fields), in depth-first pre-order. -/
def HPGnode.subtree {F M : Type} : HPGnode F M → List (HPGnodeFields F M)
  | .mk f cs => f :: subtreeOfList cs
/-- All nodes of a list of sibling subtrees, in depth-first pre-order. -/
def subtreeOfList {F M : Type} : List (HPGnode F M) → List (HPGnodeFields F M)
  | [] => []
  | c :: rest => c.subtree ++ subtreeOfList rest
end

/-- The component-wise sum of the local offsets along a chain, added in
root-to-leaf order starting from `(0, 0, 0)` as the code does. -/
def offsetSum {F M : Type} [Add F] [Zero F] (ch : List (HPGnodeFields F M)) : F × F × F :=
  ch.foldl (fun acc f => (acc.1 + f.x, acc.2.1 + f.y, acc.2.2 + f.z)) (0, 0, 0)

/-- The center of the bounding sphere of a node. -/
def HPGnodeFields.center {F M : Type} (f : HPGnodeFields F M) : F × F × F :=
  (f.boundingSphere.x, f.boundingSphere.y, f.boundingSphere.z)

/-- Some node of the chain is dirty: the node of the chain (its last element) is
dirty or has a dirty ancestor. -/
def chainDirty {F M : Type} (ch : List (HPGnodeFields F M)) : Bool :=
  ch.any (fun f => f.needsUpdate)

/-- The center of the node of the chain (its last element) is the sum of the local
offsets of the node and of all its ancestors. -/
def CenterIsSum {F M : Type} [Add F] [Zero F] (ch : List (HPGnodeFields F M)) : Prop :=
  ∀ n ∈ ch.getLast?, n.center = offsetSum ch

instance CenterIsSum.decidable {F M : Type} [Add F] [Zero F] [DecidableEq F]
    (ch : List (HPGnodeFields F M)) : Decidable (CenterIsSum ch) := by
  unfold CenterIsSum
  infer_instance

/-- What the update pass leaves in a node that it recomputes: the center `c`
written into the bounding sphere, the transform rewritten (from `c`, the rotation
of the node and, below a node, the transform `parent` of that parent), the dirty
flag cleared, every other field as it was. -/
def recomputed {F M : Type} [One F] (L : Hypermath F M) (parent : Option M) (c : F × F × F)
    (f : HPGnodeFields F M) : HPGnodeFields F M :=
  { f with
    boundingSphere := { f.boundingSphere with x := c.1, y := c.2.1, z := c.2.2 }
    transform :=
      match parent with
      | none => L.hpgTranslateRotateScale c.1 c.2.1 c.2.2 f.rx f.ry f.rz f.angle 1
      | some p =>
        L.hpgMultMat4 (L.hpgTranslateRotateScale c.1 c.2.1 c.2.2 f.rx f.ry f.rz f.angle 1) p
    needsUpdate := false }

/-- The transform of the parent node in a chain, `none` for a top-level node. -/
def parentTransform {F M : Type} (ch : List (HPGnodeFields F M)) : Option M :=
  ch.dropLast.getLast?.map (fun f => f.transform)

/-- How the update pass relates a node (chain `ch` before the pass) to the same
node after it (chain `ch1`): the node is as deep in the tree as before, the
offsets along the chain are the same, and the node is recomputed when it was
dirty or below a dirty node, and untouched otherwise. -/
def UpdateRel {F M : Type} [Add F] [Zero F] [One F] (L : Hypermath F M)
    (ch ch1 : List (HPGnodeFields F M)) : Prop :=
  ch1.length = ch.length ∧ offsetSum ch1 = offsetSum ch ∧
  ∃ f f1, ch.getLast? = some f ∧ ch1.getLast? = some f1 ∧
    f1 = if chainDirty ch then recomputed L (parentTransform ch1) (offsetSum ch) f else f

/-- How the update pass relates a node (chain `ch` before the pass) to the same node
after it (chain `ch1`) when the center comes out right: the node is as deep in the
tree as before, its record is at the same address and holds the same local offset,
the offsets along its chain add up to the same sum, and the center of its bounding
sphere after the pass is that sum. -/
def CenterAfter {F M : Type} [Add F] [Zero F] (ch ch1 : List (HPGnodeFields F M)) : Prop :=
  ch1.length = ch.length ∧ offsetSum ch1 = offsetSum ch ∧
  ∃ f f1, ch.getLast? = some f ∧ ch1.getLast? = some f1 ∧
    f1.addr = f.addr ∧ f1.x = f.x ∧ f1.y = f.y ∧ f1.z = f.z ∧ f1.center = offsetSum ch

/-- The partition notifications owed to a list of chains: one
`partitionUpdateNode` per chain that is dirty, for the node of that chain, in
order. -/
def notifications {F M : Type} (chs : List (List (HPGnodeFields F M))) : List Call :=
  (chs.filter chainDirty).filterMap
    (fun ch => ch.getLast?.map (fun f => Call.partitionUpdateNode f.addr))

/-- The call is a payload destructor call `node->delete(node->data)`. -/
def Call.isDelete : Call → Bool
  | .delete _ _ => true
  | _ => false

/-- The call is `partitionInterface->removeNode`. -/
def Call.isPartitionRemoveNode : Call → Bool
  | .partitionRemoveNode _ => true
  | _ => false

/-- What `freeNode` leaves alone in the scene: the four pools, and the
`partitionRemoveNode` calls of the trace. -/
def FreeEffect {F M : Type} (s s1 : HPGscene F M) : Prop :=
  s1.nodePool = s.nodePool ∧ s1.transformPool = s.transformPool ∧
    s1.boundingSpherePool = s.boundingSpherePool ∧ s1.partitionPool = s.partitionPool ∧
    s1.trace.filter Call.isPartitionRemoveNode = s.trace.filter Call.isPartitionRemoveNode

/-- What `deleteNode` does to the scene, for the nodes `nodes` it is run on: the
bounding-sphere and transform pools gain the slots of these nodes (most recent
first), the trace gains one `partitionRemoveNode` per node in order (other calls
apart), and the node pool and the partition pool are as before. -/
def DeleteEffect {F M : Type} (nodes : List (HPGnodeFields F M)) (s s1 : HPGscene F M) : Prop :=
  s1.boundingSpherePool.free =
      (nodes.map (fun f => f.boundingSphereSlot)).reverse ++ s.boundingSpherePool.free ∧
    s1.transformPool.free =
      (nodes.map (fun f => f.transformSlot)).reverse ++ s.transformPool.free ∧
    s1.trace.filter Call.isPartitionRemoveNode =
      s.trace.filter Call.isPartitionRemoveNode ++
        nodes.map (fun f => Call.partitionRemoveNode f.addr) ∧
    s1.nodePool = s.nodePool ∧ s1.partitionPool = s.partitionPool

/-! ## Vocabulary for the statements about cameras -/

/-- Row 1 of a matrix as the struct `HPGmat4` names its floats. -/
def HPGmat4.row1 {F : Type} (m : HPGmat4 F) : Plane F := ⟨m._11, m._12, m._13, m._14⟩

/-- Row 2 of a matrix as the struct `HPGmat4` names its floats. -/
def HPGmat4.row2 {F : Type} (m : HPGmat4 F) : Plane F := ⟨m._21, m._22, m._23, m._24⟩

/-- Row 3 of a matrix as the struct `HPGmat4` names its floats. -/
def HPGmat4.row3 {F : Type} (m : HPGmat4 F) : Plane F := ⟨m._31, m._32, m._33, m._34⟩

/-- Row 4 of a matrix as the struct `HPGmat4` names its floats. -/
def HPGmat4.row4 {F : Type} (m : HPGmat4 F) : Plane F := ⟨m._41, m._42, m._43, m._44⟩

/-- Coefficient-wise sum of two rows. -/
def Plane.add {F : Type} [Add F] (p q : Plane F) : Plane F :=
  ⟨p.a + q.a, p.b + q.b, p.c + q.c, p.d + q.d⟩

/-- Coefficient-wise difference of two rows. -/
def Plane.sub {F : Type} [Sub F] (p q : Plane F) : Plane F :=
  ⟨p.a - q.a, p.b - q.b, p.c - q.c, p.d - q.d⟩

/-- The node has a pipeline and that pipeline has the alpha flag set. -/
def isAlphaNode {F M : Type} (E : CameraEnv F M) (n : HPGnodeFields F M) : Bool :=
  n.pipeline != 0 && (E.pipelineAt n.pipeline).hasAlpha

/-- The node has a pipeline and that pipeline has the alpha flag clear. -/
def isOpaqueNode {F M : Type} (E : CameraEnv F M) (n : HPGnodeFields F M) : Bool :=
  n.pipeline != 0 && !(E.pipelineAt n.pipeline).hasAlpha

/-! ## Concrete inputs -/

/-- Matrix expressions: the matrix library read as uninterpreted function symbols,
so that two matrices are equal only when they were built the same way. -/
inductive MatTerm (F : Type) where
  | identity : MatTerm F
  | given (name : Nat) : MatTerm F
  | mult (a b : MatTerm F) : MatTerm F
  | trs (x y z rx ry rz angle scale : F) : MatTerm F
  | inverse (a : MatTerm F) : MatTerm F
  | lookAt (ex ey ez ox oy oz ux uy uz : F) : MatTerm F
deriving DecidableEq, Repr

/-- The matrix library as uninterpreted function symbols. -/
def MatTerm.lib (F : Type) : Hypermath F (MatTerm F) where
  hpgIdentityMat4 := MatTerm.identity
  hpgMultMat4 := MatTerm.mult
  hpgTranslateRotateScale := MatTerm.trs
  hpgCameraInverse := MatTerm.inverse
  hpgLookAt := MatTerm.lookAt

/-- A node record as `hpgAddNode` leaves it (identity transform, zeroed sphere,
dirty, no children allocated), at address `addr`, with local offset `(x, 0, 0)`,
rotation axis `(0, 1, 0)`, angle `0`, payload at `addr + 100`, and its transform and
sphere slots at `addr + 200` and `addr + 300`. -/
def exampleFields (addr : Addr) (x : Int) (dirty : Bool) (capacity : Nat) :
    HPGnodeFields Int (MatTerm Int) where
  addr := addr
  x := x
  y := 0
  z := 0
  rx := 0
  ry := 1
  rz := 0
  angle := 0
  transformSlot := addr + 200
  transform := MatTerm.identity
  boundingSphereSlot := addr + 300
  boundingSphere := ⟨0, 0, 0, 0⟩
  pipeline := 0
  data := addr + 100
  delete := 7
  needsUpdate := dirty
  childrenCapacity := capacity

/-- A top-level node at local offset `(1, 0, 0)` with one child at local offset
`(1, 0, 0)`, both dirty (as after two calls of `hpgAddNode` and `hpgMoveNode`). -/
def exampleChain : HPGnode Int (MatTerm Int) :=
  .mk (exampleFields 1 1 true 1) [.mk (exampleFields 2 1 true 0) []]

/-- A scene holding `exampleChain` and a second top-level node that is clean (as an
update pass leaves a node at offset `(0, 0, 0)`) with a dirty child at offset
`(5, 0, 0)`. -/
def exampleScene : HPGscene Int (MatTerm Int) where
  nodePool := ⟨[]⟩
  transformPool := ⟨[]⟩
  boundingSpherePool := ⟨[]⟩
  partitionPool := ⟨[]⟩
  partitionStruct := 50
  topLevelNodes :=
    [exampleChain,
      .mk { exampleFields 3 0 false 1 with transform := MatTerm.trs 0 0 0 0 1 0 0 1 }
        [.mk (exampleFields 4 5 true 0) []]]
  trace := []

/-- The scene statics with `exampleScene` at address `10`, active once. -/
def exampleStatics : SceneStatics Int (MatTerm Int) where
  mem := fun _ => exampleScene
  activeScenes := [10]

/-- A node with two children that have no children of their own, as three calls
of `hpgAddNode` build it: the child vector of the parent holds two elements (capacity
`2`), those of the children were initialised with capacity `0`.  Payloads are at
`101` (parent), `102` and `103` (children). -/
def exampleFamily : HPGnode Int (MatTerm Int) :=
  .mk (exampleFields 1 0 true 2)
    [.mk (exampleFields 2 0 true 0) [], .mk (exampleFields 3 0 true 0) []]

/-- A scene whose only top-level node is `exampleFamily`. -/
def exampleFamilyScene : HPGscene Int (MatTerm Int) :=
  { exampleScene with topLevelNodes := [exampleFamily] }

/-- A camera as `hpgMakeCamera` leaves it (position and target at the origin, up
`(0, 1, 0)`, angle `0`, look-at flag clear), with projection matrix `given 0`. -/
def exampleCamera : HPGcamera Int (MatTerm Int) where
  n := 1
  f := 100
  viewAngle := 70
  position := ⟨0, 0, 0⟩
  up := ⟨0, 1, 0⟩
  object := ⟨0, 0, 0⟩
  angle := 0
  update := HPGcameraType.HPG_PERSPECTIVE
  isLookAt := false
  scene := 10
  projection := MatTerm.given 0
  viewProjection := MatTerm.identity
  modelViewProjection := MatTerm.identity
  planes := fun _ => ⟨0, 0, 0, 0⟩

/-- A clean node at address `1` whose pipeline is the one at address `1`. -/
def exampleNode1 : HPGnodeFields Int (MatTerm Int) :=
  { exampleFields 1 0 false 0 with pipeline := 1 }

/-- A clean node at address `2` whose pipeline is the one at address `2`. -/
def exampleNode2 : HPGnodeFields Int (MatTerm Int) :=
  { exampleFields 2 0 false 0 with pipeline := 2 }

/-- Two nodes with different pipelines (at addresses `1` and `2`), both without the
alpha flag, in the opaque queue; the alpha queue is empty. -/
def exampleQueues : CameraStatics Int (MatTerm Int) where
  renderQueue :=
    { data := [exampleNode1, exampleNode2]
      size := 2
      capacity := 4096 }
  alphaQueue := { data := [], size := 0, capacity := 1024 }
  currentCamera := exampleCamera
  trace := []

/-- An instance of `qsort`: insertion sort by `cmp a b ≤ 0`. -/
def exampleQsort : Qsort where
  sort := fun cmp l => l.insertionSort (fun a b => cmp a b ≤ 0)
  perm := fun cmp l => List.perm_insertionSort (fun a b => cmp a b ≤ 0) l

/-- The conversions between `float` and `int` when floats are integers. -/
def exampleFloatInt : FloatInt Int where
  toInt := fun x => x
  ofInt := fun x => x

/-- An environment in which the partition visits no node. -/
def exampleEnv : CameraEnv Int (MatTerm Int) where
  pipelineAt := fun _ => ⟨false, 0, 0, 0⟩
  doVisible := fun _ _ => []
  asHPGmat4 := fun _ => ⟨0, 0, 0, 0, 0, 0, 0, 0, 0, 0, 0, 0, 0, 0, 0, 0⟩

/-- An environment in which no pipeline has the alpha flag and the partition visits
`exampleNode1` and `exampleNode2`. -/
def exampleEnvTwo : CameraEnv Int (MatTerm Int) :=
  { exampleEnv with doVisible := fun _ _ => [exampleNode1, exampleNode2] }

/-! ## Vocabulary for the statements about dispatch -/

/-- The grouping step of `renderQueues`: its two `qsort` calls with `programSort`,
made before any callback. -/
def renderQueues.group {F M : Type} (Q : Qsort) (g : CameraStatics F M) : CameraStatics F M :=
  let g := g.setData .renderQueue
    (Q.inPlace programSort g.alphaQueue.size g.renderQueue.data)
  g.setData .renderQueue
    (Q.inPlace programSort g.renderQueue.size g.renderQueue.data)

/-- The callbacks of one batch over `nodes`: begin-batch of the pipeline of the
first node (called with that node), one render-one call per node in order (each
through the pipeline of the node itself, with the payload of the node), end-batch
of the pipeline of the first node.  No callback for no node. -/
def batch {F M : Type} (nodes : List (HPGnodeFields F M)) : List Call :=
  match nodes with
  | [] => []
  | n :: rest =>
    Call.preRender n.pipeline n.addr ::
      ((n :: rest).map (fun m => Call.render m.pipeline m.data) ++
        [Call.postRender n.pipeline])

/-- All nodes of the list have the pipeline of the first one. -/
def OnePipeline {F M : Type} (nodes : List (HPGnodeFields F M)) : Prop :=
  ∀ n ∈ nodes.head?, ∀ m ∈ nodes, m.pipeline = n.pipeline

/-- A camera whose near plane is `(1, 0, 0, 0)`: the normal is dominant on `+x`. -/
def exampleCameraX : HPGcamera Int (MatTerm Int) :=
  { exampleCamera with
    planes := fun i => if i = Faces.NEAR.index then ⟨1, 0, 0, 0⟩ else ⟨0, 0, 0, 0⟩ }

/-- A clean node at address `addr` with pipeline `p`, whose bounding sphere has
centre `(x, 0, 0)` and radius `0`; its payload is at `addr + 100`. -/
def exampleDepthNode (addr p : Addr) (x : Int) : HPGnodeFields Int (MatTerm Int) :=
  { exampleFields addr x false 0 with pipeline := p, boundingSphere := ⟨x, 0, 0, 0⟩ }

/-- Three opaque nodes sharing the pipeline at address `1`, queued at world
`x = 1, 5, 3` (addresses `11, 15, 13`); the alpha queue is empty and the near plane
is that of `exampleCameraX`. -/
def exampleDepthQueues : CameraStatics Int (MatTerm Int) where
  renderQueue :=
    { data := [exampleDepthNode 11 1 1, exampleDepthNode 15 1 5, exampleDepthNode 13 1 3]
      size := 3
      capacity := 4096 }
  alphaQueue := { data := [], size := 0, capacity := 1024 }
  currentCamera := exampleCameraX
  trace := []

/-- The queues of `exampleDepthQueues` with one node of the pipeline at address `2`
in the alpha queue (address `27`, world `x = 7`). -/
def exampleBothQueues : CameraStatics Int (MatTerm Int) :=
  { exampleDepthQueues with
    alphaQueue := { data := [exampleDepthNode 27 2 7], size := 1, capacity := 1024 } }

/-- An alpha queue of three nodes with pipelines `1, 2, 1` (addresses `31, 32, 33`)
and an opaque queue of one node with pipeline `5` (address `35`) whose backing array
still holds, beyond its size, two nodes of an earlier frame (addresses `41, 42`,
pipelines `1, 2`): `clearQueues` resets the sizes only. -/
def exampleStaleQueues : CameraStatics Int (MatTerm Int) where
  renderQueue :=
    { data := [exampleDepthNode 35 5 0, exampleDepthNode 41 1 0, exampleDepthNode 42 2 0]
      size := 1
      capacity := 4096 }
  alphaQueue :=
    { data := [exampleDepthNode 31 1 0, exampleDepthNode 32 2 0, exampleDepthNode 33 1 0]
      size := 3
      capacity := 1024 }
  currentCamera := exampleCameraX
  trace := []

/-- The statics after `renderQueues` has run on `exampleBothQueues`: the queues are
as before, the trace holds the two batches, and the model-view-projection matrix is
that of the last node rendered. -/
def exampleBothQueuesDone : CameraStatics Int (MatTerm Int) :=
  { exampleBothQueues with
    currentCamera := { exampleCameraX with
      modelViewProjection :=
        (MatTerm.lib Int).hpgMultMat4 MatTerm.identity MatTerm.identity }
    trace := [Call.preRender 2 27, Call.render 2 127, Call.postRender 2,
      Call.preRender 1 11, Call.render 1 111, Call.render 1 115, Call.render 1 113,
      Call.postRender 1] }

/-! ## `camera.c`: the camera lists -/

/-- The statics `cameraList` and `activeCameras` of `camera.c` (each slot holds an
`HPGcamera *`), with the memory these pointers lead to: `mem c` is the struct at
address `c`.  `rendered` is a ghost field: the arguments of the calls of
`hpgRenderCamera` made so far, in call order. -/
structure CameraRegistry (F M : Type) where
  cameraList : HPGvector Addr
  activeCameras : HPGvector Addr
  mem : Addr → HPGcamera F M
  rendered : List Addr

/-- What `hpgMakeCamera` uses from outside `camera.c`: the three default macros of
`scene.h`, the width and height that `windowSizefun` stores, and the two projection
builders of the mathematics library (the result is the matrix they store). -/
structure CameraSetup (F M : Type) where
  HPG_DEFAULT_NEAR_PLANE : F
  HPG_DEFAULT_FAR_PLANE : F
  HPG_DEFAULT_VIEW_ANGLE : F
  windowSizefun : Int × Int
  hpgOrtho : Int → Int → F → F → M
  hpgPerspective : Int → Int → F → F → F → M

/-- The function `hpgOrthoCamera(width, height, camera)`. -/
def hpgOrthoCamera {F M : Type} (D : CameraSetup F M) (width height : Int)
    (camera : HPGcamera F M) : HPGcamera F M :=
  { camera with projection := D.hpgOrtho width height camera.n camera.f }

/-- The function `hpgPerspectiveCamera(width, height, camera)`. -/
def hpgPerspectiveCamera {F M : Type} (D : CameraSetup F M) (width height : Int)
    (camera : HPGcamera F M) : HPGcamera F M :=
  { camera with
    projection := D.hpgPerspective width height camera.n camera.f camera.viewAngle }

/-- The call `camera->update(w, h, camera)` through the function pointer. -/
def HPGcamera.callUpdate {F M : Type} (D : CameraSetup F M) (w h : Int)
    (camera : HPGcamera F M) : HPGcamera F M :=
  match camera.update with
  | .HPG_ORTHO => hpgOrthoCamera D w h camera
  | .HPG_PERSPECTIVE => hpgPerspectiveCamera D w h camera

/-- The function `hpgMakeCamera(type, scene)`.  `camera` is the address that `malloc`
returns and `fresh` the content of the block there, of which the matrices and the
planes stay as they are.  The result is the returned pointer and the registry after
the call. -/
def hpgMakeCamera {F M : Type} [Zero F] [One F] (D : CameraSetup F M)
    (type : HPGcameraType) (scene : Addr) (camera : Addr) (fresh : HPGcamera F M)
    (r : CameraRegistry F M) : Addr × CameraRegistry F M :=
  let c : HPGcamera F M :=
    { fresh with
      n := D.HPG_DEFAULT_NEAR_PLANE
      f := D.HPG_DEFAULT_FAR_PLANE
      viewAngle := D.HPG_DEFAULT_VIEW_ANGLE
      position := ⟨0, 0, 0⟩
      up := ⟨0, 1, 0⟩
      object := ⟨0, 0, 0⟩
      angle := 0
      update := if type = .HPG_ORTHO then .HPG_ORTHO else .HPG_PERSPECTIVE
      isLookAt := false
      scene := scene }
  let r := { r with cameraList := hpgPush r.cameraList camera }
  let r := { r with activeCameras := hpgPush r.activeCameras camera }
  let (w, h) := D.windowSizefun
  let c := c.callUpdate D w h
  (camera, { r with mem := fun a => if a = camera then c else r.mem a })

/-- The function `hpgActiveateCamera(c)`. -/
def hpgActiveateCamera {F M : Type} (c : Addr) (r : CameraRegistry F M) :
    CameraRegistry F M :=
  { r with activeCameras := hpgPush r.activeCameras c }

/-- The function `hpgDeactiveateCamera(c)`; `hpgRemove` is that function of the
vector library. -/
def hpgDeactiveateCamera {F M : Type} (hpgRemove : HPGvector Addr → Addr → HPGvector Addr)
    (c : Addr) (r : CameraRegistry F M) : CameraRegistry F M :=
  { r with activeCameras := hpgRemove r.activeCameras c }

/-- The loop of `hpgRenderCameras` over the values `is` of `i`: each turn reads slot
`i` of `activeCameras`, calls `hpgRenderCamera` on the camera it points to, and
that call stores the camera back through the pointer.  The two uninitialised
locals of `renderQueues` are taken to hold the same values `alphaSort` and
`renderSort` in every call. -/
def hpgRenderCameras.loop {F M : Type} [Add F] [Sub F] [Zero F] [One F] [LT F]
    [DecidableRel (fun a b : F => a < b)]
    (K : FloatInt F) (Q : Qsort) (L : Hypermath F M) (E : CameraEnv F M) (fuel : Nat)
    (alphaSort renderSort : HPGnodeFields F M → HPGnodeFields F M → Int) :
    List Nat → CameraRegistry F M × CameraStatics F M →
      Except Fault (CameraRegistry F M × CameraStatics F M)
  | [], s => .ok s
  | i :: is, (r, g) =>
    match r.activeCameras.data[i]? with
    | none => .error .outOfBounds
    | some c =>
      match hpgRenderCamera K Q L E fuel alphaSort renderSort (r.mem c) g with
      | .error e => .error e
      | .ok (camera, g) =>
        hpgRenderCameras.loop K Q L E fuel alphaSort renderSort is
          ({ r with
              mem := fun a => if a = c then camera else r.mem a
              rendered := r.rendered ++ [c] }, g)

/-- The function `hpgRenderCameras()`.  `fuel` bounds the loops of each call of
`hpgRenderCamera`. -/
def hpgRenderCameras {F M : Type} [Add F] [Sub F] [Zero F] [One F] [LT F]
    [DecidableRel (fun a b : F => a < b)]
    (K : FloatInt F) (Q : Qsort) (L : Hypermath F M) (E : CameraEnv F M) (fuel : Nat)
    (alphaSort renderSort : HPGnodeFields F M → HPGnodeFields F M → Int)
    (s : CameraRegistry F M × CameraStatics F M) :
    Except Fault (CameraRegistry F M × CameraStatics F M) :=
  hpgRenderCameras.loop K Q L E fuel alphaSort renderSort
    (List.range s.1.activeCameras.size) s

/-- A setup with a window of 640 by 480 whose projection builders return fixed
matrices. -/
def exampleSetup : CameraSetup Int (MatTerm Int) where
  HPG_DEFAULT_NEAR_PLANE := 1
  HPG_DEFAULT_FAR_PLANE := 10000
  HPG_DEFAULT_VIEW_ANGLE := 70
  windowSizefun := (640, 480)
  hpgOrtho := fun _ _ _ _ => MatTerm.given 1
  hpgPerspective := fun _ _ _ _ _ => MatTerm.given 2

/-- The camera lists as `hpgInitCameras` leaves them: both empty. -/
def exampleRegistry : CameraRegistry Int (MatTerm Int) where
  cameraList := { data := [], size := 0, capacity := 16 }
  activeCameras := { data := [], size := 0, capacity := 16 }
  mem := fun _ => exampleCamera
  rendered := []

/-- The registry after `hpgMakeCamera(HPG_PERSPECTIVE, scene)` has returned the
camera at address `50` and `hpgActiveateCamera` has then been called on it. -/
def exampleRegistryTwice : CameraRegistry Int (MatTerm Int) :=
  hpgActiveateCamera 50
    (hpgMakeCamera exampleSetup .HPG_PERSPECTIVE 10 50 exampleCamera exampleRegistry).2

/-- The statics of `camera.c` before the first frame: empty queues. -/
def exampleIdle : CameraStatics Int (MatTerm Int) :=
  { exampleQueues with renderQueue := { data := [], size := 0, capacity := 4096 } }

/-- A call that enters a camera into the active list: `make type scene camera fresh`
is `hpgMakeCamera(type, scene)` returning `camera` (see `hpgMakeCamera`), and
`activate c` is `hpgActiveateCamera(c)`. -/
inductive CameraOp (F M : Type) where
  | make (type : HPGcameraType) (scene camera : Addr) (fresh : HPGcamera F M)
  | activate (c : Addr)

/-- The registry after the call. -/
def CameraOp.apply {F M : Type} [Zero F] [One F] (D : CameraSetup F M)
    (r : CameraRegistry F M) : CameraOp F M → CameraRegistry F M
  | .make type scene camera fresh => (hpgMakeCamera D type scene camera fresh r).2
  | .activate c => hpgActiveateCamera c r

/-- The camera that the call is about. -/
def CameraOp.camera {F M : Type} : CameraOp F M → Addr
  | .make _ _ camera _ => camera
  | .activate c => c

/-! ## `scene.c`: the node mutators -/

/-- The function `hpgSetBoundingSphere(node, radius)`: the scalar fields of `*node`
after the call. -/
def hpgSetBoundingSphere {F M : Type} (node : HPGnodeFields F M) (radius : F) :
    HPGnodeFields F M :=
  { node with
    boundingSphere := { node.boundingSphere with r := radius }
    needsUpdate := true }

/-- The function `hpgMoveNode(node, x, y, z)`: the scalar fields of `*node` after the
call. -/
def hpgMoveNode {F M : Type} [Add F] (node : HPGnodeFields F M) (x y z : F) :
    HPGnodeFields F M :=
  { node with
    x := node.x + x
    y := node.y + y
    z := node.z + z
    needsUpdate := true }

/-- The function `hpgSetNodePosition(node, x, y, z)`: the scalar fields of `*node`
after the call. -/
def hpgSetNodePosition {F M : Type} (node : HPGnodeFields F M) (x y z : F) :
    HPGnodeFields F M :=
  { node with
    x := x
    y := y
    z := z
    needsUpdate := true }

/-- The function `hpgSetNodeRotation(node, x, y, z, angle)`: the scalar fields of
`*node` after the call. -/
def hpgSetNodeRotation {F M : Type} (node : HPGnodeFields F M) (x y z angle : F) :
    HPGnodeFields F M :=
  { node with
    rx := x
    ry := y
    rz := z
    angle := angle
    needsUpdate := true }

/-- The function `hpgRotateNode(node, angle)`: the scalar fields of `*node` after
the call. -/
def hpgRotateNode {F M : Type} (node : HPGnodeFields F M) (angle : F) :
    HPGnodeFields F M :=
  { node with
    angle := angle
    needsUpdate := true }

/-- What a call that writes `w` through the pointer `target` does to a record: the
record at that address is rewritten, any other is left alone. -/
def storeAt {F M : Type} (target : Addr) (w : HPGnodeFields F M → HPGnodeFields F M)
    (f : HPGnodeFields F M) : HPGnodeFields F M :=
  if f.addr = target then w f else f

mutual
/-- A tree after a call that writes `w` to the scalar fields of the node at address
`target`: the child vectors are not written. -/
def HPGnode.store {F M : Type} (target : Addr)
    (w : HPGnodeFields F M → HPGnodeFields F M) : HPGnode F M → HPGnode F M
  | .mk f cs => .mk (storeAt target w f) (storeList target w cs)
/-- A list of sibling trees after such a call. -/
def storeList {F M : Type} (target : Addr)
    (w : HPGnodeFields F M → HPGnodeFields F M) : List (HPGnode F M) → List (HPGnode F M)
  | [] => []
  | c :: rest => c.store target w :: storeList target w rest
end

/-- A scene after a call that writes `w` to the scalar fields of the node at address
`target`. -/
def HPGscene.store {F M : Type} (scene : HPGscene F M) (target : Addr)
    (w : HPGnodeFields F M → HPGnodeFields F M) : HPGscene F M :=
  { scene with topLevelNodes := storeList target w scene.topLevelNodes }

/-- What the five node mutators have in common: the dirty flag is set, and the
transform, the bounding-sphere centre, the pipeline and the other pointers of the
record are as before. -/
def SetsDirtyOnly {F M : Type} (w : HPGnodeFields F M → HPGnodeFields F M) : Prop :=
  ∀ n, (w n).needsUpdate = true ∧ (w n).transform = n.transform ∧
    (w n).center = n.center ∧ (w n).pipeline = n.pipeline ∧ (w n).addr = n.addr ∧
    (w n).transformSlot = n.transformSlot ∧
    (w n).boundingSphereSlot = n.boundingSphereSlot ∧ (w n).data = n.data ∧
    (w n).delete = n.delete ∧ (w n).childrenCapacity = n.childrenCapacity

/-! ## `scene.c`: adding nodes -/

/-- The function `getScene(node)`.  `parent a` is the pointer `((HPGnode *) a)->parent`
as memory holds it: for the address of a scene this is the field `null`, which
`hpgMakeScene` sets to `NULL` (`0`).  The recursive path ends without a `return`
statement; the value its caller receives is the one that the recursive call has
just returned, which is what the compiled code hands back.  Each call uses one unit
of fuel. -/
def getScene (parent : Addr → Addr) : Nat → Addr → Except Fault Addr
  | 0, _ => .error .outOfFuel
  | fuel + 1, node =>
    if parent node = 0 then .ok node
    else getScene parent fuel (parent node)

/-- What `hpgAddNode` uses from the pool allocator, the vector library and libc (not
among the sources).
* `hpgAllocateFrom pool`: the slot handed out and the pool afterwards
* `free`: the address of the function `free`
* `hpgInitVector n`: the capacity of a vector after `hpgInitVector(v, n)`
* `hpgVectorPush size capacity`: the capacity after `hpgVectorPush` on a vector with
  this size and capacity -/
structure SceneLib where
  hpgAllocateFrom : HPGpool → Addr × HPGpool
  free : Addr
  hpgInitVector : Nat → Nat
  hpgVectorPush : Nat → Nat → Nat

mutual
/-- The call `hpgVectorPush(&parent->children, node)` on a tree, for the node at
address `parent`: the new node becomes the last child of that node. -/
def HPGnode.push {F M : Type} (V : SceneLib) (parent : Addr) (node : HPGnode F M) :
    HPGnode F M → HPGnode F M
  | .mk f cs =>
    if f.addr = parent then
      .mk { f with childrenCapacity := V.hpgVectorPush cs.length f.childrenCapacity }
        (cs ++ [node])
    else
      .mk f (pushList V parent node cs)
/-- The same call on a list of sibling trees. -/
def pushList {F M : Type} (V : SceneLib) (parent : Addr) (node : HPGnode F M) :
    List (HPGnode F M) → List (HPGnode F M)
  | [] => []
  | c :: rest => HPGnode.push V parent node c :: pushList V parent node rest
end

/-- The body of `hpgAddNode` after `scene` has been given the value of
`getScene(parent)`.  `parentOf` is the memory that `getScene` walks, and `fresh` the
content of the node slot that the pool hands out (the code does not write
`x y z rx ry rz angle`).  The result is the returned node pointer, `parentOf` with
`node->parent` written, and the scene statics after the call. -/
def hpgAddNode.body {F M : Type} [Zero F] (L : Hypermath F M) (V : SceneLib)
    (parentOf : Addr → Addr) (fresh : HPGnodeFields F M)
    (parent data pipeline deleteFunc : Addr) (w : SceneStatics F M) (scene : Addr) :
    Addr × (Addr → Addr) × SceneStatics F M :=
  let s := w.mem scene
  let (node, nodePool) := V.hpgAllocateFrom s.nodePool
  let (transform, transformPool) := V.hpgAllocateFrom s.transformPool
  let (sphere, boundingSpherePool) := V.hpgAllocateFrom s.boundingSpherePool
  let f : HPGnodeFields F M :=
    { fresh with
      addr := node
      transformSlot := transform
      boundingSphereSlot := sphere
      transform := L.hpgIdentityMat4
      boundingSphere := ⟨0, 0, 0, 0⟩
      data := data
      pipeline := pipeline
      delete := if deleteFunc ≠ 0 then deleteFunc else V.free
      needsUpdate := true
      childrenCapacity := V.hpgInitVector 0 }
  let s := { s with
    nodePool := nodePool
    transformPool := transformPool
    boundingSpherePool := boundingSpherePool
    trace := s.trace ++ [Call.partitionAddNode node s.partitionStruct] }
  let s :=
    if parent = scene then
      { s with topLevelNodes := s.topLevelNodes ++ [.mk f []] }
    else
      { s with topLevelNodes := pushList V parent (.mk f []) s.topLevelNodes }
  (node, fun a => if a = node then parent else parentOf a,
    { w with mem := Function.update w.mem scene s })

/-- The function `hpgAddNode(parent, data, pipeline, deleteFunc)`: `hpgAddNode.body`
with the scene that `getScene(parent)` returns. -/
def hpgAddNode {F M : Type} [Zero F] (L : Hypermath F M) (V : SceneLib)
    (parentOf : Addr → Addr) (fuel : Nat) (fresh : HPGnodeFields F M)
    (parent data pipeline deleteFunc : Addr) (w : SceneStatics F M) :
    Except Fault (Addr × (Addr → Addr) × SceneStatics F M) :=
  match getScene parentOf fuel parent with
  | .error e => .error e
  | .ok scene =>
    .ok (hpgAddNode.body L V parentOf fresh parent data pipeline deleteFunc w scene)

/-- The parent pointers of `exampleStatics`: the scene is at address `10` (its
`null` field is `0`), the top-level nodes `1` and `3` point to the scene, the nodes
`2` and `4` to their parents `1` and `3`. -/
def exampleParents : Addr → Addr := fun a =>
  if a = 1 ∨ a = 3 then 10
  else if a = 2 then 1
  else if a = 4 then 3
  else 0

/-- A pool allocator that hands out the slot after the highest released one, a
vector library that allocates what is asked for, and `free` at address `7`. -/
def exampleSceneLib : SceneLib where
  hpgAllocateFrom := fun pool => (pool.free.foldl max 0 + 1, pool)
  free := 7
  hpgInitVector := fun n => n
  hpgVectorPush := fun size capacity => max capacity (size + 1)

/-- The conversions that C applies between `float` and `int`, on exact numbers: a
number becomes an `int` by truncation toward zero. -/
def exampleTruncate : FloatInt ℚ where
  toInt := fun q => q.num.tdiv q.den
  ofInt := fun i => i

/-- A near plane `(9/10, 1/10, 1/5, 0)`: the normal is dominant on `+x` and every
coefficient has magnitude below `1`. -/
def exampleSmallPlane : Plane ℚ := ⟨9 / 10, 1 / 10, 1 / 5, 0⟩

/-- A clean node over exact numbers with pipeline `1` whose bounding sphere has
centre `(x, 0, z)` and radius `0`. -/
def exampleRatNode (x z : ℚ) : HPGnodeFields ℚ (MatTerm ℚ) where
  addr := 1
  x := x
  y := 0
  z := z
  rx := 0
  ry := 1
  rz := 0
  angle := 0
  transformSlot := 201
  transform := MatTerm.identity
  boundingSphereSlot := 301
  boundingSphere := ⟨x, 0, z, 0⟩
  pipeline := 1
  data := 101
  delete := 7
  needsUpdate := false
  childrenCapacity := 0

/-- A clean node with pipeline `1` whose bounding sphere has centre `(x, 0, 0)` and
radius `r`. -/
def exampleSphereNode (x r : Int) : HPGnodeFields Int (MatTerm Int) :=
  { exampleFields 1 x false 0 with pipeline := 1, boundingSphere := ⟨x, 0, 0, r⟩ }

/-- The value `a x + b y + c z + d` of a plane at the point `(x, y, z)`. -/
def Plane.value {F : Type} [Add F] [Mul F] (p : Plane F) (x y z : F) : F :=
  p.a * x + p.b * y + p.c * z + p.d

/-- The clip coordinates `(cx, cy, cz, cw)` of the point `(x, y, z)`: the matrix, its
rows read through the fields of `HPGmat4`, applied to `(x, y, z, 1)`. -/
def HPGmat4.clip {F : Type} [Add F] [Mul F] (m : HPGmat4 F) (x y z : F) : F × F × F × F :=
  (m._11 * x + m._12 * y + m._13 * z + m._14,
    m._21 * x + m._22 * y + m._23 * z + m._24,
    m._31 * x + m._32 * y + m._33 * z + m._34,
    m._41 * x + m._42 * y + m._43 * z + m._44)

/-! ## `camera.c`: dispatch with the statics kept when a run stops

The functions below are `renderQueues.count`, `renderQueues.run`,
`renderQueues.dispatch` and `renderQueues` again, statement for statement; the only
difference is that a run that stops without a result hands back the statics it
had reached, so that the callbacks issued up to that point can be read off. -/

/-- The inner loop of `renderQueues` (see `renderQueues.count`), keeping the statics
reached when the run stops. -/
def renderQueues.observed.count {F M : Type} (Q : Qsort) (k : Queue)
    (sort : HPGnodeFields F M → HPGnodeFields F M → Int) (p : Addr) (i : Nat) :
    Nat → Nat → CameraStatics F M →
      Except (Fault × CameraStatics F M) (Nat × CameraStatics F M)
  | 0, _, g => .error (.outOfFuel, g)
  | fuel + 1, count, g =>
    if count < (g.queue k).size - i then
      match (g.queue k).data[i + count]? with
      | none => .error (.outOfBounds, g)
      | some m =>
        if m.pipeline = p then
          renderQueues.observed.count Q k sort p i fuel (count + 1) g
        else
          renderQueues.observed.count Q k sort p i fuel count
            (g.setData k (Q.inPlace sort count (g.queue k).data))
    else
      .ok (count, g)

/-- The render loop of `renderQueues` (see `renderQueues.run`), keeping the statics
reached when the run stops. -/
def renderQueues.observed.run {F M : Type} (L : Hypermath F M) (k : Queue) (i : Nat) :
    List Nat → CameraStatics F M → Except (Fault × CameraStatics F M) (CameraStatics F M)
  | [], g => .ok g
  | j :: js, g =>
    match (g.queue k).data[i + j]? with
    | none => .error (.outOfBounds, g)
    | some node => renderQueues.observed.run L k i js (renderNode L node g)

/-- The outer loop of `renderQueues` (see `renderQueues.dispatch`), keeping the
statics reached when the run stops. -/
def renderQueues.observed.dispatch {F M : Type} (Q : Qsort) (L : Hypermath F M) (k : Queue)
    (sort : HPGnodeFields F M → HPGnodeFields F M → Int) :
    Nat → Nat → CameraStatics F M → Except (Fault × CameraStatics F M) (CameraStatics F M)
  | 0, _, g => .error (.outOfFuel, g)
  | fuel + 1, i, g =>
    if i < (g.queue k).size then
      match (g.queue k).data[i]? with
      | none => .error (.outOfBounds, g)
      | some n =>
        let p := n.pipeline
        let g := { g with trace := g.trace ++ [Call.preRender p n.addr] }
        match renderQueues.observed.count Q k sort p i fuel 1 g with
        | .error e => .error e
        | .ok (count, g) =>
          match renderQueues.observed.run L k i (List.range count) g with
          | .error e => .error e
          | .ok g =>
            let g := { g with trace := g.trace ++ [Call.postRender p] }
            renderQueues.observed.dispatch Q L k sort fuel (i + count) g
    else
      .ok g

/-- The function `renderQueues` (see there), keeping the statics reached when the
run stops. -/
def renderQueues.observed {F M : Type} [Add F] [Zero F] [LT F]
    [DecidableRel (fun a b : F => a < b)]
    (K : FloatInt F) (Q : Qsort) (L : Hypermath F M) (fuel : Nat)
    (alphaSort renderSort : HPGnodeFields F M → HPGnodeFields F M → Int)
    (g : CameraStatics F M) : Except (Fault × CameraStatics F M) (CameraStatics F M) :=
  let _unused := setSortFuns K (g.currentCamera.planes Faces.NEAR.index) alphaSort renderSort
  let g := g.setData .renderQueue
    (Q.inPlace programSort g.alphaQueue.size g.renderQueue.data)
  let g := g.setData .renderQueue
    (Q.inPlace programSort g.renderQueue.size g.renderQueue.data)
  match renderQueues.observed.dispatch Q L .alphaQueue alphaSort fuel 0 g with
  | .error e => .error e
  | .ok g => renderQueues.observed.dispatch Q L .renderQueue renderSort fuel 0 g

/-- The statics in which an observed run ends, with or without a result. -/
def lastStatics {F M : Type} :
    Except (Fault × CameraStatics F M) (CameraStatics F M) → CameraStatics F M
  | .ok g => g
  | .error (_, g) => g

/-- The run handed back a result. -/
def completed {F M : Type} :
    Except (Fault × CameraStatics F M) (CameraStatics F M) → Bool
  | .ok _ => true
  | .error _ => false

/-- The bracket automaton on a sequence of callbacks.  Its state is `none` outside a
batch and `some (p, rendered)` inside a batch of the pipeline `p`, where `rendered`
tells whether a `render` call has been read since the `preRender`.  The result is
the state after the sequence, or `none` when some call is out of place:
`preRender` inside a batch, `render` outside a batch or for another pipeline,
`postRender` outside a batch, for another pipeline or right after `preRender`, or
a call that is no pipeline callback. -/
def brackets : Option (Addr × Bool) → List Call → Option (Option (Addr × Bool))
  | s, [] => some s
  | none, Call.preRender p _ :: t => brackets (some (p, false)) t
  | some (p, _), Call.render q _ :: t => if q = p then brackets (some (p, true)) t else none
  | some (p, true), Call.postRender q :: t => if q = p then brackets none t else none
  | _, _ => none

/-! ## Vocabulary for the statements about live nodes -/

/-- The call is `partitionInterface->addNode`. -/
def Call.isPartitionAddNode : Call → Bool
  | .partitionAddNode _ _ => true
  | _ => false

/-- Whether the node at address `a` is live after one more call, given whether it
was before: `hpgAddNode` registers the node it adds with the partition
(`partitionAddNode`), `deleteNode` unregisters the node it deletes
(`partitionRemoveNode`), and no other call adds or deletes a node. -/
def liveAfter (a : Addr) (live : Bool) : Call → Bool
  | .partitionAddNode n _ => if n = a then true else live
  | .partitionRemoveNode n => if n = a then false else live
  | _ => live

/-- The node at address `a` is live in the scene: it has been added and not been
deleted since. -/
def HPGscene.live {F M : Type} (scene : HPGscene F M) (a : Addr) : Bool :=
  scene.trace.foldl (liveAfter a) false

/-- The addresses of the nodes reachable from the top-level list of the scene through
child lists, in depth-first pre-order. -/
def HPGscene.reachable {F M : Type} (scene : HPGscene F M) : List Addr :=
  (subtreeOfList scene.topLevelNodes).map (fun f => f.addr)

/-- The invariant: every node reachable from the top-level list of the scene is
live. -/
def ReachableLive {F M : Type} (scene : HPGscene F M) : Prop :=
  ∀ a ∈ scene.reachable, scene.live a = true

instance ReachableLive.decidable {F M : Type} (scene : HPGscene F M) :
    Decidable (ReachableLive scene) := by
  unfold ReachableLive
  infer_instance

mutual
/-- A tree after a call has left the record at address `target`, with what its child
vector holds, as `new`: the vectors that hold a pointer to that node are not
written. -/
def HPGnode.put {F M : Type} (target : Addr) (new : HPGnode F M) :
    HPGnode F M → HPGnode F M
  | .mk f cs => if f.addr = target then new else .mk f (putList target new cs)
/-- A list of sibling trees after such a call. -/
def putList {F M : Type} (target : Addr) (new : HPGnode F M) :
    List (HPGnode F M) → List (HPGnode F M)
  | [] => []
  | c :: rest => HPGnode.put target new c :: putList target new rest
end

/-- The scene as memory holds it after `hpgDeleteNode(node)`: the pools and the trace
are those after the call, the record of the node is what the call left of it, and
every vector of node pointers holds the pointers it held. -/
def hpgDeleteNode.after {F M : Type}
    (hpgDeleteVector : (α : Type) → HPGvector α → HPGvector α)
    (node : HPGnode F M) (scene : HPGscene F M) : HPGscene F M :=
  let r := hpgDeleteNode hpgDeleteVector node scene
  { r.2 with topLevelNodes := putList node.fields.addr r.1 r.2.topLevelNodes }

/-- What `freeNode` and `deleteNode` leave alone in the scene: the top-level list is
as before, and the calls added to the trace include no `partitionAddNode`. -/
def NoAddSince {F M : Type} (s s1 : HPGscene F M) : Prop :=
  s1.topLevelNodes = s.topLevelNodes ∧
    ∃ t, s1.trace = s.trace ++ t ∧ ∀ c ∈ t, Call.isPartitionAddNode c = false

/-- The scene statics with an empty scene at address `10`: no node has been added. -/
def exampleEmptyStatics : SceneStatics Int (MatTerm Int) where
  mem := fun _ => { exampleScene with topLevelNodes := [] }
  activeScenes := [10]

/-- The parent pointers when memory holds the scene at address `10` only. -/
def exampleNoParents : Addr → Addr := fun _ => 0

/-- The node that `hpgAddNode(scene, data, pipeline, NULL)` adds to the empty scene of
`exampleEmptyStatics` with `exampleSceneLib`, data at `105` and pipeline `1`: its
record is at address `1`, its transform and its sphere in slot `1` of their pools. -/
def exampleAddedNode : HPGnode Int (MatTerm Int) :=
  .mk { exampleFields 1 0 true 0 with
    transformSlot := 1, boundingSphereSlot := 1, pipeline := 1, data := 105 } []

/-- The scene at address `10` after that call of `hpgAddNode`. -/
def exampleAdded : HPGscene Int (MatTerm Int) :=
  { exampleScene with
    topLevelNodes := [exampleAddedNode]
    trace := [Call.partitionAddNode 1 50] }

/-! ## Vocabulary for the statements about adding nodes -/

/-- The chain of parent pointers from `node` reaches `root` after `n` steps, and
`root` is the first address on it whose parent pointer is null. -/
def ParentChain (parentOf : Addr → Addr) : Nat → Addr → Addr → Prop
  | 0, node, root => node = root ∧ parentOf root = 0
  | n + 1, node, root => parentOf node ≠ 0 ∧ ParentChain parentOf n (parentOf node) root

mutual
/-- The node that a pointer with the value `a` leads to in a tree: the first record
at that address in depth-first pre-order, with what its child vector holds. -/
def HPGnode.find {F M : Type} (a : Addr) : HPGnode F M → Option (HPGnode F M)
  | .mk f cs => if f.addr = a then some (.mk f cs) else findList a cs
/-- The node that a pointer with the value `a` leads to in a list of sibling trees. -/
def findList {F M : Type} (a : Addr) : List (HPGnode F M) → Option (HPGnode F M)
  | [] => none
  | c :: rest =>
    match HPGnode.find a c with
    | some n => some n
    | none => findList a rest
end

/-- The library of `exampleSceneLib` with a pool allocator that hands out slot `5`. -/
def exampleSceneLibFive : SceneLib :=
  { exampleSceneLib with hpgAllocateFrom := fun pool => (5, pool) }

/-! ## Theorems -/

/-! ### The update pass -/

theorem offsetSum_concat {F M : Type} [Add F] [Zero F] (anc : List (HPGnodeFields F M))
    (f : HPGnodeFields F M) :
    offsetSum (anc ++ [f]) =
      ((offsetSum anc).1 + f.x, (offsetSum anc).2.1 + f.y, (offsetSum anc).2.2 + f.z) := by
  simp [offsetSum, List.foldl_append]

theorem chainDirty_concat {F M : Type} (anc : List (HPGnodeFields F M))
    (f : HPGnodeFields F M) : chainDirty (anc ++ [f]) = (chainDirty anc || f.needsUpdate) := by
  simp [chainDirty, List.any_append]

theorem notifications_append {F M : Type} (a b : List (List (HPGnodeFields F M))) :
    notifications (a ++ b) = notifications a ++ notifications b := by
  simp [notifications, List.filter_append, List.filterMap_append]

mutual
theorem updateNode_spec {F M : Type} [Add F] [Zero F] [One F] (L : Hypermath F M)
    (x y z : F) (mark : Bool) :
    ∀ (node : HPGnode F M) (trace : List Call) (anc anc1 : List (HPGnodeFields F M)),
      anc1.length = anc.length →
      offsetSum anc = (x, y, z) → offsetSum anc1 = (x, y, z) → mark = chainDirty anc →
      List.Forall₂ (UpdateRel L) (node.chains anc)
          ((updateNode L (anc1.getLast?.map (fun f => f.transform)) x y z mark node
            trace).1.chains anc1) ∧
        (updateNode L (anc1.getLast?.map (fun f => f.transform)) x y z mark node trace).2 =
          trace ++ notifications (node.chains anc)
  | .mk f cs, trace, anc, anc1, hl, h1, h2, h3 => by
    by_cases hd : (mark || f.needsUpdate) = true
    · have ih := updateNodes_spec L (x + f.x) (y + f.y) (z + f.z) true cs
        (trace ++ [Call.partitionUpdateNode f.addr]) (anc ++ [f])
        (anc1 ++ [recomputed L (anc1.getLast?.map (fun f => f.transform))
          (x + f.x, y + f.y, z + f.z) f])
        (by simp [hl])
        (by rw [offsetSum_concat, h1])
        (by rw [offsetSum_concat, h2]; rfl)
        (by rw [chainDirty_concat, ← h3, hd])
      rw [List.getLast?_concat, Option.map_some'] at ih
      have hcd : chainDirty (anc ++ [f]) = true := by rw [chainDirty_concat, ← h3, hd]
      simp only [updateNode, hd, if_true, HPGnode.chains]
      simp only [recomputed] at ih
      refine ⟨List.Forall₂.cons ?_ ih.1, ?_⟩
      · refine ⟨by simp [hl], by rw [offsetSum_concat, offsetSum_concat, h1, h2], f,
          recomputed L (anc1.getLast?.map (fun f => f.transform)) (x + f.x, y + f.y, z + f.z) f,
          by simp, by simp [recomputed], ?_⟩
        simp only [hcd, if_true, parentTransform, List.dropLast_concat, offsetSum_concat, h1]
      · rw [ih.2]
        simp [notifications, List.filter_cons, hcd]
    · have hd2 : (mark || f.needsUpdate) = false := by simpa using hd
      have ih := updateNodes_spec L (x + f.x) (y + f.y) (z + f.z) false cs trace
        (anc ++ [f]) (anc1 ++ [f])
        (by simp [hl])
        (by rw [offsetSum_concat, h1])
        (by rw [offsetSum_concat, h2])
        (by rw [chainDirty_concat, ← h3, hd2])
      rw [List.getLast?_concat, Option.map_some'] at ih
      have hcd : chainDirty (anc ++ [f]) = false := by rw [chainDirty_concat, ← h3, hd2]
      simp only [updateNode, hd2, HPGnode.chains]
      refine ⟨List.Forall₂.cons ?_ ih.1, ?_⟩
      · exact ⟨by simp [hl], by rw [offsetSum_concat, offsetSum_concat, h1, h2], f, f,
          by simp, by simp, by simp [hcd]⟩
      · rw [ih.2]
        simp [notifications, List.filter_cons, hcd]
theorem updateNodes_spec {F M : Type} [Add F] [Zero F] [One F] (L : Hypermath F M)
    (x y z : F) (mark : Bool) :
    ∀ (nodes : List (HPGnode F M)) (trace : List Call) (anc anc1 : List (HPGnodeFields F M)),
      anc1.length = anc.length →
      offsetSum anc = (x, y, z) → offsetSum anc1 = (x, y, z) → mark = chainDirty anc →
      List.Forall₂ (UpdateRel L) (chainsOfList anc nodes)
          (chainsOfList anc1 (updateNodes L (anc1.getLast?.map (fun f => f.transform)) x y z
            mark nodes trace).1) ∧
        (updateNodes L (anc1.getLast?.map (fun f => f.transform)) x y z mark nodes trace).2 =
          trace ++ notifications (chainsOfList anc nodes)
  | [], trace, anc, anc1, _, _, _, _ => by
    simp [updateNodes, chainsOfList, notifications]
  | c :: rest, trace, anc, anc1, hl, h1, h2, h3 => by
    have ihc := updateNode_spec L x y z mark c trace anc anc1 hl h1 h2 h3
    have ihr := updateNodes_spec L x y z mark rest
      (updateNode L (anc1.getLast?.map (fun f => f.transform)) x y z mark c trace).2
      anc anc1 hl h1 h2 h3
    simp only [updateNodes, chainsOfList]
    refine ⟨List.rel_append ihc.1 ihr.1, ?_⟩
    rw [ihr.2, ihc.2, notifications_append, List.append_assoc]
end

theorem updateNode_mark {F M : Type} [Add F] [One F] (L : Hypermath F M) (parent : Option M)
    (x y z : F) (f : HPGnodeFields F M) (cs : List (HPGnode F M)) (trace : List Call) :
    updateNode L parent x y z true (.mk f cs) trace =
      updateNode L parent x y z false (.mk { f with needsUpdate := true } cs) trace := by
  simp [updateNode]

theorem forall₂_exists_left {α β : Type} {R : α → β → Prop} {l : List α} {l1 : List β}
    (h : List.Forall₂ R l l1) : ∀ b ∈ l1, ∃ a ∈ l, R a b := by
  induction h with
  | nil => intro b hb; cases hb
  | cons hab _ ih =>
    intro b hb
    rcases List.mem_cons.1 hb with rfl | hb
    · exact ⟨_, List.mem_cons_self _ _, hab⟩
    · obtain ⟨a, ha, hr⟩ := ih b hb
      exact ⟨a, List.mem_cons_of_mem _ ha, hr⟩

theorem hpgUpdateScene_spec {F M : Type} [Add F] [Zero F] [One F] (L : Hypermath F M)
    (scene : HPGscene F M) :
    List.Forall₂ (UpdateRel L) scene.chains (hpgUpdateScene L scene).chains ∧
      (hpgUpdateScene L scene).trace = scene.trace ++ notifications scene.chains := by
  have h := updateNodes_spec L (0 : F) 0 0 false scene.topLevelNodes scene.trace [] []
    rfl rfl rfl rfl
  exact h

theorem updateRel_clean {F M : Type} [Add F] [Zero F] [One F] {L : Hypermath F M}
    {ch ch1 : List (HPGnodeFields F M)} (h : UpdateRel L ch ch1) :
    ∀ n, ch1.getLast? = some n → n.needsUpdate = false := by
  obtain ⟨_, _, f, f1, hf, hf1, he⟩ := h
  intro n hn
  rw [hf1] at hn
  cases hn
  by_cases hd : chainDirty ch = true
  · rw [he, if_pos hd]; rfl
  · rw [he, if_neg hd]
    have hm : f ∈ ch := List.mem_of_getLast?_eq_some hf
    have : ¬ (f.needsUpdate = true) := fun hn => hd (List.any_eq_true.2 ⟨f, hm, hn⟩)
    simpa using this

mutual
theorem updateNode_clean {F M : Type} [Add F] [One F] (L : Hypermath F M) :
    ∀ (node : HPGnode F M) (parent : Option M) (x y z : F) (mark : Bool) (trace : List Call),
      ∀ f ∈ (updateNode L parent x y z mark node trace).1.subtree, f.needsUpdate = false
  | .mk f cs, parent, x, y, z, mark, trace => by
    by_cases hd : (mark || f.needsUpdate) = true
    · simp only [updateNode, hd, if_true, HPGnode.subtree]
      intro g hg
      rcases List.mem_cons.1 hg with rfl | hg
      · rfl
      · exact updateNodes_clean L cs _ _ _ _ _ _ g hg
    · have hd2 : (mark || f.needsUpdate) = false := by simpa using hd
      simp only [updateNode, hd2, HPGnode.subtree]
      intro g hg
      rcases List.mem_cons.1 hg with rfl | hg
      · simp only [Bool.or_eq_false_iff] at hd2
        exact hd2.2
      · exact updateNodes_clean L cs _ _ _ _ _ _ g hg
theorem updateNodes_clean {F M : Type} [Add F] [One F] (L : Hypermath F M) :
    ∀ (nodes : List (HPGnode F M)) (parent : Option M) (x y z : F) (mark : Bool)
      (trace : List Call),
      ∀ f ∈ subtreeOfList (updateNodes L parent x y z mark nodes trace).1,
        f.needsUpdate = false
  | [], _, _, _, _, _, _ => by
    simp [updateNodes, subtreeOfList]
  | c :: rest, parent, x, y, z, mark, trace => by
    simp only [updateNodes, subtreeOfList]
    intro g hg
    rcases List.mem_append.1 hg with hg | hg
    · exact updateNode_clean L c _ _ _ _ _ _ g hg
    · exact updateNodes_clean L rest _ _ _ _ _ _ g hg
end

mutual
theorem updateNode_of_clean {F M : Type} [Add F] [One F] (L : Hypermath F M) :
    ∀ (node : HPGnode F M) (parent : Option M) (x y z : F) (trace : List Call),
      (∀ f ∈ node.subtree, f.needsUpdate = false) →
      updateNode L parent x y z false node trace = (node, trace)
  | .mk f cs, parent, x, y, z, trace, h => by
    have hf : f.needsUpdate = false := h f (by simp [HPGnode.subtree])
    have hcs : ∀ g ∈ subtreeOfList cs, g.needsUpdate = false :=
      fun g hg => h g (by simp [HPGnode.subtree, hg])
    simp only [updateNode, hf, Bool.or_self, Bool.false_eq_true, if_false]
    rw [updateNodes_of_clean L cs _ _ _ _ _ hcs]
theorem updateNodes_of_clean {F M : Type} [Add F] [One F] (L : Hypermath F M) :
    ∀ (nodes : List (HPGnode F M)) (parent : Option M) (x y z : F) (trace : List Call),
      (∀ f ∈ subtreeOfList nodes, f.needsUpdate = false) →
      updateNodes L parent x y z false nodes trace = (nodes, trace)
  | [], _, _, _, _, _, _ => by
    simp [updateNodes]
  | c :: rest, parent, x, y, z, trace, h => by
    have hc : ∀ g ∈ c.subtree, g.needsUpdate = false :=
      fun g hg => h g (by simp [subtreeOfList, hg])
    have hr : ∀ g ∈ subtreeOfList rest, g.needsUpdate = false :=
      fun g hg => h g (by simp [subtreeOfList, hg])
    simp only [updateNodes]
    rw [updateNode_of_clean L c _ _ _ _ _ hc, updateNodes_of_clean L rest _ _ _ _ _ hr]
end

theorem hpgUpdateScene_idem {F M : Type} [Add F] [Zero F] [One F] (L : Hypermath F M)
    (scene : HPGscene F M) :
    hpgUpdateScene L (hpgUpdateScene L scene) = hpgUpdateScene L scene := by
  have h := updateNodes_of_clean L
    (updateNodes L none (0 : F) 0 0 false scene.topLevelNodes scene.trace).1 none 0 0 0
    (updateNodes L none (0 : F) 0 0 false scene.topLevelNodes scene.trace).2
    (updateNodes_clean L scene.topLevelNodes none 0 0 0 false scene.trace)
  simp only [hpgUpdateScene, h]

theorem foldl_update_mem {F M : Type} [Add F] [Zero F] [One F] (L : Hypermath F M)
    (a : Addr) : ∀ (l : List Addr) (w : SceneStatics F M),
      (l.foldl (fun w b =>
          { w with mem := Function.update w.mem b (hpgUpdateScene L (w.mem b)) }) w).mem a =
        if a ∈ l then hpgUpdateScene L (w.mem a) else w.mem a
  | [], w => by simp
  | b :: l, w => by
    rw [List.foldl_cons, foldl_update_mem L a l]
    by_cases hab : a = b
    · subst hab
      by_cases hl : a ∈ l
      · simp [hl, hpgUpdateScene_idem]
      · simp [hl]
    · by_cases hl : a ∈ l
      · simp [hl, hab, Function.update_noteq hab]
      · simp [hl, hab, Function.update_noteq hab]

theorem hpgUpdateScenes_mem {F M : Type} [Add F] [Zero F] [One F] (L : Hypermath F M)
    (w : SceneStatics F M) (a : Addr) (ha : a ∈ w.activeScenes) :
    (hpgUpdateScenes L w).mem a = hpgUpdateScene L (w.mem a) := by
  rw [hpgUpdateScenes, foldl_update_mem L a w.activeScenes w, if_pos ha]

theorem forall₂_and_left {α β : Type} {R : α → β → Prop} {P : α → Prop} :
    ∀ {l : List α} {l1 : List β}, List.Forall₂ R l l1 → (∀ a ∈ l, P a) →
      List.Forall₂ (fun a b => R a b ∧ P a) l l1
  | _, _, .nil, _ => .nil
  | _, _, .cons h t, hp =>
    .cons ⟨h, hp _ (List.mem_cons_self _ _)⟩
      (forall₂_and_left t (fun a ha => hp a (List.mem_cons_of_mem _ ha)))

theorem centerAfter_of_updateRel {F M : Type} [Add F] [Zero F] [One F] {L : Hypermath F M}
    {ch ch1 : List (HPGnodeFields F M)}
    (h : UpdateRel L ch ch1 ∧ (chainDirty ch = true ∨ CenterIsSum ch)) :
    CenterAfter ch ch1 := by
  obtain ⟨⟨hl, hsum, f, f1, hf, hf1, he⟩, hinv⟩ := h
  refine ⟨hl, hsum, f, f1, hf, hf1, ?_⟩
  by_cases hd : chainDirty ch = true
  · rw [he, if_pos hd]
    exact ⟨rfl, rfl, rfl, rfl, rfl⟩
  · rw [he, if_neg hd]
    rcases hinv with h | h
    · exact absurd h hd
    · exact ⟨rfl, rfl, rfl, rfl, h f (Option.mem_def.2 hf)⟩

/-- C1: in a scene of the active list in which every node is dirty, has a dirty
ancestor, or already carries the right center, `hpgUpdateScenes` keeps every node
(same tree, same order, same record address, same local offsets) and leaves in the
bounding sphere of every node, as its center, the component-wise sum of the local
offsets of the node and of all its ancestors; so every node of the scene after the
pass has that center. -/
theorem hpgUpdateScenes_center_is_offset_sum {F M : Type} [Add F] [Zero F] [One F]
    (L : Hypermath F M) (w : SceneStatics F M) (a : Addr) (ha : a ∈ w.activeScenes)
    (hinv : ∀ ch ∈ (w.mem a).chains, chainDirty ch = true ∨ CenterIsSum ch) :
    List.Forall₂ CenterAfter (w.mem a).chains ((hpgUpdateScenes L w).mem a).chains ∧
      ∀ ch ∈ ((hpgUpdateScenes L w).mem a).chains, CenterIsSum ch := by
  rw [hpgUpdateScenes_mem L w a ha]
  have hrel : List.Forall₂ CenterAfter (w.mem a).chains
      (hpgUpdateScene L (w.mem a)).chains :=
    (forall₂_and_left (hpgUpdateScene_spec L (w.mem a)).1 hinv).imp
      (fun _ _ h => centerAfter_of_updateRel h)
  refine ⟨hrel, ?_⟩
  intro ch1 hch1 n hn
  obtain ⟨ch, _, _, hsum, f, f1, _, hf1, _, _, _, _, hc⟩ := forall₂_exists_left hrel ch1 hch1
  have h := Option.mem_def.1 hn
  rw [hf1] at h
  cases h
  rw [hsum]
  exact hc

/-- C1, at a concrete scene (two top-level nodes with one child each, the second
top-level node clean with the right center already). -/
theorem hpgUpdateScenes_center_is_offset_sum_witness :
    (10 ∈ exampleStatics.activeScenes) ∧
      (∀ ch ∈ (exampleStatics.mem 10).chains, chainDirty ch = true ∨ CenterIsSum ch) ∧
      List.Forall₂ CenterAfter (exampleStatics.mem 10).chains
        ((hpgUpdateScenes (MatTerm.lib Int) exampleStatics).mem 10).chains ∧
      ∀ ch ∈ ((hpgUpdateScenes (MatTerm.lib Int) exampleStatics).mem 10).chains,
        CenterIsSum ch :=
  ⟨by decide, by decide,
    hpgUpdateScenes_center_is_offset_sum (MatTerm.lib Int) exampleStatics 10 (by decide)
      (by decide)⟩

/-- C2 (what the code does at the failing input): for a dirty top-level node at
local offset `(1, 0, 0)` with a dirty child at local offset `(1, 0, 0)`, the update
pass builds the local matrix of the child from the accumulated position `(2, 0, 0)`,
not from the local offset `(1, 0, 0)` of the child, and then combines it with the
transform of the parent, which holds the offset of the parent already. -/
theorem updateNode_local_matrix_from_world_position :
    (hpgUpdateScene (MatTerm.lib Int)
        { exampleScene with topLevelNodes := [exampleChain] }).chains.map
        (fun ch => ch.getLast?.map (fun f => f.transform)) =
      [some (MatTerm.trs 1 0 0 0 1 0 0 1),
        some (MatTerm.mult (MatTerm.trs 2 0 0 0 1 0 0 1) (MatTerm.trs 1 0 0 0 1 0 0 1))] ∧
    MatTerm.mult (MatTerm.trs 2 0 0 0 1 0 0 1) (MatTerm.trs 1 0 0 0 1 0 0 1) ≠
      MatTerm.mult (MatTerm.trs (1 : Int) 0 0 0 1 0 0 1) (MatTerm.trs 1 0 0 0 1 0 0 1) := by
  decide

/-- C3: for a scene of the active list, whatever its dirty flags, after
`hpgUpdateScenes` every node reachable from the top-level list is clean; node by
node (same tree, same order) a node that was dirty or below a dirty node is
recomputed (center and transform rewritten, flag cleared, nothing else changed)
and a node that was clean with no dirty ancestor is untouched; and the calls
added to the trace are exactly one `partitionUpdateNode` for each recomputed
node, none for the others. -/
theorem hpgUpdateScenes_dirty_propagation {F M : Type} [Add F] [Zero F] [One F]
    (L : Hypermath F M) (w : SceneStatics F M) (a : Addr) (ha : a ∈ w.activeScenes) :
    (∀ f ∈ subtreeOfList ((hpgUpdateScenes L w).mem a).topLevelNodes,
        f.needsUpdate = false) ∧
      List.Forall₂ (UpdateRel L) (w.mem a).chains ((hpgUpdateScenes L w).mem a).chains ∧
      ((hpgUpdateScenes L w).mem a).trace =
        (w.mem a).trace ++ notifications (w.mem a).chains := by
  rw [hpgUpdateScenes_mem L w a ha]
  exact ⟨updateNodes_clean L (w.mem a).topLevelNodes none 0 0 0 false (w.mem a).trace,
    hpgUpdateScene_spec L (w.mem a)⟩

/-- C3, at a concrete scene: the clean top-level node with a dirty child is not
notified, its child is. -/
theorem hpgUpdateScenes_dirty_propagation_witness :
    (10 ∈ exampleStatics.activeScenes) ∧
      ((∀ f ∈ subtreeOfList
            ((hpgUpdateScenes (MatTerm.lib Int) exampleStatics).mem 10).topLevelNodes,
          f.needsUpdate = false) ∧
        List.Forall₂ (UpdateRel (MatTerm.lib Int)) (exampleStatics.mem 10).chains
          ((hpgUpdateScenes (MatTerm.lib Int) exampleStatics).mem 10).chains ∧
        ((hpgUpdateScenes (MatTerm.lib Int) exampleStatics).mem 10).trace =
          (exampleStatics.mem 10).trace ++ notifications (exampleStatics.mem 10).chains) ∧
      notifications (exampleStatics.mem 10).chains =
        [Call.partitionUpdateNode 1, Call.partitionUpdateNode 2, Call.partitionUpdateNode 4] :=
  ⟨by decide,
    hpgUpdateScenes_dirty_propagation (MatTerm.lib Int) exampleStatics 10 (by decide),
    by decide⟩

/-! ### Deleting nodes -/

theorem freeEffect_trans {F M : Type} {s s1 s2 : HPGscene F M} (h : FreeEffect s s1)
    (h1 : FreeEffect s1 s2) : FreeEffect s s2 := by
  obtain ⟨a, b, c, d, e⟩ := h
  obtain ⟨a1, b1, c1, d1, e1⟩ := h1
  exact ⟨a1.trans a, b1.trans b, c1.trans c, d1.trans d, e1.trans e⟩

mutual
theorem freeNode_effect {F M : Type}
    (hpgDeleteVector : (α : Type) → HPGvector α → HPGvector α) :
    ∀ (node : HPGnode F M) (scene : HPGscene F M),
      FreeEffect scene (freeNode hpgDeleteVector node scene).2
  | .mk f cs, scene => by
    have h0 : FreeEffect scene
        { scene with trace := scene.trace ++ [Call.delete f.delete f.data] } :=
      ⟨rfl, rfl, rfl, rfl, by simp [List.filter_append, Call.isPartitionRemoveNode]⟩
    by_cases hc : f.childrenCapacity = 0
    · simp only [freeNode, hc, ne_eq, not_true_eq_false, if_false]
      exact h0
    · simp only [freeNode, hc, ne_eq, not_false_eq_true, if_true]
      exact freeEffect_trans h0 (freeNodes_effect hpgDeleteVector cs _)
theorem freeNodes_effect {F M : Type}
    (hpgDeleteVector : (α : Type) → HPGvector α → HPGvector α) :
    ∀ (nodes : List (HPGnode F M)) (scene : HPGscene F M),
      FreeEffect scene (freeNodes hpgDeleteVector nodes scene).2
  | [], scene => ⟨rfl, rfl, rfl, rfl, rfl⟩
  | c :: rest, scene => by
    simp only [freeNodes]
    exact freeEffect_trans (freeNode_effect hpgDeleteVector c scene)
      (freeNodes_effect hpgDeleteVector rest _)
end

theorem deleteEffect_trans {F M : Type} {l l1 : List (HPGnodeFields F M)}
    {s s1 s2 : HPGscene F M} (h : DeleteEffect l s s1) (h1 : DeleteEffect l1 s1 s2) :
    DeleteEffect (l ++ l1) s s2 := by
  obtain ⟨a, b, c, d, e⟩ := h
  obtain ⟨a1, b1, c1, d1, e1⟩ := h1
  refine ⟨?_, ?_, ?_, d1.trans d, e1.trans e⟩
  · rw [a1, a]; simp
  · rw [b1, b]; simp
  · rw [c1, c]; simp

theorem deleteEffect_free {F M : Type} {l : List (HPGnodeFields F M)}
    {s s1 s2 : HPGscene F M} (h : DeleteEffect l s s1) (h1 : FreeEffect s1 s2) :
    DeleteEffect l s s2 := by
  obtain ⟨a, b, c, d, e⟩ := h
  obtain ⟨a1, b1, c1, d1, e1⟩ := h1
  exact ⟨by rw [c1, a], by rw [b1, b], by rw [e1, c], a1.trans d, d1.trans e⟩

mutual
theorem deleteNode_effect {F M : Type}
    (hpgDeleteVector : (α : Type) → HPGvector α → HPGvector α) :
    ∀ (node : HPGnode F M) (scene : HPGscene F M),
      DeleteEffect node.subtree scene (deleteNode hpgDeleteVector node scene).2
  | .mk f cs, scene => by
    have h0 : DeleteEffect [f] scene
        { scene with
          trace := scene.trace ++ [Call.partitionRemoveNode f.addr]
          boundingSpherePool := hpgDeleteFrom f.boundingSphereSlot scene.boundingSpherePool
          transformPool := hpgDeleteFrom f.transformSlot scene.transformPool } :=
      ⟨by simp [hpgDeleteFrom], by simp [hpgDeleteFrom],
        by simp [List.filter_append, Call.isPartitionRemoveNode], rfl, rfl⟩
    have ih := deleteNodes_effect hpgDeleteVector cs
      { scene with
        trace := scene.trace ++ [Call.partitionRemoveNode f.addr]
        boundingSpherePool := hpgDeleteFrom f.boundingSphereSlot scene.boundingSpherePool
        transformPool := hpgDeleteFrom f.transformSlot scene.transformPool }
    simp only [deleteNode, HPGnode.subtree]
    exact deleteEffect_free (deleteEffect_trans h0 ih) (freeNode_effect hpgDeleteVector _ _)
theorem deleteNodes_effect {F M : Type}
    (hpgDeleteVector : (α : Type) → HPGvector α → HPGvector α) :
    ∀ (nodes : List (HPGnode F M)) (scene : HPGscene F M),
      DeleteEffect (subtreeOfList nodes) scene (deleteNodes hpgDeleteVector nodes scene).2
  | [], scene => by
    simp [deleteNodes, subtreeOfList, DeleteEffect]
  | c :: rest, scene => by
    have h := deleteNode_effect hpgDeleteVector c scene
    have h1 := deleteNodes_effect hpgDeleteVector rest (deleteNode hpgDeleteVector c scene).2
    simp only [deleteNodes, subtreeOfList]
    exact deleteEffect_trans h h1
end

theorem freeNode_of_capacity_zero {F M : Type}
    (hpgDeleteVector : (α : Type) → HPGvector α → HPGvector α) (f : HPGnodeFields F M)
    (cs : List (HPGnode F M)) (scene : HPGscene F M) (h : f.childrenCapacity = 0) :
    freeNode hpgDeleteVector (.mk f cs) scene =
      (.mk f cs, { scene with trace := scene.trace ++ [Call.delete f.delete f.data] }) := by
  simp [freeNode, h]

/-- C4 (what the code does at the failing input): deleting a node with two
childless children calls the payload destructor five times, in the order child,
child, parent, child, child: `deleteNode` has already run `freeNode` on each child
when `freeNode` on the parent calls the destructor of the parent and then runs
`freeNode` on each child again.  This holds whatever `hpgDeleteVector` does. -/
theorem hpgDeleteNode_destructor_sequence
    (hpgDeleteVector : (α : Type) → HPGvector α → HPGvector α) :
    (hpgDeleteNode hpgDeleteVector exampleFamily exampleFamilyScene).2.trace.filter
        Call.isDelete =
      [Call.delete 7 102, Call.delete 7 103, Call.delete 7 101, Call.delete 7 102,
        Call.delete 7 103] := by
  have e2 : (exampleFields 2 0 true 0).childrenCapacity = 0 := rfl
  have e3 : (exampleFields 3 0 true 0).childrenCapacity = 0 := rfl
  have e1 : (exampleFields 1 0 true 2).childrenCapacity ≠ 0 := by decide
  simp only [hpgDeleteNode, exampleFamily, deleteNode, deleteNodes,
    freeNode_of_capacity_zero hpgDeleteVector _ _ _ e2,
    freeNode_of_capacity_zero hpgDeleteVector _ _ _ e3]
  simp only [freeNode, e1, ne_eq, not_false_eq_true, if_true, freeNodes,
    freeNode_of_capacity_zero hpgDeleteVector _ _ _ e2,
    freeNode_of_capacity_zero hpgDeleteVector _ _ _ e3]
  simp [exampleFamilyScene, exampleScene, exampleFields, Call.isDelete, List.filter]

/-- C5: `hpgDeleteNode` on a subtree releases to the bounding-sphere pool and to the
transform pool exactly the slots of the nodes of the subtree, one release per node
(so `k` more free slots in each pool for a subtree of `k` nodes), and calls
`removeNode` of the partition exactly once per node of the subtree; for a node with
two childless children these are the three slots and the three nodes. -/
theorem hpgDeleteNode_releases_slots {F M : Type}
    (hpgDeleteVector : (α : Type) → HPGvector α → HPGvector α) (node : HPGnode F M)
    (scene : HPGscene F M) :
    ((hpgDeleteNode hpgDeleteVector node scene).2.boundingSpherePool.free =
        (node.subtree.map (fun f => f.boundingSphereSlot)).reverse ++
          scene.boundingSpherePool.free ∧
      (hpgDeleteNode hpgDeleteVector node scene).2.transformPool.free =
        (node.subtree.map (fun f => f.transformSlot)).reverse ++ scene.transformPool.free ∧
      (hpgDeleteNode hpgDeleteVector node scene).2.trace.filter Call.isPartitionRemoveNode =
        scene.trace.filter Call.isPartitionRemoveNode ++
          node.subtree.map (fun f => Call.partitionRemoveNode f.addr)) ∧
    ((hpgDeleteNode hpgDeleteVector node scene).2.boundingSpherePool.free.length =
        scene.boundingSpherePool.free.length + node.subtree.length ∧
      (hpgDeleteNode hpgDeleteVector node scene).2.transformPool.free.length =
        scene.transformPool.free.length + node.subtree.length) ∧
    ∀ f f1 f2 : HPGnodeFields F M,
      (hpgDeleteNode hpgDeleteVector (.mk f [.mk f1 [], .mk f2 []]) scene).2.boundingSpherePool.free =
          [f2.boundingSphereSlot, f1.boundingSphereSlot, f.boundingSphereSlot] ++
            scene.boundingSpherePool.free ∧
        (hpgDeleteNode hpgDeleteVector (.mk f [.mk f1 [], .mk f2 []]) scene).2.transformPool.free =
          [f2.transformSlot, f1.transformSlot, f.transformSlot] ++ scene.transformPool.free ∧
        (hpgDeleteNode hpgDeleteVector (.mk f [.mk f1 [], .mk f2 []]) scene).2.trace.filter
            Call.isPartitionRemoveNode =
          scene.trace.filter Call.isPartitionRemoveNode ++
            [Call.partitionRemoveNode f.addr, Call.partitionRemoveNode f1.addr,
              Call.partitionRemoveNode f2.addr] := by
  obtain ⟨a, b, c, _, _⟩ := deleteNode_effect hpgDeleteVector node scene
  refine ⟨⟨a, b, c⟩, ⟨?_, ?_⟩, ?_⟩
  · rw [hpgDeleteNode, a]; simp [Nat.add_comm]
  · rw [hpgDeleteNode, b]; simp [Nat.add_comm]
  · intro f f1 f2
    obtain ⟨a2, b2, c2, _, _⟩ :=
      deleteNode_effect hpgDeleteVector (.mk f [.mk f1 [], .mk f2 []]) scene
    rw [hpgDeleteNode, a2, b2, c2]
    simp [HPGnode.subtree, subtreeOfList]

/-- C6 (what the code does, at every input and so at the failing one): `hpgDeleteNode`
returns nothing to the node pool; the free slots of the node pool are the same
after the call as before it.  Neither `deleteNode` nor `freeNode` releases a node
record. -/
theorem hpgDeleteNode_nodePool_unchanged {F M : Type}
    (hpgDeleteVector : (α : Type) → HPGvector α → HPGvector α) (node : HPGnode F M)
    (scene : HPGscene F M) :
    (hpgDeleteNode hpgDeleteVector node scene).2.nodePool = scene.nodePool :=
  (deleteNode_effect hpgDeleteVector node scene).2.2.2.1

/-! ### Cameras: view matrix, planes, queues -/

theorem foldl_addToQueue_currentCamera {F M : Type} (E : CameraEnv F M) :
    ∀ (l : List (HPGnodeFields F M)) (g : CameraStatics F M),
      (l.foldl (addToQueue E) g).currentCamera = g.currentCamera ∧
        (l.foldl (addToQueue E) g).trace = g.trace
  | [], g => ⟨rfl, rfl⟩
  | n :: l, g => by
    have ih := foldl_addToQueue_currentCamera E l (addToQueue E g n)
    rw [List.foldl_cons, ih.1, ih.2]
    unfold addToQueue
    split
    · exact ⟨rfl, rfl⟩
    · split <;> exact ⟨rfl, rfl⟩

theorem build_currentCamera {F M : Type} [Add F] [Sub F] [One F] (L : Hypermath F M)
    (E : CameraEnv F M) (camera : HPGcamera F M) (g : CameraStatics F M) :
    (hpgRenderCamera.build L E camera g).currentCamera =
      computePlanes E { camera with
        viewProjection := L.hpgMultMat4 camera.projection (hpgRenderCamera.view L camera) } := by
  unfold hpgRenderCamera.build
  simp only [(foldl_addToQueue_currentCamera E _ _).1]
  rfl

theorem setData_currentCamera {F M : Type} (g : CameraStatics F M) (k : Queue)
    (data : List (HPGnodeFields F M)) :
    (g.setData k data).currentCamera = g.currentCamera ∧ (g.setData k data).trace = g.trace := by
  cases k <;> exact ⟨rfl, rfl⟩

theorem renderQueues_count_frame {F M : Type} (Q : Qsort) (k : Queue)
    (sort : HPGnodeFields F M → HPGnodeFields F M → Int) (p : Addr) (i : Nat) :
    ∀ (fuel count : Nat) (g : CameraStatics F M) (r : Nat × CameraStatics F M),
      renderQueues.count Q k sort p i fuel count g = .ok r →
      r.2.currentCamera = g.currentCamera ∧ r.2.trace = g.trace
  | 0, _, _, _, h => by cases h
  | fuel + 1, count, g, r, h => by
    rw [renderQueues.count] at h
    split at h
    · split at h
      · cases h
      · split at h
        · have ih := renderQueues_count_frame Q k sort p i fuel _ _ r h
          exact ih
        · have ih := renderQueues_count_frame Q k sort p i fuel _ _ r h
          rw [(setData_currentCamera g k _).1, (setData_currentCamera g k _).2] at ih
          exact ih
    · cases h
      exact ⟨rfl, rfl⟩

theorem renderQueues_run_frame {F M : Type} (L : Hypermath F M) (k : Queue) (i : Nat) :
    ∀ (js : List Nat) (g g1 : CameraStatics F M),
      renderQueues.run L k i js g = .ok g1 →
      g1.currentCamera.viewProjection = g.currentCamera.viewProjection
  | [], g, g1, h => by
    cases h
    rfl
  | j :: js, g, g1, h => by
    rw [renderQueues.run] at h
    split at h
    · cases h
    · have ih := renderQueues_run_frame L k i js _ g1 h
      rw [ih]
      rfl

theorem renderQueues_dispatch_frame {F M : Type} (Q : Qsort) (L : Hypermath F M) (k : Queue)
    (sort : HPGnodeFields F M → HPGnodeFields F M → Int) :
    ∀ (fuel i : Nat) (g g1 : CameraStatics F M),
      renderQueues.dispatch Q L k sort fuel i g = .ok g1 →
      g1.currentCamera.viewProjection = g.currentCamera.viewProjection
  | 0, _, _, _, h => by cases h
  | fuel + 1, i, g, g1, h => by
    rw [renderQueues.dispatch] at h
    split at h
    · split at h
      · cases h
      · simp only at h
        split at h
        · cases h
        · rename_i n _ count g2 hc
          split at h
          · cases h
          · rename_i g3 hr
            have h1 := renderQueues_count_frame Q k sort _ i fuel 1 _ _ hc
            have h2 := renderQueues_run_frame L k i _ _ _ hr
            have h3 := renderQueues_dispatch_frame Q L k sort fuel _ _ g1 h
            rw [h3]
            show g3.currentCamera.viewProjection = _
            rw [h2, h1.1]
    · cases h
      rfl

theorem renderQueues_frame {F M : Type} [Add F] [Zero F] [LT F]
    [DecidableRel (fun a b : F => a < b)] (K : FloatInt F) (Q : Qsort) (L : Hypermath F M)
    (fuel : Nat) (alphaSort renderSort : HPGnodeFields F M → HPGnodeFields F M → Int)
    (g g1 : CameraStatics F M)
    (h : renderQueues K Q L fuel alphaSort renderSort g = .ok g1) :
    g1.currentCamera.viewProjection = g.currentCamera.viewProjection := by
  unfold renderQueues at h
  simp only at h
  split at h
  · cases h
  · rename_i g2 hα
    have h1 := renderQueues_dispatch_frame Q L _ _ fuel 0 _ _ hα
    have h2 := renderQueues_dispatch_frame Q L _ _ fuel 0 _ _ h
    rw [h2, h1]
    rfl

/-- When `hpgRenderCamera` returns, the view-projection matrix it writes back to
`*camera` is the one computed before the queues were built. -/
theorem hpgRenderCamera_viewProjection {F M : Type} [Add F] [Sub F] [Zero F] [One F] [LT F]
    [DecidableRel (fun a b : F => a < b)] (K : FloatInt F) (Q : Qsort) (L : Hypermath F M)
    (E : CameraEnv F M) (fuel : Nat)
    (alphaSort renderSort : HPGnodeFields F M → HPGnodeFields F M → Int)
    (camera : HPGcamera F M) (g : CameraStatics F M)
    (r : HPGcamera F M × CameraStatics F M)
    (h : hpgRenderCamera K Q L E fuel alphaSort renderSort camera g = .ok r) :
    r.1.viewProjection =
      L.hpgMultMat4 camera.projection (hpgRenderCamera.view L camera) := by
  unfold hpgRenderCamera at h
  split at h
  · cases h
  · rename_i g1 hq
    cases h
    rw [renderQueues_frame K Q L fuel alphaSort renderSort _ g1 hq, build_currentCamera]
    rfl

/-- C7 (what the code does, at every camera and so at the failing one): after
`hpgCameraLookAt` (look-at flag set) the view matrix is the inverse of the
transform built from position, up and angle, and the target is not used; after
`hpgSetCameraRotation` or `hpgRotateCamera` (look-at flag clear) it is the look-at
construction toward `object`.  The two branches are the other way round from
what the flag says.  The view-projection matrix built from it is what
`hpgRenderCamera` writes back whenever it returns, and it does return for a camera
fresh from `hpgMakeCamera` and `hpgCameraLookAt` when no node is visible, with a
view that, as an expression of the matrix library, is not the look-at matrix. -/
theorem hpgRenderCamera_view_branches {F M : Type} [Add F] [Sub F] [Zero F] [One F] [LT F]
    [DecidableRel (fun a b : F => a < b)]
    (L : Hypermath F M) (E : CameraEnv F M) (camera : HPGcamera F M)
    (g : CameraStatics F M) (x y z a : F) :
    ((hpgRenderCamera.build L E (hpgCameraLookAt camera x y z) g).currentCamera.viewProjection =
        L.hpgMultMat4 camera.projection
          (L.hpgCameraInverse (L.hpgTranslateRotateScale camera.position.x camera.position.y
            camera.position.z camera.up.x camera.up.y camera.up.z camera.angle 1)) ∧
      (hpgRenderCamera.build L E (hpgSetCameraRotation camera x y z a) g).currentCamera.viewProjection =
        L.hpgMultMat4 camera.projection
          (L.hpgLookAt camera.position.x camera.position.y camera.position.z
            camera.object.x camera.object.y camera.object.z x y z) ∧
      (hpgRenderCamera.build L E (hpgRotateCamera camera a) g).currentCamera.viewProjection =
        L.hpgMultMat4 camera.projection
          (L.hpgLookAt camera.position.x camera.position.y camera.position.z
            camera.object.x camera.object.y camera.object.z
            camera.up.x camera.up.y camera.up.z)) ∧
    (∀ (K : FloatInt F) (Q : Qsort) (fuel : Nat)
        (alphaSort renderSort : HPGnodeFields F M → HPGnodeFields F M → Int)
        (r : HPGcamera F M × CameraStatics F M),
        hpgRenderCamera K Q L E fuel alphaSort renderSort (hpgCameraLookAt camera x y z) g =
          .ok r →
        r.1.viewProjection =
          L.hpgMultMat4 camera.projection
            (L.hpgCameraInverse (L.hpgTranslateRotateScale camera.position.x
              camera.position.y camera.position.z camera.up.x camera.up.y camera.up.z
              camera.angle 1))) ∧
    (∀ alphaSort renderSort :
        HPGnodeFields Int (MatTerm Int) → HPGnodeFields Int (MatTerm Int) → Int,
        (hpgRenderCamera exampleFloatInt exampleQsort (MatTerm.lib Int) exampleEnv 1
            alphaSort renderSort (hpgCameraLookAt exampleCamera 0 0 (-5)) exampleQueues).map
          (fun r => r.1.viewProjection) =
        .ok (MatTerm.mult (MatTerm.given 0)
          (MatTerm.inverse (MatTerm.trs 0 0 0 0 1 0 0 1)))) ∧
    MatTerm.inverse (MatTerm.trs (0 : Int) 0 0 0 1 0 0 1) ≠
      (MatTerm.lib Int).hpgLookAt 0 0 0 0 0 (-5) 0 1 0 := by
  refine ⟨⟨?_, ?_, ?_⟩, ?_, fun _ _ => rfl, by decide⟩
  · rw [build_currentCamera]; rfl
  · rw [build_currentCamera]; rfl
  · rw [build_currentCamera]; rfl
  · intro K Q fuel alphaSort renderSort r h
    rw [hpgRenderCamera_viewProjection K Q L E fuel alphaSort renderSort _ g r h]
    rfl

theorem faces_index_injective : Function.Injective Faces.index := by
  intro a b h
  cases a <;> cases b <;> first | rfl | (exact absurd h (by decide))

/-- C8: `computePlanes` stores, at the index of each enumerator of `Faces`, the row
combination of the view-projection matrix read through the struct `HPGmat4`:
LEFT = row4 + row1, RIGHT = row4 - row1, BOTTOM = row4 + row2, TOP = row4 - row2,
NEAR = row4 + row3, FAR = row4 - row3; the six indices are distinct and nothing
else of the camera changes. -/
theorem computePlanes_rows {F M : Type} [Add F] [Sub F] (E : CameraEnv F M)
    (camera : HPGcamera F M) :
    ((computePlanes E camera).planes Faces.LEFT.index =
        (E.asHPGmat4 camera.viewProjection).row4.add (E.asHPGmat4 camera.viewProjection).row1 ∧
      (computePlanes E camera).planes Faces.RIGHT.index =
        (E.asHPGmat4 camera.viewProjection).row4.sub (E.asHPGmat4 camera.viewProjection).row1 ∧
      (computePlanes E camera).planes Faces.BOTTOM.index =
        (E.asHPGmat4 camera.viewProjection).row4.add (E.asHPGmat4 camera.viewProjection).row2 ∧
      (computePlanes E camera).planes Faces.TOP.index =
        (E.asHPGmat4 camera.viewProjection).row4.sub (E.asHPGmat4 camera.viewProjection).row2 ∧
      (computePlanes E camera).planes Faces.NEAR.index =
        (E.asHPGmat4 camera.viewProjection).row4.add (E.asHPGmat4 camera.viewProjection).row3 ∧
      (computePlanes E camera).planes Faces.FAR.index =
        (E.asHPGmat4 camera.viewProjection).row4.sub (E.asHPGmat4 camera.viewProjection).row3) ∧
    Function.Injective Faces.index ∧
    computePlanes E camera = { camera with planes := (computePlanes E camera).planes } := by
  refine ⟨⟨?_, ?_, ?_, ?_, ?_, ?_⟩, faces_index_injective, rfl⟩ <;>
    simp [computePlanes, Faces.index, Function.update, Plane.add, Plane.sub, HPGmat4.row1,
      HPGmat4.row2, HPGmat4.row3, HPGmat4.row4]

theorem hpgPush_live {α : Type} (v : HPGvector α) (x : α) (h : v.size ≤ v.data.length) :
    (hpgPush v x).live = v.live ++ [x] ∧ (hpgPush v x).size ≤ (hpgPush v x).data.length := by
  constructor
  · simp only [hpgPush, HPGvector.live]
    rw [List.append_assoc, List.take_append_eq_append_take]
    simp [List.length_take, Nat.min_eq_left h]
  · simp only [hpgPush, List.length_append, List.length_take, Nat.min_eq_left h,
      List.length_singleton]
    omega

theorem foldl_addToQueue_queues {F M : Type} (E : CameraEnv F M) :
    ∀ (l : List (HPGnodeFields F M)) (g : CameraStatics F M),
      g.alphaQueue.size ≤ g.alphaQueue.data.length →
      g.renderQueue.size ≤ g.renderQueue.data.length →
      ((l.foldl (addToQueue E) g).alphaQueue.live =
          g.alphaQueue.live ++ l.filter (isAlphaNode E) ∧
        (l.foldl (addToQueue E) g).renderQueue.live =
          g.renderQueue.live ++ l.filter (isOpaqueNode E)) ∧
      (l.foldl (addToQueue E) g).alphaQueue.size =
          g.alphaQueue.size + (l.filter (isAlphaNode E)).length ∧
        (l.foldl (addToQueue E) g).renderQueue.size =
          g.renderQueue.size + (l.filter (isOpaqueNode E)).length
  | [], g, _, _ => by simp
  | n :: l, g, ha, hr => by
    rw [List.foldl_cons]
    by_cases hp : n.pipeline = 0
    · have e : addToQueue E g n = g := by simp [addToQueue, hp]
      have fa : isAlphaNode E n = false := by simp [isAlphaNode, hp]
      have fo : isOpaqueNode E n = false := by simp [isOpaqueNode, hp]
      rw [e]
      obtain ⟨⟨ia, ir⟩, sa, sr⟩ := foldl_addToQueue_queues E l g ha hr
      rw [List.filter_cons_of_neg (by simp [fa]), List.filter_cons_of_neg (by simp [fo])]
      exact ⟨⟨ia, ir⟩, sa, sr⟩
    · by_cases hα : (E.pipelineAt n.pipeline).hasAlpha = true
      · have e : addToQueue E g n = { g with alphaQueue := hpgPush g.alphaQueue n } := by
          simp [addToQueue, hp, hα]
        have fa : isAlphaNode E n = true := by simp [isAlphaNode, hp, hα]
        have fo : isOpaqueNode E n = false := by simp [isOpaqueNode, hα]
        rw [e]
        have hpush := hpgPush_live g.alphaQueue n ha
        obtain ⟨⟨ia, ir⟩, sa, sr⟩ := foldl_addToQueue_queues E l
          { g with alphaQueue := hpgPush g.alphaQueue n } hpush.2 hr
        rw [List.filter_cons_of_pos fa, List.filter_cons_of_neg (by simp [fo])]
        refine ⟨⟨?_, ir⟩, ?_, sr⟩
        · rw [ia]
          show (hpgPush g.alphaQueue n).live ++ _ = _
          rw [hpush.1]
          simp
        · rw [sa]
          show g.alphaQueue.size + 1 + _ = _
          simp only [List.length_cons]
          omega
      · have hα2 : (E.pipelineAt n.pipeline).hasAlpha = false := by simpa using hα
        have e : addToQueue E g n = { g with renderQueue := hpgPush g.renderQueue n } := by
          simp [addToQueue, hp, hα2]
        have fa : isAlphaNode E n = false := by simp [isAlphaNode, hα2]
        have fo : isOpaqueNode E n = true := by simp [isOpaqueNode, hp, hα2]
        rw [e]
        have hpush := hpgPush_live g.renderQueue n hr
        obtain ⟨⟨ia, ir⟩, sa, sr⟩ := foldl_addToQueue_queues E l
          { g with renderQueue := hpgPush g.renderQueue n } ha hpush.2
        rw [List.filter_cons_of_neg (by simp [fa]), List.filter_cons_of_pos fo]
        refine ⟨⟨ia, ?_⟩, sa, ?_⟩
        · rw [ir]
          show (hpgPush g.renderQueue n).live ++ _ = _
          rw [hpush.1]
          simp
        · rw [sr]
          show g.renderQueue.size + 1 + _ = _
          simp only [List.length_cons]
          omega

/-- C9: whatever the two queues held before, after the queue-build step of
`hpgRenderCamera` the alpha queue holds exactly the nodes visited by `doVisible`
(for the planes just computed) that have a pipeline with the alpha flag set, and
the opaque queue exactly the visited nodes that have a pipeline with the flag
clear, each in visit order; so a node that is not visited is in neither queue. -/
theorem hpgRenderCamera_build_queues {F M : Type} [Add F] [Sub F] [One F]
    (L : Hypermath F M) (E : CameraEnv F M) (camera : HPGcamera F M)
    (g : CameraStatics F M) :
    (hpgRenderCamera.build L E camera g).alphaQueue.live =
        (E.doVisible camera.scene (hpgRenderCamera.build L E camera g).currentCamera.planes).filter
          (isAlphaNode E) ∧
      (hpgRenderCamera.build L E camera g).renderQueue.live =
        (E.doVisible camera.scene (hpgRenderCamera.build L E camera g).currentCamera.planes).filter
          (isOpaqueNode E) ∧
      ∀ n, n ∉ E.doVisible camera.scene (hpgRenderCamera.build L E camera g).currentCamera.planes →
        n ∉ (hpgRenderCamera.build L E camera g).alphaQueue.live ∧
          n ∉ (hpgRenderCamera.build L E camera g).renderQueue.live := by
  have hq := foldl_addToQueue_queues E
    (E.doVisible camera.scene (hpgRenderCamera.build L E camera g).currentCamera.planes)
    { clearQueues { g with currentCamera := camera } with
      currentCamera := computePlanes E { camera with
        viewProjection := L.hpgMultMat4 camera.projection (hpgRenderCamera.view L camera) } }
    (Nat.zero_le _) (Nat.zero_le _)
  have hb : hpgRenderCamera.build L E camera g =
      (E.doVisible camera.scene (hpgRenderCamera.build L E camera g).currentCamera.planes).foldl
        (addToQueue E)
        { clearQueues { g with currentCamera := camera } with
          currentCamera := computePlanes E { camera with
            viewProjection :=
              L.hpgMultMat4 camera.projection (hpgRenderCamera.view L camera) } } := by
    rw [build_currentCamera]
    rfl
  have ha : (hpgRenderCamera.build L E camera g).alphaQueue.live =
      (E.doVisible camera.scene (hpgRenderCamera.build L E camera g).currentCamera.planes).filter
        (isAlphaNode E) := by
    conv_lhs => rw [hb]
    rw [hq.1.1]
    simp [clearQueues, HPGvector.live]
  have hr : (hpgRenderCamera.build L E camera g).renderQueue.live =
      (E.doVisible camera.scene (hpgRenderCamera.build L E camera g).currentCamera.planes).filter
        (isOpaqueNode E) := by
    conv_lhs => rw [hb]
    rw [hq.1.2]
    simp [clearQueues, HPGvector.live]
  refine ⟨ha, hr, ?_⟩
  intro n hn
  rw [ha, hr]
  exact ⟨fun h => hn (List.mem_filter.1 h).1, fun h => hn (List.mem_filter.1 h).1⟩

/-! ### Cameras: dispatching the queues -/

theorem qsort_inPlace_getElem? {α : Type} (Q : Qsort) (cmp : α → α → Int) (nmemb : Nat)
    (data : List α) (j : Nat) (h : nmemb + j < data.length) :
    (Q.inPlace cmp nmemb data)[nmemb + j]? = data[nmemb + j]? := by
  have hl : (Q.sort cmp (data.take nmemb)).length = nmemb := by
    rw [(Q.perm cmp (data.take nmemb)).length_eq, List.length_take]
    omega
  rw [Qsort.inPlace, List.getElem?_append_right (by omega), hl, List.getElem?_drop]
  simp

theorem queue_setData {F M : Type} (g : CameraStatics F M) (k : Queue)
    (data : List (HPGnodeFields F M)) :
    (g.setData k data).queue k = { g.queue k with data := data } := by
  cases k <;> rfl

/-- Once the inner loop of `renderQueues` meets a node of another pipeline it never
leaves: the `else` branch sorts the slots before that node and changes neither
`count` nor the node. -/
theorem renderQueues_count_stuck {F M : Type} (Q : Qsort) (k : Queue)
    (sort : HPGnodeFields F M → HPGnodeFields F M → Int) (p : Addr) (i count : Nat)
    (m : HPGnodeFields F M) (hm : m.pipeline ≠ p) :
    ∀ (fuel : Nat) (g : CameraStatics F M),
      count < (g.queue k).size - i → (g.queue k).data[i + count]? = some m →
      renderQueues.count Q k sort p i fuel count g = .error .outOfFuel
  | 0, _, _, _ => rfl
  | fuel + 1, g, hc, hd => by
    have hlen : i + count < (g.queue k).data.length := by
      rcases Nat.lt_or_ge (i + count) (g.queue k).data.length with h | h
      · exact h
      · rw [List.getElem?_eq_none h] at hd
        cases hd
    have hd2 : ((g.setData k (Q.inPlace sort count (g.queue k).data)).queue k).data[i + count]? =
        some m := by
      rw [queue_setData]
      show (Q.inPlace sort count (g.queue k).data)[i + count]? = some m
      rw [Nat.add_comm i count, qsort_inPlace_getElem? Q sort count _ i (by omega),
        Nat.add_comm count i]
      exact hd
    have hc2 : count < ((g.setData k (Q.inPlace sort count (g.queue k).data)).queue k).size - i := by
      rw [queue_setData]
      exact hc
    rw [renderQueues.count, if_pos hc, hd]
    simp only [hm, if_false]
    exact renderQueues_count_stuck Q k sort p i count m hm fuel _ hc2 hd2

theorem renderQueues_dispatch_stuck {F M : Type} (Q : Qsort) (L : Hypermath F M) (k : Queue)
    (sort : HPGnodeFields F M → HPGnodeFields F M → Int) (i : Nat)
    (n m : HPGnodeFields F M) (hm : m.pipeline ≠ n.pipeline) (fuel : Nat)
    (g : CameraStatics F M) (hs : 1 < (g.queue k).size - i)
    (hn : (g.queue k).data[i]? = some n) (hd : (g.queue k).data[i + 1]? = some m) :
    renderQueues.dispatch Q L k sort fuel i g = .error .outOfFuel := by
  cases fuel with
  | zero => rfl
  | succ fuel =>
    have hi : i < (g.queue k).size := by omega
    have hq : ({ g with trace := g.trace ++ [Call.preRender n.pipeline n.addr] } :
        CameraStatics F M).queue k = g.queue k := by
      cases k <;> rfl
    rw [renderQueues.dispatch, if_pos hi, hn]
    simp only
    rw [renderQueues_count_stuck Q k sort n.pipeline i 1 m hm fuel _ (by rw [hq]; exact hs)
      (by rw [hq]; exact hd)]

theorem renderQueues_dispatch_empty {F M : Type} (Q : Qsort) (L : Hypermath F M) (k : Queue)
    (sort : HPGnodeFields F M → HPGnodeFields F M → Int) (fuel : Nat)
    (g : CameraStatics F M) (hs : (g.queue k).size = 0) :
    renderQueues.dispatch Q L k sort (fuel + 1) 0 g = .ok g := by
  rw [renderQueues.dispatch, if_neg (by omega)]

theorem perm_pair_pipelines {F M : Type} (l : List (HPGnodeFields F M))
    (a b : HPGnodeFields F M) (hab : a.pipeline ≠ b.pipeline) (h : l.Perm [a, b]) :
    ∃ n m, l = [n, m] ∧ m.pipeline ≠ n.pipeline := by
  have hlen := h.length_eq
  match l, hlen with
  | [n, m], _ =>
    refine ⟨n, m, rfl, ?_⟩
    have hnd : ([n, m].map (fun f => f.pipeline)).Nodup :=
      (h.map (fun f => f.pipeline)).nodup_iff.2 (by simp [hab])
    intro e
    simp [e] at hnd

theorem renderQueues_diverges_of_pair {F M : Type} [Add F] [Zero F] [LT F]
    [DecidableRel (fun a b : F => a < b)] (K : FloatInt F) (Q : Qsort) (L : Hypermath F M)
    (alphaSort renderSort : HPGnodeFields F M → HPGnodeFields F M → Int)
    (g : CameraStatics F M) (n1 n2 : HPGnodeFields F M)
    (hα : g.alphaQueue.size = 0) (hs : g.renderQueue.size = 2)
    (hd : g.renderQueue.data.take 2 = [n1, n2]) (hp : n1.pipeline ≠ n2.pipeline)
    (fuel : Nat) :
    renderQueues K Q L fuel alphaSort renderSort g = .error .outOfFuel := by
  cases fuel with
  | zero => rfl
  | succ fuel =>
    have h0 : Q.inPlace programSort g.alphaQueue.size g.renderQueue.data =
        g.renderQueue.data := by
      have : Q.sort (programSort : HPGnodeFields F M → _ → Int) [] = [] :=
        List.perm_nil.1 (Q.perm _ _)
      simp [Qsort.inPlace, hα, this]
    obtain ⟨n, m, hl, hnm⟩ := perm_pair_pipelines
      (Q.sort programSort (g.renderQueue.data.take 2)) n1 n2 hp
      (by rw [hd]; exact Q.perm programSort [n1, n2])
    have h1 : Q.inPlace programSort g.renderQueue.size g.renderQueue.data =
        n :: m :: g.renderQueue.data.drop 2 := by
      rw [Qsort.inPlace, hs, hl]
      rfl
    unfold renderQueues
    simp only [CameraStatics.setData, h0]
    rw [h1]
    have he := renderQueues_dispatch_empty Q L .alphaQueue alphaSort fuel
      { g with renderQueue := { g.renderQueue with data := n :: m :: g.renderQueue.data.drop 2 } }
      hα
    have hst := renderQueues_dispatch_stuck Q L .renderQueue renderSort 0 n m hnm (fuel + 1)
      { g with renderQueue := { g.renderQueue with data := n :: m :: g.renderQueue.data.drop 2 } }
      (by show 1 < g.renderQueue.size - 0; omega) (by simp [CameraStatics.queue])
      (by simp [CameraStatics.queue])
    rw [he]
    exact hst

/-- C10 (what the code does at the failing input): with two nodes of different
pipelines in the opaque queue (and an empty alpha queue), `renderQueues` does not
terminate: whatever `qsort` and the comparators do, and however much fuel is
given, the run ends out of fuel.  After `preRender` of the first node the inner
loop meets the node of the other pipeline, calls `qsort` and tests the same node
again, without end; no `render` call is ever made.  The same holds for
`hpgRenderCamera` as a whole when the partition visits these two nodes, whatever
the queues held before. -/
theorem renderQueues_two_pipelines_diverges (K : FloatInt Int) (Q : Qsort)
    (L : Hypermath Int (MatTerm Int)) (fuel : Nat)
    (alphaSort renderSort :
      HPGnodeFields Int (MatTerm Int) → HPGnodeFields Int (MatTerm Int) → Int) :
    renderQueues K Q L fuel alphaSort renderSort exampleQueues = .error .outOfFuel ∧
      ∀ g : CameraStatics Int (MatTerm Int),
        hpgRenderCamera K Q L exampleEnvTwo fuel alphaSort renderSort exampleCamera g =
          .error .outOfFuel := by
  constructor
  · exact renderQueues_diverges_of_pair K Q L alphaSort renderSort exampleQueues
      exampleNode1 exampleNode2 rfl rfl rfl (by decide) fuel
  · intro g
    have hq := foldl_addToQueue_queues exampleEnvTwo [exampleNode1, exampleNode2]
      { clearQueues { g with currentCamera := exampleCamera } with
        currentCamera := computePlanes exampleEnvTwo { exampleCamera with
          viewProjection := L.hpgMultMat4 exampleCamera.projection
            (hpgRenderCamera.view L exampleCamera) } }
      (Nat.zero_le _) (Nat.zero_le _)
    have hb : hpgRenderCamera.build L exampleEnvTwo exampleCamera g =
        [exampleNode1, exampleNode2].foldl (addToQueue exampleEnvTwo)
          { clearQueues { g with currentCamera := exampleCamera } with
            currentCamera := computePlanes exampleEnvTwo { exampleCamera with
              viewProjection := L.hpgMultMat4 exampleCamera.projection
                (hpgRenderCamera.view L exampleCamera) } } := rfl
    rw [← hb] at hq
    obtain ⟨⟨_, hl⟩, hsa, hsr⟩ := hq
    have hd := renderQueues_diverges_of_pair K Q L alphaSort renderSort
      (hpgRenderCamera.build L exampleEnvTwo exampleCamera g) exampleNode1 exampleNode2
      (by rw [hsa]; rfl) (by rw [hsr]; rfl)
      (by
        have h2 : (hpgRenderCamera.build L exampleEnvTwo exampleCamera g).renderQueue.size = 2 := by
          rw [hsr]; rfl
        rw [HPGvector.live, h2] at hl
        rw [hl]
        rfl)
      (by decide) fuel
    rw [hpgRenderCamera, hd]

/-! ### Cameras: runs of `renderQueues` that complete -/

theorem renderQueues_eq_group {F M : Type} [Add F] [Zero F] [LT F]
    [DecidableRel (fun a b : F => a < b)] (K : FloatInt F) (Q : Qsort) (L : Hypermath F M)
    (fuel : Nat) (alphaSort renderSort : HPGnodeFields F M → HPGnodeFields F M → Int)
    (g : CameraStatics F M) :
    renderQueues K Q L fuel alphaSort renderSort g =
      match renderQueues.dispatch Q L .alphaQueue alphaSort fuel 0 (renderQueues.group Q g) with
      | .error e => .error e
      | .ok g1 => renderQueues.dispatch Q L .renderQueue renderSort fuel 0 g1 := rfl

theorem renderQueues_count_ok {F M : Type} (Q : Qsort) (k : Queue)
    (sort : HPGnodeFields F M → HPGnodeFields F M → Int) (p : Addr) (i : Nat) :
    ∀ (fuel count : Nat) (g : CameraStatics F M) (r : Nat × CameraStatics F M),
      renderQueues.count Q k sort p i fuel count g = .ok r →
      r.2 = g ∧ r.1 = max count ((g.queue k).size - i) ∧
        ∀ j, count ≤ j → j < r.1 → ∃ m, (g.queue k).data[i + j]? = some m ∧ m.pipeline = p
  | 0, _, _, _, h => by cases h
  | fuel + 1, count, g, r, h => by
    by_cases hc : count < (g.queue k).size - i
    · cases hd : (g.queue k).data[i + count]? with
      | none =>
        rw [renderQueues.count, if_pos hc, hd] at h
        cases h
      | some m =>
        by_cases hm : m.pipeline = p
        · rw [renderQueues.count, if_pos hc, hd] at h
          simp only [hm, if_true] at h
          obtain ⟨h1, h2, h3⟩ := renderQueues_count_ok Q k sort p i fuel (count + 1) g r h
          refine ⟨h1, ?_, ?_⟩
          · rw [h2]; omega
          · intro j hj hjr
            rcases Nat.eq_or_lt_of_le hj with e | e
            · subst e
              exact ⟨m, hd, hm⟩
            · exact h3 j e hjr
        · rw [renderQueues_count_stuck Q k sort p i count m hm (fuel + 1) g hc hd] at h
          cases h
    · rw [renderQueues.count, if_neg hc] at h
      cases h
      refine ⟨rfl, ?_, ?_⟩
      · show count = max count _
        omega
      · intro j hj hjr
        omega

theorem renderNode_queue {F M : Type} (L : Hypermath F M) (node : HPGnodeFields F M)
    (g : CameraStatics F M) :
    (renderNode L node g).renderQueue = g.renderQueue ∧
      (renderNode L node g).alphaQueue = g.alphaQueue ∧
      (renderNode L node g).trace = g.trace ++ [Call.render node.pipeline node.data] :=
  ⟨rfl, rfl, rfl⟩

theorem renderQueues_run_ok {F M : Type} (L : Hypermath F M) (k : Queue) (i : Nat) :
    ∀ (n s : Nat) (g g1 : CameraStatics F M),
      renderQueues.run L k i (List.range' s n) g = .ok g1 →
      g1.renderQueue = g.renderQueue ∧ g1.alphaQueue = g.alphaQueue ∧
        i + s + n ≤ (g.queue k).data.length + (if n = 0 then i + s else 0) ∧
        g1.trace = g.trace ++
          (((g.queue k).data.drop (i + s)).take n).map (fun m => Call.render m.pipeline m.data)
  | 0, s, g, g1, h => by
    rw [List.range'_zero, renderQueues.run] at h
    cases h
    simp
  | n + 1, s, g, g1, h => by
    rw [List.range'_succ, renderQueues.run] at h
    cases hd : (g.queue k).data[i + s]? with
    | none =>
      rw [hd] at h
      cases h
    | some node =>
      rw [hd] at h
      simp only at h
      have hq : (renderNode L node g).queue k = g.queue k := by cases k <;> rfl
      obtain ⟨h1, h2, h3, h4⟩ := renderQueues_run_ok L k i n (s + 1) _ g1 h
      obtain ⟨hlt, hget⟩ := List.getElem?_eq_some.1 hd
      rw [hq] at h3 h4
      refine ⟨h1, h2, ?_, ?_⟩
      · simp only [Nat.add_one_ne_zero, if_false, Nat.add_zero]
        split at h3 <;> omega
      · rw [h4, List.drop_eq_getElem_cons hlt, hget]
        simp [renderNode, Nat.add_assoc]

theorem batch_cons {F M : Type} (n : HPGnodeFields F M) (rest : List (HPGnodeFields F M)) :
    batch (n :: rest) =
      Call.preRender n.pipeline n.addr ::
        ((n :: rest).map (fun m => Call.render m.pipeline m.data) ++
          [Call.postRender n.pipeline]) := rfl

/-- A run of one dispatch loop of `renderQueues` that completes leaves both queues
as they were and adds to the trace one batch over all live nodes of its queue,
which all have the pipeline of the first one. -/
theorem renderQueues_dispatch_ok {F M : Type} (Q : Qsort) (L : Hypermath F M) (k : Queue)
    (sort : HPGnodeFields F M → HPGnodeFields F M → Int) (fuel : Nat)
    (g g1 : CameraStatics F M) (h : renderQueues.dispatch Q L k sort fuel 0 g = .ok g1) :
    g1.renderQueue = g.renderQueue ∧ g1.alphaQueue = g.alphaQueue ∧
      g1.trace = g.trace ++ batch (g.queue k).live ∧ OnePipeline (g.queue k).live ∧
      (g.queue k).size ≤ (g.queue k).data.length := by
  cases fuel with
  | zero => cases h
  | succ fuel =>
    by_cases hs : 0 < (g.queue k).size
    · cases hd : (g.queue k).data[0]? with
      | none =>
        rw [renderQueues.dispatch, if_pos hs, hd] at h
        cases h
      | some n =>
        rw [renderQueues.dispatch, if_pos hs, hd] at h
        simp only at h
        have hq : ({ g with trace := g.trace ++ [Call.preRender n.pipeline n.addr] } :
            CameraStatics F M).queue k = g.queue k := by cases k <;> rfl
        cases hc : renderQueues.count Q k sort n.pipeline 0 fuel 1
            { g with trace := g.trace ++ [Call.preRender n.pipeline n.addr] } with
        | error e =>
          rw [hc] at h
          cases h
        | ok r =>
          obtain ⟨count, g2⟩ := r
          rw [hc] at h
          simp only at h
          obtain ⟨e2, ec, hp⟩ := renderQueues_count_ok Q k sort n.pipeline 0 fuel 1 _ _ hc
          simp only at e2 ec hp
          subst e2
          rw [hq] at ec hp
          have ecs : count = (g.queue k).size := by omega
          cases hr : renderQueues.run L k 0 (List.range count)
              { g with trace := g.trace ++ [Call.preRender n.pipeline n.addr] } with
          | error e =>
            rw [hr] at h
            cases h
          | ok g3 =>
            rw [hr] at h
            simp only at h
            rw [List.range_eq_range'] at hr
            obtain ⟨r1, r2, r3, r4⟩ := renderQueues_run_ok L k 0 count 0 _ g3 hr
            rw [hq] at r3 r4
            have hlen : (g.queue k).size ≤ (g.queue k).data.length := by
              rw [if_neg (by omega)] at r3
              omega
            cases fuel with
            | zero => cases h
            | succ fuel =>
              have hq3 : ({ g3 with trace := g3.trace ++ [Call.postRender n.pipeline] } :
                  CameraStatics F M).queue k = g.queue k := by
                cases k
                · show g3.alphaQueue = g.alphaQueue
                  exact r2
                · show g3.renderQueue = g.renderQueue
                  exact r1
              rw [renderQueues.dispatch, if_neg (by rw [hq3]; omega)] at h
              cases h
              have hlive : ∃ tail, (g.queue k).live = n :: tail := by
                rw [HPGvector.live]
                cases hdat : (g.queue k).data with
                | nil =>
                  rw [hdat] at hd
                  cases hd
                | cons x t =>
                  rw [hdat] at hd
                  simp only [List.getElem?_cons_zero, Option.some.injEq] at hd
                  subst hd
                  obtain ⟨c, hc1⟩ : ∃ c, (g.queue k).size = c + 1 := ⟨(g.queue k).size - 1, by omega⟩
                  exact ⟨t.take c, by rw [hc1, List.take_succ_cons]⟩
              obtain ⟨tail, ht⟩ := hlive
              have hb : batch (g.queue k).live =
                  Call.preRender n.pipeline n.addr ::
                    ((g.queue k).live.map (fun m => Call.render m.pipeline m.data) ++
                      [Call.postRender n.pipeline]) := by
                rw [ht, batch_cons]
              refine ⟨r1, r2, ?_, ?_, hlen⟩
              · show g3.trace ++ [Call.postRender n.pipeline] = _
                rw [r4, hb, HPGvector.live, ← ecs]
                simp
              · intro a ha m hm
                rw [ht] at ha
                cases ha
                obtain ⟨j, hj⟩ := List.mem_iff_getElem?.1 hm
                rw [HPGvector.live, List.getElem?_take] at hj
                split at hj
                · rename_i hjs
                  rcases Nat.eq_zero_or_pos j with e | e
                  · subst e
                    rw [hd] at hj
                    cases hj
                    rfl
                  · obtain ⟨m2, hm2, hp2⟩ := hp j e (by omega)
                    rw [Nat.zero_add, hj] at hm2
                    cases hm2
                    exact hp2
                · cases hj
    · rw [renderQueues.dispatch, if_neg hs] at h
      cases h
      have hz : (g.queue k).size = 0 := by omega
      refine ⟨rfl, rfl, ?_, ?_, by omega⟩
      · simp [HPGvector.live, hz, batch]
      · intro a ha
        simp [HPGvector.live, hz] at ha

theorem renderQueues_count_terminates {F M : Type} (Q : Qsort) (k : Queue)
    (sort : HPGnodeFields F M → HPGnodeFields F M → Int) (p : Addr) (i : Nat) :
    ∀ (fuel count : Nat) (g : CameraStatics F M),
      (∀ j, count ≤ j → j < (g.queue k).size - i →
        ∃ m, (g.queue k).data[i + j]? = some m ∧ m.pipeline = p) →
      (g.queue k).size - i - count < fuel →
      renderQueues.count Q k sort p i fuel count g =
        .ok (max count ((g.queue k).size - i), g)
  | 0, _, _, _, hf => by omega
  | fuel + 1, count, g, hp, hf => by
    by_cases hc : count < (g.queue k).size - i
    · obtain ⟨m, hm, hmp⟩ := hp count (Nat.le_refl _) hc
      rw [renderQueues.count, if_pos hc, hm]
      simp only [hmp, if_true]
      rw [renderQueues_count_terminates Q k sort p i fuel (count + 1) g
        (fun j hj hjs => hp j (by omega) hjs) (by omega)]
      congr 2
      omega
    · rw [renderQueues.count, if_neg hc]
      congr 2
      omega

theorem renderQueues_run_terminates {F M : Type} (L : Hypermath F M) (k : Queue) (i : Nat) :
    ∀ (n s : Nat) (g : CameraStatics F M), i + s + n ≤ (g.queue k).data.length →
      ∃ g1, renderQueues.run L k i (List.range' s n) g = .ok g1
  | 0, s, g, _ => ⟨g, by rw [List.range'_zero, renderQueues.run]⟩
  | n + 1, s, g, h => by
    have hlt : i + s < (g.queue k).data.length := by omega
    rw [List.range'_succ, renderQueues.run, List.getElem?_eq_getElem hlt]
    simp only
    have hq : (renderNode L (g.queue k).data[i + s] g).queue k = g.queue k := by
      cases k <;> rfl
    exact renderQueues_run_terminates L k i n (s + 1) _ (by rw [hq]; omega)

/-- With one unit of fuel more than the queue has live nodes, the dispatch loop of
`renderQueues` completes on a queue whose live nodes all have the pipeline of the
first one. -/
theorem renderQueues_dispatch_terminates {F M : Type} (Q : Qsort) (L : Hypermath F M)
    (k : Queue) (sort : HPGnodeFields F M → HPGnodeFields F M → Int) (fuel : Nat)
    (g : CameraStatics F M) (hlen : (g.queue k).size ≤ (g.queue k).data.length)
    (hp : OnePipeline (g.queue k).live) (hf : (g.queue k).size + 1 ≤ fuel) :
    ∃ g1, renderQueues.dispatch Q L k sort fuel 0 g = .ok g1 := by
  obtain ⟨fuel, rfl⟩ : ∃ f, fuel = f + 1 := ⟨fuel - 1, by omega⟩
  by_cases hs : 0 < (g.queue k).size
  · have hlt : 0 < (g.queue k).data.length := by omega
    rw [renderQueues.dispatch, if_pos hs, List.getElem?_eq_getElem hlt]
    simp only
    have hq : ({ g with trace := g.trace ++
        [Call.preRender (g.queue k).data[0].pipeline (g.queue k).data[0].addr] } :
        CameraStatics F M).queue k = g.queue k := by cases k <;> rfl
    have hhead : (g.queue k).live.head? = some (g.queue k).data[0] := by
      rw [HPGvector.live, List.head?_take, if_neg (by omega), List.head?_eq_getElem?,
        List.getElem?_eq_getElem hlt]
    rw [renderQueues_count_terminates Q k sort _ 0 fuel 1 _ (by
      intro j _ hj
      rw [hq] at hj ⊢
      have hjl : 0 + j < (g.queue k).data.length := by omega
      refine ⟨_, List.getElem?_eq_getElem hjl, ?_⟩
      refine hp _ (Option.mem_def.2 hhead) _ ?_
      rw [HPGvector.live, List.mem_take_iff_getElem]
      exact ⟨0 + j, by omega, rfl⟩) (by rw [hq]; omega)]
    simp only
    rw [hq]
    have hm : max 1 ((g.queue k).size - 0) = (g.queue k).size := by omega
    rw [hm, List.range_eq_range']
    obtain ⟨g3, hg3⟩ := renderQueues_run_terminates L k 0 (g.queue k).size 0
      { g with trace := g.trace ++
        [Call.preRender (g.queue k).data[0].pipeline (g.queue k).data[0].addr] }
      (by rw [hq]; omega)
    rw [hg3]
    simp only
    obtain ⟨r1, r2, _, _⟩ := renderQueues_run_ok L k 0 _ 0 _ g3 hg3
    obtain ⟨fuel, rfl⟩ : ∃ f, fuel = f + 1 := ⟨fuel - 1, by omega⟩
    have hq3 : ({ g3 with trace := g3.trace ++
        [Call.postRender (g.queue k).data[0].pipeline] } : CameraStatics F M).queue k =
        g.queue k := by
      cases k
      · show g3.alphaQueue = g.alphaQueue
        exact r2
      · show g3.renderQueue = g.renderQueue
        exact r1
    rw [renderQueues.dispatch, if_neg (by rw [hq3]; omega)]
    exact ⟨_, rfl⟩
  · rw [renderQueues.dispatch, if_neg hs]
    exact ⟨_, rfl⟩

/-- A run of `renderQueues` that completes leaves the queues as the grouping step
made them and appends the batch of the alpha queue, then the batch of the opaque
queue; each queue holds nodes of one pipeline only. -/
theorem renderQueues_ok_trace {F M : Type} [Add F] [Zero F] [LT F]
    [DecidableRel (fun a b : F => a < b)]
    (K : FloatInt F) (Q : Qsort) (L : Hypermath F M) (fuel : Nat)
    (alphaSort renderSort : HPGnodeFields F M → HPGnodeFields F M → Int)
    (g g1 : CameraStatics F M)
    (h : renderQueues K Q L fuel alphaSort renderSort g = .ok g1) :
    g1.trace = g.trace ++ (batch g.alphaQueue.live ++
        batch (renderQueues.group Q g).renderQueue.live) ∧
      OnePipeline g.alphaQueue.live ∧
      OnePipeline (renderQueues.group Q g).renderQueue.live ∧
      g1.alphaQueue = g.alphaQueue ∧
      g1.renderQueue = (renderQueues.group Q g).renderQueue := by
  rw [renderQueues_eq_group] at h
  cases ha : renderQueues.dispatch Q L .alphaQueue alphaSort fuel 0
      (renderQueues.group Q g) with
  | error e => rw [ha] at h; cases h
  | ok ga =>
    rw [ha] at h
    simp only at h
    obtain ⟨a1, a2, a3, a4, _⟩ := renderQueues_dispatch_ok Q L _ _ _ _ _ ha
    obtain ⟨b1, b2, b3, b4, _⟩ := renderQueues_dispatch_ok Q L _ _ _ _ _ h
    have hq : (renderQueues.group Q g).alphaQueue = g.alphaQueue := rfl
    have ht : (renderQueues.group Q g).trace = g.trace := rfl
    simp only [CameraStatics.queue] at a3 a4 b3 b4
    rw [hq] at a3 a4
    rw [a1] at b3 b4 b1
    rw [ht] at a3
    refine ⟨?_, a4, b4, ?_, b1⟩
    · rw [b3, a3, List.append_assoc]
    · rw [b2, a2, hq]

/-- Without live nodes in either queue `renderQueues` returns at once, whatever the
fuel above zero, and issues no call. -/
theorem renderQueues_empty {F M : Type} [Add F] [Zero F] [LT F]
    [DecidableRel (fun a b : F => a < b)]
    (K : FloatInt F) (Q : Qsort) (L : Hypermath F M) (fuel : Nat)
    (alphaSort renderSort : HPGnodeFields F M → HPGnodeFields F M → Int)
    (g : CameraStatics F M) (ha : g.alphaQueue.size = 0) (hr : g.renderQueue.size = 0) :
    renderQueues K Q L (fuel + 1) alphaSort renderSort g = .ok (renderQueues.group Q g) := by
  have h1 : ((renderQueues.group Q g).queue .alphaQueue).size = 0 := ha
  have h2 : ((renderQueues.group Q g).queue .renderQueue).size = 0 := hr
  rw [renderQueues_eq_group, renderQueues.dispatch, if_neg (by rw [h1]; omega)]
  simp only
  rw [renderQueues.dispatch, if_neg (by rw [h2]; omega)]

theorem exampleBothQueues_run (alphaSort renderSort :
    HPGnodeFields Int (MatTerm Int) → HPGnodeFields Int (MatTerm Int) → Int) :
    ∃ g1, renderQueues exampleFloatInt exampleQsort (MatTerm.lib Int) 5 alphaSort renderSort
      exampleBothQueues = .ok g1 ∧
      g1.trace = [Call.preRender 2 27, Call.render 2 127, Call.postRender 2,
        Call.preRender 1 11, Call.render 1 111, Call.render 1 115, Call.render 1 113,
        Call.postRender 1] :=
  ⟨_, rfl, rfl⟩

/-- C12: the grouping step of `renderQueues`, whatever `qsort` does.  Its first call
rearranges the first `alphaQueue.size` slots of the storage of the opaque queue and
its second call the first `renderQueue.size` slots of the same storage; the alpha
queue is handed to neither call and is left as it was.  On `exampleStaleQueues` the
alpha queue keeps its pipelines in the order `1, 2, 1`, not grouped, and the first
call reaches over `3` slots of an opaque queue of size `1`. -/
theorem renderQueues_group_wrong_count {F M : Type} (Q : Qsort) (g : CameraStatics F M) :
    (renderQueues.group Q g).alphaQueue = g.alphaQueue ∧
      (renderQueues.group Q g).renderQueue.data =
        Q.inPlace programSort g.renderQueue.size
          (Q.inPlace programSort g.alphaQueue.size g.renderQueue.data) ∧
      (∀ Q1 : Qsort, (renderQueues.group Q1 exampleStaleQueues).alphaQueue.live.map
        (fun n => n.pipeline) = [1, 2, 1]) ∧
      exampleStaleQueues.alphaQueue.size = 3 ∧ exampleStaleQueues.renderQueue.size = 1 :=
  ⟨rfl, rfl, fun _ => rfl, rfl, rfl⟩

/-- C13: the run of `renderQueues` on `exampleDepthQueues` (three opaque nodes of one
pipeline queued at world `x = 1, 5, 3`, near plane `(1, 0, 0, 0)`).  `setSortFuns`
computes the pair `xGreaterThan`, `xPositive`, and `xPositive` puts the node at
`x = 5` after the node at `x = 3`; the run completes, whatever the two local
comparators hold, and renders the payloads in the queued order `1, 5, 3`. -/
theorem renderQueues_run_not_depth_sorted (alphaSort renderSort :
    HPGnodeFields Int (MatTerm Int) → HPGnodeFields Int (MatTerm Int) → Int) :
    setSortFuns exampleFloatInt (exampleDepthQueues.currentCamera.planes Faces.NEAR.index)
        alphaSort renderSort = (xGreaterThan, xPositive) ∧
      xPositive (exampleDepthNode 15 1 5) (exampleDepthNode 13 1 3) = 1 ∧
      ∃ g1, renderQueues exampleFloatInt exampleQsort (MatTerm.lib Int) 4 alphaSort
          renderSort exampleDepthQueues = .ok g1 ∧
        g1.trace = [Call.preRender 1 11, Call.render 1 111, Call.render 1 115,
          Call.render 1 113, Call.postRender 1] :=
  ⟨rfl, rfl, _, rfl, rfl⟩

/-- C14: on a run of `renderQueues` that completes, the calls issued are the batch
of the alpha queue (with the `render` call of each of its nodes) followed by the
batch of the opaque queue as the grouping step left it: every callback for the
opaque queue comes after every `render` call for a node of the alpha queue. -/
theorem renderQueues_alpha_before_opaque {F M : Type} [Add F] [Zero F] [LT F]
    [DecidableRel (fun a b : F => a < b)]
    (K : FloatInt F) (Q : Qsort) (L : Hypermath F M) (fuel : Nat)
    (alphaSort renderSort : HPGnodeFields F M → HPGnodeFields F M → Int)
    (g g1 : CameraStatics F M)
    (h : renderQueues K Q L fuel alphaSort renderSort g = .ok g1) :
    ∃ ta tb, g1.trace = g.trace ++ (ta ++ tb) ∧
      ta = batch g.alphaQueue.live ∧
      tb = batch (renderQueues.group Q g).renderQueue.live ∧
      ∀ n ∈ g.alphaQueue.live, Call.render n.pipeline n.data ∈ ta := by
  obtain ⟨ht, _, _, _, _⟩ := renderQueues_ok_trace K Q L fuel alphaSort renderSort g g1 h
  refine ⟨_, _, ht, rfl, rfl, ?_⟩
  intro n hn
  cases hl : g.alphaQueue.live with
  | nil => rw [hl] at hn; cases hn
  | cons a rest =>
    rw [hl] at hn
    rw [batch_cons]
    refine List.mem_cons_of_mem _ (List.mem_append_left _ ?_)
    exact List.mem_map.2 ⟨n, hn, rfl⟩

/-- C14, at a concrete input: the run on `exampleBothQueues`. -/
theorem renderQueues_alpha_before_opaque_witness :
    renderQueues exampleFloatInt exampleQsort (MatTerm.lib Int) 5 xGreaterThan xPositive
        exampleBothQueues = .ok exampleBothQueuesDone ∧
      ∃ ta tb, exampleBothQueuesDone.trace = exampleBothQueues.trace ++ (ta ++ tb) ∧
        ta = batch exampleBothQueues.alphaQueue.live ∧
        tb = batch (renderQueues.group exampleQsort exampleBothQueues).renderQueue.live ∧
        ∀ n ∈ exampleBothQueues.alphaQueue.live, Call.render n.pipeline n.data ∈ ta :=
  ⟨rfl, renderQueues_alpha_before_opaque exampleFloatInt exampleQsort (MatTerm.lib Int) 5
    xGreaterThan xPositive exampleBothQueues exampleBothQueuesDone rfl⟩

/-! ### Cameras: the active list -/

theorem hpgRenderCameras_loop_ok {F M : Type} [Add F] [Sub F] [Zero F] [One F] [LT F]
    [DecidableRel (fun a b : F => a < b)]
    (K : FloatInt F) (Q : Qsort) (L : Hypermath F M) (E : CameraEnv F M) (fuel : Nat)
    (alphaSort renderSort : HPGnodeFields F M → HPGnodeFields F M → Int) :
    ∀ (n s : Nat) (r : CameraRegistry F M) (g : CameraStatics F M)
      (r1 : CameraRegistry F M) (g1 : CameraStatics F M),
      hpgRenderCameras.loop K Q L E fuel alphaSort renderSort (List.range' s n) (r, g) =
        .ok (r1, g1) →
      r1.activeCameras = r.activeCameras ∧ r1.cameraList = r.cameraList ∧
        r1.rendered = r.rendered ++ (r.activeCameras.data.drop s).take n ∧
        (n = 0 ∨ s + n ≤ r.activeCameras.data.length)
  | 0, s, r, g, r1, g1, h => by
    rw [List.range'_zero, hpgRenderCameras.loop] at h
    cases h
    simp
  | n + 1, s, r, g, r1, g1, h => by
    rw [List.range'_succ, hpgRenderCameras.loop] at h
    cases hc : r.activeCameras.data[s]? with
    | none => rw [hc] at h; cases h
    | some c =>
      rw [hc] at h
      simp only at h
      cases hr : hpgRenderCamera K Q L E fuel alphaSort renderSort (r.mem c) g with
      | error e => rw [hr] at h; cases h
      | ok p =>
        obtain ⟨camera, g2⟩ := p
        rw [hr] at h
        simp only at h
        obtain ⟨h1, h2, h3, h4⟩ :=
          hpgRenderCameras_loop_ok K Q L E fuel alphaSort renderSort n (s + 1) _ _ _ _ h
        simp only at h1 h2 h3 h4
        obtain ⟨hs, hcs⟩ := List.getElem?_eq_some_iff.1 hc
        refine ⟨h1, h2, ?_, Or.inr ?_⟩
        · rw [h3, List.append_assoc]
          congr 1
          rw [List.drop_eq_getElem_cons hs, List.take_succ_cons, hcs]
          rfl
        · rcases h4 with h4 | h4
          · omega
          · omega

/-- A call of `hpgRenderCameras` that completes has called `hpgRenderCamera` once for
each live slot of `activeCameras`, in slot order, and leaves both lists alone. -/
theorem hpgRenderCameras_ok {F M : Type} [Add F] [Sub F] [Zero F] [One F] [LT F]
    [DecidableRel (fun a b : F => a < b)]
    (K : FloatInt F) (Q : Qsort) (L : Hypermath F M) (E : CameraEnv F M) (fuel : Nat)
    (alphaSort renderSort : HPGnodeFields F M → HPGnodeFields F M → Int)
    (r r1 : CameraRegistry F M) (g g1 : CameraStatics F M)
    (h : hpgRenderCameras K Q L E fuel alphaSort renderSort (r, g) = .ok (r1, g1)) :
    r1.rendered = r.rendered ++ r.activeCameras.live ∧
      r1.activeCameras = r.activeCameras ∧ r1.cameraList = r.cameraList := by
  rw [hpgRenderCameras, List.range_eq_range'] at h
  obtain ⟨h1, h2, h3, _⟩ :=
    hpgRenderCameras_loop_ok K Q L E fuel alphaSort renderSort _ 0 _ _ _ _ h
  exact ⟨by rw [h3, List.drop_zero]; rfl, h1, h2⟩

theorem cameraOps_live {F M : Type} [Zero F] [One F] (D : CameraSetup F M) :
    ∀ (ops : List (CameraOp F M)) (r : CameraRegistry F M),
      r.activeCameras.size ≤ r.activeCameras.data.length →
      (ops.foldl (CameraOp.apply D) r).activeCameras.live =
        r.activeCameras.live ++ ops.map CameraOp.camera
  | [], r, _ => by simp
  | op :: ops, r, h => by
    have hp : (CameraOp.apply D r op).activeCameras = hpgPush r.activeCameras op.camera := by
      cases op <;> rfl
    obtain ⟨h1, h2⟩ := hpgPush_live r.activeCameras op.camera h
    rw [List.foldl_cons, cameraOps_live D ops _ (by rw [hp]; exact h2), hp, h1]
    simp

theorem cameraOps_rendered {F M : Type} [Zero F] [One F] (D : CameraSetup F M) :
    ∀ (ops : List (CameraOp F M)) (r : CameraRegistry F M),
      (ops.foldl (CameraOp.apply D) r).rendered = r.rendered
  | [], _ => rfl
  | op :: ops, r => by
    have hp : (CameraOp.apply D r op).rendered = r.rendered := by cases op <;> rfl
    rw [List.foldl_cons, cameraOps_rendered D ops, hp]

/-- C15, a counterexample to the claim as stated: after `hpgMakeCamera` has returned
the camera at address `50` and `hpgActiveateCamera` has been called on it, one call
of `hpgRenderCameras` completes and has called `hpgRenderCamera` on that camera
twice. -/
theorem hpgRenderCameras_renders_twice :
    exampleRegistryTwice.activeCameras.live = [50, 50] ∧
      ∃ r1 g1, hpgRenderCameras exampleFloatInt exampleQsort (MatTerm.lib Int) exampleEnv 1
          xGreaterThan xPositive (exampleRegistryTwice, exampleIdle) = .ok (r1, g1) ∧
        r1.rendered = [50, 50] :=
  ⟨rfl, _, _, rfl, rfl⟩

/-- C15, amended: for every sequence of `hpgMakeCamera` and `hpgActiveateCamera`
calls made on an empty active list, one call of `hpgRenderCameras` that completes
calls `hpgRenderCamera` once for each call of the sequence, on the camera of that
call and in the order of the calls. -/
theorem hpgRenderCameras_once_per_entry {F M : Type} [Add F] [Sub F] [Zero F] [One F]
    [LT F] [DecidableRel (fun a b : F => a < b)]
    (K : FloatInt F) (Q : Qsort) (L : Hypermath F M) (E : CameraEnv F M) (fuel : Nat)
    (alphaSort renderSort : HPGnodeFields F M → HPGnodeFields F M → Int)
    (D : CameraSetup F M) (ops : List (CameraOp F M))
    (r r1 : CameraRegistry F M) (g g1 : CameraStatics F M)
    (h0 : r.activeCameras.size = 0)
    (h : hpgRenderCameras K Q L E fuel alphaSort renderSort
      (ops.foldl (CameraOp.apply D) r, g) = .ok (r1, g1)) :
    r1.rendered = r.rendered ++ ops.map CameraOp.camera := by
  obtain ⟨h1, _, _⟩ := hpgRenderCameras_ok K Q L E fuel alphaSort renderSort _ _ _ _ h
  have hl : r.activeCameras.live = [] := by rw [HPGvector.live, h0, List.take_zero]
  rw [h1, cameraOps_rendered D ops r, cameraOps_live D ops r (by omega), hl]
  rfl

/-- C15 amended, at a concrete input: `hpgMakeCamera` returning the camera at address `50`,
then `hpgActiveateCamera` on it, then `hpgRenderCameras`. -/
theorem hpgRenderCameras_once_per_entry_witness :
    exampleRegistry.activeCameras.size = 0 ∧
      ∃ r1 g1, hpgRenderCameras exampleFloatInt exampleQsort (MatTerm.lib Int) exampleEnv 1
          xGreaterThan xPositive
          ([CameraOp.make .HPG_PERSPECTIVE 10 50 exampleCamera, CameraOp.activate 50].foldl
            (CameraOp.apply exampleSetup) exampleRegistry, exampleIdle) = .ok (r1, g1) ∧
        r1.rendered = exampleRegistry.rendered ++
          [CameraOp.make .HPG_PERSPECTIVE 10 50 exampleCamera, CameraOp.activate 50].map
            CameraOp.camera :=
  ⟨rfl, _, _, rfl,
    hpgRenderCameras_once_per_entry exampleFloatInt exampleQsort (MatTerm.lib Int) exampleEnv 1
      xGreaterThan xPositive exampleSetup
      [CameraOp.make .HPG_PERSPECTIVE 10 50 exampleCamera, CameraOp.activate 50]
      exampleRegistry _ exampleIdle _ rfl rfl⟩

/-! ### The node mutators -/

mutual
theorem store_chains {F M : Type} (target : Addr)
    (w : HPGnodeFields F M → HPGnodeFields F M) :
    ∀ (t : HPGnode F M) (anc : List (HPGnodeFields F M)),
      (t.store target w).chains (anc.map (storeAt target w)) =
        (t.chains anc).map (List.map (storeAt target w))
  | .mk f cs, anc => by
    have h := storeList_chains target w cs (anc ++ [f])
    simp only [List.map_append, List.map_cons, List.map_nil] at h
    simp only [HPGnode.store, HPGnode.chains, List.map_cons, List.map_append, List.map_nil, h]
theorem storeList_chains {F M : Type} (target : Addr)
    (w : HPGnodeFields F M → HPGnodeFields F M) :
    ∀ (ts : List (HPGnode F M)) (anc : List (HPGnodeFields F M)),
      chainsOfList (anc.map (storeAt target w)) (storeList target w ts) =
        (chainsOfList anc ts).map (List.map (storeAt target w))
  | [], _ => by simp [storeList, chainsOfList]
  | t :: ts, anc => by
    simp only [storeList, chainsOfList, List.map_append, store_chains target w t anc,
      storeList_chains target w ts anc]
end

/-- C16: each of `hpgMoveNode`, `hpgSetNodePosition`, `hpgSetNodeRotation`,
`hpgRotateNode` and `hpgSetBoundingSphere` sets the dirty flag of the node and leaves
its transform, its bounding-sphere centre and its pipeline as they were;
`hpgMoveNode` adds its arguments to the local offset and `hpgSetNodePosition`
replaces the local offset; and in the scene the tree keeps its shape (every node
has the chain of ancestors it had, so the same parent and children), with every
record at another address unchanged. -/
theorem mutators_set_dirty_only {F M : Type} [Add F] (x y z angle radius : F) :
    (∀ w ∈ [fun n : HPGnodeFields F M => hpgMoveNode n x y z,
          fun n => hpgSetNodePosition n x y z,
          fun n => hpgSetNodeRotation n x y z angle,
          fun n => hpgRotateNode n angle,
          fun n => hpgSetBoundingSphere n radius],
        SetsDirtyOnly w ∧
        ∀ (scene : HPGscene F M) (node : Addr),
          (scene.store node w).chains = scene.chains.map (List.map (storeAt node w)) ∧
          (∀ f : HPGnodeFields F M, f.addr ≠ node → storeAt node w f = f) ∧
          (∀ f : HPGnodeFields F M, f.addr = node → storeAt node w f = w f)) ∧
      (∀ n : HPGnodeFields F M,
        ((hpgMoveNode n x y z).x, (hpgMoveNode n x y z).y, (hpgMoveNode n x y z).z) =
          (n.x + x, n.y + y, n.z + z)) ∧
      (∀ n : HPGnodeFields F M,
        ((hpgSetNodePosition n x y z).x, (hpgSetNodePosition n x y z).y,
          (hpgSetNodePosition n x y z).z) = (x, y, z)) := by
  refine ⟨?_, fun _ => rfl, fun _ => rfl⟩
  intro w hw
  refine ⟨?_, fun scene node => ⟨?_, fun f hf => if_neg hf, fun f hf => if_pos hf⟩⟩
  · simp only [List.mem_cons, List.mem_singleton, List.not_mem_nil, or_false] at hw
    rcases hw with rfl | rfl | rfl | rfl | rfl <;> intro n <;>
      exact ⟨rfl, rfl, rfl, rfl, rfl, rfl, rfl, rfl, rfl, rfl⟩
  · have h := storeList_chains node w scene.topLevelNodes []
    exact h

/-! ### Adding nodes -/

/-- With more fuel than the parent chain is long, `getScene` returns the root of the
chain. -/
theorem getScene_root (parentOf : Addr → Addr) :
    ∀ (n fuel : Nat) (node root : Addr), ParentChain parentOf n node root → n < fuel →
      getScene parentOf fuel node = .ok root
  | _, 0, _, _, _, hf => by omega
  | 0, fuel + 1, node, root, h, _ => by
    obtain ⟨h1, h2⟩ := h
    subst h1
    rw [getScene, if_pos h2]
  | n + 1, fuel + 1, node, root, h, hf => by
    obtain ⟨h1, h2⟩ := h
    rw [getScene, if_neg h1]
    exact getScene_root parentOf n fuel (parentOf node) root h2 (by omega)

mutual
theorem push_of_find_none {F M : Type} (V : SceneLib) (parent : Addr) (new : HPGnode F M) :
    ∀ t : HPGnode F M, HPGnode.find parent t = none → HPGnode.push V parent new t = t
  | .mk f cs, h => by
    rw [HPGnode.find] at h
    by_cases hf : f.addr = parent
    · rw [if_pos hf] at h
      cases h
    · rw [if_neg hf] at h
      rw [HPGnode.push, if_neg hf, pushList_of_find_none V parent new cs h]
theorem pushList_of_find_none {F M : Type} (V : SceneLib) (parent : Addr)
    (new : HPGnode F M) :
    ∀ ts : List (HPGnode F M), findList parent ts = none → pushList V parent new ts = ts
  | [], _ => rfl
  | t :: ts, h => by
    rw [findList] at h
    cases ht : HPGnode.find parent t with
    | some n =>
      rw [ht] at h
      cases h
    | none =>
      rw [ht] at h
      rw [pushList, push_of_find_none V parent new t ht,
        pushList_of_find_none V parent new ts h]
end

mutual
theorem find_push {F M : Type} (V : SceneLib) (parent : Addr) (new : HPGnode F M) :
    ∀ (t : HPGnode F M) (pf : HPGnodeFields F M) (cs : List (HPGnode F M)),
      HPGnode.find parent t = some (.mk pf cs) →
      HPGnode.find parent (HPGnode.push V parent new t) =
        some (.mk { pf with childrenCapacity := V.hpgVectorPush cs.length pf.childrenCapacity }
          (cs ++ [new]))
  | .mk f ds, pf, cs, h => by
    rw [HPGnode.find] at h
    by_cases hf : f.addr = parent
    · rw [if_pos hf] at h
      cases h
      rw [HPGnode.push, if_pos hf, HPGnode.find, if_pos hf]
    · rw [if_neg hf] at h
      rw [HPGnode.push, if_neg hf, HPGnode.find, if_neg hf]
      exact findList_push V parent new ds pf cs h
theorem findList_push {F M : Type} (V : SceneLib) (parent : Addr) (new : HPGnode F M) :
    ∀ (ts : List (HPGnode F M)) (pf : HPGnodeFields F M) (cs : List (HPGnode F M)),
      findList parent ts = some (.mk pf cs) →
      findList parent (pushList V parent new ts) =
        some (.mk { pf with childrenCapacity := V.hpgVectorPush cs.length pf.childrenCapacity }
          (cs ++ [new]))
  | [], _, _, h => by cases h
  | t :: ts, pf, cs, h => by
    rw [findList] at h
    cases ht : HPGnode.find parent t with
    | some n =>
      rw [ht] at h
      cases h
      rw [pushList, findList, find_push V parent new t pf cs ht]
    | none =>
      rw [ht] at h
      rw [pushList, findList, push_of_find_none V parent new t ht, ht]
      exact findList_push V parent new ts pf cs h
end

theorem pushList_addrs {F M : Type} (V : SceneLib) (parent : Addr) (new : HPGnode F M) :
    ∀ ts : List (HPGnode F M),
      (pushList V parent new ts).map (fun t => t.fields.addr) =
        ts.map (fun t => t.fields.addr)
  | [] => rfl
  | .mk f cs :: ts => by
    rw [pushList, List.map_cons, List.map_cons, pushList_addrs V parent new ts]
    congr 1
    rw [HPGnode.push]
    split <;> rfl
/-- C17: for a parent whose chain of parent pointers reaches a root after `n` steps,
with more fuel than that, `getScene` returns the root and `hpgAddNode` returns a
node with identity transform, bounding sphere `(0, 0, 0, 0)`, dirty flag set, the
given data, pipeline and parent, and no children.  No other scene changes.  When
the parent is the scene itself the top-level list of the scene is the list before
with the node appended; otherwise the child list of the parent is the list before
with the node appended, and the top-level list holds the pointers it held. -/
theorem hpgAddNode_appends_node {F M : Type} [Zero F] (L : Hypermath F M) (V : SceneLib)
    (parentOf : Addr → Addr) (fuel : Nat) (fresh : HPGnodeFields F M)
    (parent data pipeline deleteFunc : Addr) (w : SceneStatics F M) (n : Nat) (root : Addr)
    (hchain : ParentChain parentOf n parent root) (hfuel : n < fuel) :
    getScene parentOf fuel parent = .ok root ∧
      ∃ (f : HPGnodeFields F M) (parentOf1 : Addr → Addr) (w1 : SceneStatics F M),
        hpgAddNode L V parentOf fuel fresh parent data pipeline deleteFunc w =
          .ok (f.addr, parentOf1, w1) ∧
        f.transform = L.hpgIdentityMat4 ∧ f.boundingSphere = ⟨0, 0, 0, 0⟩ ∧
        f.needsUpdate = true ∧ f.data = data ∧ f.pipeline = pipeline ∧
        parentOf1 f.addr = parent ∧
        (∀ a, a ≠ root → w1.mem a = w.mem a) ∧
        (parent = root →
          (w1.mem root).topLevelNodes = (w.mem root).topLevelNodes ++ [.mk f []]) ∧
        (parent ≠ root →
          (w1.mem root).topLevelNodes.map (fun t => t.fields.addr) =
            (w.mem root).topLevelNodes.map (fun t => t.fields.addr) ∧
          ∀ pf cs, findList parent (w.mem root).topLevelNodes = some (.mk pf cs) →
            findList parent (w1.mem root).topLevelNodes =
              some (.mk
                { pf with
                  childrenCapacity := V.hpgVectorPush cs.length pf.childrenCapacity }
                (cs ++ [.mk f []]))) := by
  have hg := getScene_root parentOf n fuel parent root hchain hfuel
  refine ⟨hg, { fresh with
      addr := (V.hpgAllocateFrom (w.mem root).nodePool).1
      transformSlot := (V.hpgAllocateFrom (w.mem root).transformPool).1
      boundingSphereSlot := (V.hpgAllocateFrom (w.mem root).boundingSpherePool).1
      transform := L.hpgIdentityMat4
      boundingSphere := ⟨0, 0, 0, 0⟩
      data := data
      pipeline := pipeline
      delete := if deleteFunc ≠ 0 then deleteFunc else V.free
      needsUpdate := true
      childrenCapacity := V.hpgInitVector 0 },
    (hpgAddNode.body L V parentOf fresh parent data pipeline deleteFunc w root).2.1,
    (hpgAddNode.body L V parentOf fresh parent data pipeline deleteFunc w root).2.2,
    ?_, rfl, rfl, rfl, rfl, rfl, ?_, ?_, ?_, ?_⟩
  · rw [hpgAddNode, hg]
    rfl
  · simp [hpgAddNode.body]
  · intro a ha
    simp [hpgAddNode.body, Function.update, ha]
  · intro hp
    simp [hpgAddNode.body, hp]
  · intro hp
    refine ⟨?_, fun pf cs hfind => ?_⟩
    · simp only [hpgAddNode.body, hp, if_false, Function.update_same]
      exact pushList_addrs V parent _ _
    · simp only [hpgAddNode.body, hp, if_false, Function.update_same]
      exact findList_push V parent _ _ pf cs hfind
/-- C17, at a concrete input: a node added below the top-level node at address `1` of
`exampleStatics`, whose parent pointer leads to the scene at address `10`. -/
theorem hpgAddNode_appends_node_witness :
    ParentChain exampleParents 1 1 10 ∧ 1 < 5 ∧
      getScene exampleParents 5 1 = .ok 10 ∧
      ∃ (f : HPGnodeFields Int (MatTerm Int)) (parentOf1 : Addr → Addr)
          (w1 : SceneStatics Int (MatTerm Int)),
        hpgAddNode (MatTerm.lib Int) exampleSceneLibFive exampleParents 5
            (exampleFields 0 0 false 0) 1 105 1 0 exampleStatics =
          .ok (f.addr, parentOf1, w1) ∧
        f.transform = (MatTerm.lib Int).hpgIdentityMat4 ∧ f.boundingSphere = ⟨0, 0, 0, 0⟩ ∧
        f.needsUpdate = true ∧ f.data = 105 ∧ f.pipeline = 1 ∧
        parentOf1 f.addr = 1 ∧
        (∀ a, a ≠ 10 → w1.mem a = exampleStatics.mem a) ∧
        ((1 : Addr) = 10 →
          (w1.mem 10).topLevelNodes = (exampleStatics.mem 10).topLevelNodes ++ [.mk f []]) ∧
        ((1 : Addr) ≠ 10 →
          (w1.mem 10).topLevelNodes.map (fun t => t.fields.addr) =
            (exampleStatics.mem 10).topLevelNodes.map (fun t => t.fields.addr) ∧
          ∀ pf cs, findList 1 (exampleStatics.mem 10).topLevelNodes = some (.mk pf cs) →
            findList 1 (w1.mem 10).topLevelNodes =
              some (.mk
                { pf with
                  childrenCapacity :=
                    exampleSceneLibFive.hpgVectorPush cs.length pf.childrenCapacity }
                (cs ++ [.mk f []]))) :=
  ⟨⟨by decide, rfl, rfl⟩, by decide,
    hpgAddNode_appends_node (MatTerm.lib Int) exampleSceneLibFive exampleParents 5
      (exampleFields 0 0 false 0) 1 105 1 0 exampleStatics 1 10 ⟨by decide, rfl, rfl⟩
      (by decide)⟩

/-- The same call evaluated: the node is handed out at address `5`, the nodes
reachable afterwards are `1, 2, 5, 3, 4` in depth-first order, and the parent at
address `1` has the children `2, 5`. -/
theorem hpgAddNode_below_node_example :
    ∃ p w1, hpgAddNode (MatTerm.lib Int) exampleSceneLibFive exampleParents 5
        (exampleFields 0 0 false 0) 1 105 1 0 exampleStatics = .ok (5, p, w1) ∧
      (w1.mem 10).reachable = [1, 2, 5, 3, 4] ∧
      (findList 1 (w1.mem 10).topLevelNodes).map
        (fun t => t.children.map (fun c => c.fields.addr)) = some [2, 5] ∧
      p 5 = 1 :=
  ⟨_, _, rfl, by decide, by decide, rfl⟩

/-! ### Cameras: the depth comparators -/

theorem setSortFuns_exampleSmallPlane
    (alphaSort renderSort : HPGnodeFields ℚ (MatTerm ℚ) → HPGnodeFields ℚ (MatTerm ℚ) → Int) :
    setSortFuns exampleTruncate exampleSmallPlane alphaSort renderSort =
      (zGreaterThan, zPositive) := by
  have ha : exampleTruncate.toInt exampleSmallPlane.a = 0 := by
    simp only [exampleTruncate, exampleSmallPlane]
    norm_num
    rfl
  have hb : exampleTruncate.toInt exampleSmallPlane.b = 0 := by
    simp only [exampleTruncate, exampleSmallPlane]
    norm_num
    rfl
  have hc : exampleTruncate.toInt exampleSmallPlane.c = 0 := by
    simp only [exampleTruncate, exampleSmallPlane]
    norm_num
    rfl
  have hz : ¬ exampleSmallPlane.c < 0 := by
    simp only [exampleSmallPlane]
    norm_num
  simp only [setSortFuns, ha, hb, hc]
  simp [hz]

/-- C18: what `renderQueues` hands to its two dispatch loops are its own local
variables `alphaSort` and `renderSort`, which `setSortFuns` cannot assign: for the
near plane `(1, 0, 0, 0)` and locals that hold `programSort`, `setSortFuns` computes
the pair `xGreaterThan`, `xPositive`, which orders two nodes that `programSort` does
not.  And `setSortFuns` itself takes the magnitudes through `int abs(int)`: for the
near plane `(9/10, 1/10, 1/5, 0)`, dominant on `+x`, it computes the pair of the `z`
axis, which differs from that of the `x` axis. -/
theorem setSortFuns_choice_lost {F M : Type} [Add F] [Zero F] [LT F]
    [DecidableRel (fun a b : F => a < b)]
    (K : FloatInt F) (Q : Qsort) (L : Hypermath F M) (fuel : Nat)
    (alphaSort renderSort : HPGnodeFields F M → HPGnodeFields F M → Int)
    (g : CameraStatics F M) :
    renderQueues K Q L fuel alphaSort renderSort g =
        (match renderQueues.dispatch Q L .alphaQueue alphaSort fuel 0
            (renderQueues.group Q g) with
          | .error e => .error e
          | .ok g1 => renderQueues.dispatch Q L .renderQueue renderSort fuel 0 g1) ∧
      setSortFuns exampleFloatInt (exampleCameraX.planes Faces.NEAR.index)
          (programSort : HPGnodeFields Int (MatTerm Int) → _) programSort =
        (xGreaterThan, xPositive) ∧
      xGreaterThan (exampleDepthNode 15 1 5) (exampleDepthNode 13 1 3) = -1 ∧
      xPositive (exampleDepthNode 15 1 5) (exampleDepthNode 13 1 3) = 1 ∧
      programSort (exampleDepthNode 15 1 5) (exampleDepthNode 13 1 3) = 0 ∧
      setSortFuns exampleTruncate exampleSmallPlane
          (programSort : HPGnodeFields ℚ (MatTerm ℚ) → _) programSort =
        (zGreaterThan, zPositive) ∧
      xGreaterThan (exampleRatNode 1 0) (exampleRatNode 0 0) = -1 ∧
      zGreaterThan (exampleRatNode 1 0) (exampleRatNode 0 0) = 0 ∧
      xPositive (exampleRatNode 1 0) (exampleRatNode 0 0) = 1 ∧
      zPositive (exampleRatNode 1 0) (exampleRatNode 0 0) = 0 := by
  refine ⟨rfl, rfl, rfl, rfl, rfl, setSortFuns_exampleSmallPlane _ _, ?_, ?_, ?_, ?_⟩ <;>
    simp [xGreaterThan, zGreaterThan, xPositive, zPositive, exampleRatNode]

theorem mirror_less {F : Type} [OrderedAddCommGroup F] [DecidableRel (fun a b : F => a < b)]
    (xa xb r : F) :
    (if xa > xb then 1 else if xa < xb then -1 else 0 : Int) =
      -(if xa + r < xb + r then 1 else if xa + r > xb + r then -1 else 0) := by
  simp only [gt_iff_lt, add_lt_add_iff_right]
  by_cases h1 : xb < xa
  · rw [if_pos h1, if_neg (lt_asymm h1), if_pos h1]
    rfl
  · rw [if_neg h1]
    by_cases h2 : xa < xb
    · rw [if_pos h2, if_pos h2]
    · rw [if_neg h2, if_neg h2, if_neg h1]
      rfl

theorem mirror_greater {F : Type} [OrderedAddCommGroup F]
    [DecidableRel (fun a b : F => a < b)] (xa xb r : F) :
    (if xa < xb then 1 else if xa > xb then -1 else 0 : Int) =
      -(if xa + r > xb + r then 1 else if xa + r < xb + r then -1 else 0) := by
  simp only [gt_iff_lt, add_lt_add_iff_right]
  by_cases h1 : xa < xb
  · rw [if_pos h1, if_neg (lt_asymm h1), if_pos h1]
    rfl
  · rw [if_neg h1]
    by_cases h2 : xb < xa
    · rw [if_pos h2, if_pos h2]
    · rw [if_neg h2, if_neg h2, if_neg h1]
      rfl

/-- C19: for the nodes `a` (centre `x = 0`, radius `5`) and `b` (centre `x = 1`,
radius `0`) both `xLessThan` and `xNegative` return `-1`, and both `xGreaterThan` and
`xPositive` return `1`, so neither pair is a pair of mirror images: the alpha
comparators read the centre only, the opaque ones the centre plus the radius. -/
theorem comparators_not_mirrored :
    xLessThan (exampleSphereNode 0 5) (exampleSphereNode 1 0) = -1 ∧
      xNegative (exampleSphereNode 0 5) (exampleSphereNode 1 0) = -1 ∧
      xGreaterThan (exampleSphereNode 0 5) (exampleSphereNode 1 0) = 1 ∧
      xPositive (exampleSphereNode 0 5) (exampleSphereNode 1 0) = 1 ∧
      ¬ ∀ a b : HPGnodeFields Int (MatTerm Int), xLessThan a b = -xNegative a b := by
  refine ⟨rfl, rfl, rfl, rfl, fun h => ?_⟩
  have h1 := h (exampleSphereNode 0 5) (exampleSphereNode 1 0)
  revert h1
  decide

/-- With exact arithmetic, on two nodes whose bounding spheres have the same radius
each alpha comparator returns the negative of the opaque comparator of the same
axis and sign. -/
theorem comparators_mirror_equal_radii {F M : Type} [OrderedAddCommGroup F]
    [DecidableRel (fun a b : F => a < b)] (a b : HPGnodeFields F M)
    (h : a.boundingSphere.r = b.boundingSphere.r) :
    xLessThan a b = -xNegative a b ∧ xGreaterThan a b = -xPositive a b ∧
      yLessThan a b = -yNegative a b ∧ yGreaterThan a b = -yPositive a b ∧
      zLessThan a b = -zNegative a b ∧ zGreaterThan a b = -zPositive a b := by
  simp only [xLessThan, xNegative, xGreaterThan, xPositive, yLessThan, yNegative,
    yGreaterThan, yPositive, zLessThan, zNegative, zGreaterThan, zPositive, h]
  exact ⟨mirror_less _ _ _, mirror_greater _ _ _, mirror_less _ _ _, mirror_greater _ _ _,
    mirror_less _ _ _, mirror_greater _ _ _⟩

/-! ### Cameras: the planes point inward -/

/-- C20: over exact arithmetic the planes that `computePlanes` stores have inward
normals.  With `(cx, cy, cz, cw)` the clip coordinates of a point, the plane values
at the point are `cw + cx` (LEFT), `cw - cx` (RIGHT), `cw + cy` (BOTTOM), `cw - cy`
(TOP), `cw + cz` (NEAR) and `cw - cz` (FAR); so the point satisfies
`-cw ≤ cx, cy, cz ≤ cw` exactly when all six plane values are non-negative. -/
theorem computePlanes_inward {F M : Type} [LinearOrderedCommRing F] (E : CameraEnv F M)
    (camera : HPGcamera F M) (x y z : F) :
    ((computePlanes E camera).planes Faces.LEFT.index).value x y z =
        ((E.asHPGmat4 camera.viewProjection).clip x y z).2.2.2 +
          ((E.asHPGmat4 camera.viewProjection).clip x y z).1 ∧
      ((computePlanes E camera).planes Faces.RIGHT.index).value x y z =
        ((E.asHPGmat4 camera.viewProjection).clip x y z).2.2.2 -
          ((E.asHPGmat4 camera.viewProjection).clip x y z).1 ∧
      ((computePlanes E camera).planes Faces.BOTTOM.index).value x y z =
        ((E.asHPGmat4 camera.viewProjection).clip x y z).2.2.2 +
          ((E.asHPGmat4 camera.viewProjection).clip x y z).2.1 ∧
      ((computePlanes E camera).planes Faces.TOP.index).value x y z =
        ((E.asHPGmat4 camera.viewProjection).clip x y z).2.2.2 -
          ((E.asHPGmat4 camera.viewProjection).clip x y z).2.1 ∧
      ((computePlanes E camera).planes Faces.NEAR.index).value x y z =
        ((E.asHPGmat4 camera.viewProjection).clip x y z).2.2.2 +
          ((E.asHPGmat4 camera.viewProjection).clip x y z).2.2.1 ∧
      ((computePlanes E camera).planes Faces.FAR.index).value x y z =
        ((E.asHPGmat4 camera.viewProjection).clip x y z).2.2.2 -
          ((E.asHPGmat4 camera.viewProjection).clip x y z).2.2.1 ∧
      ((-((E.asHPGmat4 camera.viewProjection).clip x y z).2.2.2 ≤
            ((E.asHPGmat4 camera.viewProjection).clip x y z).1 ∧
          ((E.asHPGmat4 camera.viewProjection).clip x y z).1 ≤
            ((E.asHPGmat4 camera.viewProjection).clip x y z).2.2.2 ∧
          -((E.asHPGmat4 camera.viewProjection).clip x y z).2.2.2 ≤
            ((E.asHPGmat4 camera.viewProjection).clip x y z).2.1 ∧
          ((E.asHPGmat4 camera.viewProjection).clip x y z).2.1 ≤
            ((E.asHPGmat4 camera.viewProjection).clip x y z).2.2.2 ∧
          -((E.asHPGmat4 camera.viewProjection).clip x y z).2.2.2 ≤
            ((E.asHPGmat4 camera.viewProjection).clip x y z).2.2.1 ∧
          ((E.asHPGmat4 camera.viewProjection).clip x y z).2.2.1 ≤
            ((E.asHPGmat4 camera.viewProjection).clip x y z).2.2.2) ↔
        ∀ face : Faces, 0 ≤ ((computePlanes E camera).planes face.index).value x y z) := by
  have hL : ((computePlanes E camera).planes Faces.LEFT.index).value x y z =
      ((E.asHPGmat4 camera.viewProjection).clip x y z).2.2.2 +
        ((E.asHPGmat4 camera.viewProjection).clip x y z).1 := by
    simp [computePlanes, Faces.index, Function.update, Plane.value, HPGmat4.clip]
    ring
  have hR : ((computePlanes E camera).planes Faces.RIGHT.index).value x y z =
      ((E.asHPGmat4 camera.viewProjection).clip x y z).2.2.2 -
        ((E.asHPGmat4 camera.viewProjection).clip x y z).1 := by
    simp [computePlanes, Faces.index, Function.update, Plane.value, HPGmat4.clip]
    ring
  have hB : ((computePlanes E camera).planes Faces.BOTTOM.index).value x y z =
      ((E.asHPGmat4 camera.viewProjection).clip x y z).2.2.2 +
        ((E.asHPGmat4 camera.viewProjection).clip x y z).2.1 := by
    simp [computePlanes, Faces.index, Function.update, Plane.value, HPGmat4.clip]
    ring
  have hT : ((computePlanes E camera).planes Faces.TOP.index).value x y z =
      ((E.asHPGmat4 camera.viewProjection).clip x y z).2.2.2 -
        ((E.asHPGmat4 camera.viewProjection).clip x y z).2.1 := by
    simp [computePlanes, Faces.index, Function.update, Plane.value, HPGmat4.clip]
    ring
  have hN : ((computePlanes E camera).planes Faces.NEAR.index).value x y z =
      ((E.asHPGmat4 camera.viewProjection).clip x y z).2.2.2 +
        ((E.asHPGmat4 camera.viewProjection).clip x y z).2.2.1 := by
    simp [computePlanes, Faces.index, Function.update, Plane.value, HPGmat4.clip]
    ring
  have hF : ((computePlanes E camera).planes Faces.FAR.index).value x y z =
      ((E.asHPGmat4 camera.viewProjection).clip x y z).2.2.2 -
        ((E.asHPGmat4 camera.viewProjection).clip x y z).2.2.1 := by
    simp [computePlanes, Faces.index, Function.update, Plane.value, HPGmat4.clip]
    ring
  refine ⟨hL, hR, hB, hT, hN, hF, ?_, ?_⟩
  · rintro ⟨h1, h2, h3, h4, h5, h6⟩ face
    cases face
    · rw [hR]; linarith
    · rw [hL]; linarith
    · rw [hT]; linarith
    · rw [hB]; linarith
    · rw [hN]; linarith
    · rw [hF]; linarith
  · intro h
    have fL := h Faces.LEFT
    have fR := h Faces.RIGHT
    have fB := h Faces.BOTTOM
    have fT := h Faces.TOP
    have fN := h Faces.NEAR
    have fF := h Faces.FAR
    rw [hL] at fL
    rw [hR] at fR
    rw [hB] at fB
    rw [hT] at fT
    rw [hN] at fN
    rw [hF] at fF
    refine ⟨?_, ?_, ?_, ?_, ?_, ?_⟩ <;> linarith

/-! ### Cameras: the callbacks issued up to the point where a run stops -/

theorem observed_count_refines {F M : Type} (Q : Qsort) (k : Queue)
    (sort : HPGnodeFields F M → HPGnodeFields F M → Int) (p : Addr) (i : Nat) :
    ∀ (fuel count : Nat) (g : CameraStatics F M),
      renderQueues.count Q k sort p i fuel count g =
        (renderQueues.observed.count Q k sort p i fuel count g).mapError Prod.fst
  | 0, _, _ => rfl
  | fuel + 1, count, g => by
    rw [renderQueues.count, renderQueues.observed.count]
    split
    · split
      · rfl
      · split
        · exact observed_count_refines Q k sort p i fuel _ _
        · exact observed_count_refines Q k sort p i fuel _ _
    · rfl

theorem observed_run_refines {F M : Type} (L : Hypermath F M) (k : Queue) (i : Nat) :
    ∀ (js : List Nat) (g : CameraStatics F M),
      renderQueues.run L k i js g =
        (renderQueues.observed.run L k i js g).mapError Prod.fst
  | [], _ => rfl
  | j :: js, g => by
    rw [renderQueues.run, renderQueues.observed.run]
    split
    · rfl
    · exact observed_run_refines L k i js _

theorem observed_dispatch_refines {F M : Type} (Q : Qsort) (L : Hypermath F M) (k : Queue)
    (sort : HPGnodeFields F M → HPGnodeFields F M → Int) :
    ∀ (fuel i : Nat) (g : CameraStatics F M),
      renderQueues.dispatch Q L k sort fuel i g =
        (renderQueues.observed.dispatch Q L k sort fuel i g).mapError Prod.fst
  | 0, _, _ => rfl
  | fuel + 1, i, g => by
    rw [renderQueues.dispatch, renderQueues.observed.dispatch]
    split
    · split
      · rfl
      · simp only
        rw [observed_count_refines]
        cases renderQueues.observed.count Q k sort _ i fuel 1 _ with
        | error e => rfl
        | ok r =>
          obtain ⟨count, g2⟩ := r
          simp only [Except.mapError]
          rw [observed_run_refines]
          cases renderQueues.observed.run L k i (List.range count) g2 with
          | error e => rfl
          | ok g3 =>
            simp only [Except.mapError]
            exact observed_dispatch_refines Q L k sort fuel _ _
    · rfl

/-- The observed run of `renderQueues` is the run of `renderQueues` with the statics
of a stopped run added: forgetting them gives `renderQueues` back. -/
theorem observed_refines {F M : Type} [Add F] [Zero F] [LT F]
    [DecidableRel (fun a b : F => a < b)]
    (K : FloatInt F) (Q : Qsort) (L : Hypermath F M) (fuel : Nat)
    (alphaSort renderSort : HPGnodeFields F M → HPGnodeFields F M → Int)
    (g : CameraStatics F M) :
    renderQueues K Q L fuel alphaSort renderSort g =
      (renderQueues.observed K Q L fuel alphaSort renderSort g).mapError Prod.fst := by
  rw [renderQueues_eq_group, observed_dispatch_refines]
  show _ = Except.mapError Prod.fst
    (match renderQueues.observed.dispatch Q L .alphaQueue alphaSort fuel 0
      (renderQueues.group Q g) with
    | Except.error e => Except.error e
    | Except.ok g1 => renderQueues.observed.dispatch Q L .renderQueue renderSort fuel 0 g1)
  cases renderQueues.observed.dispatch Q L .alphaQueue alphaSort fuel 0
      (renderQueues.group Q g) with
  | error e => rfl
  | ok g1 =>
    simp only [Except.mapError]
    exact observed_dispatch_refines Q L .renderQueue renderSort fuel 0 g1

theorem observed_count_stop {F M : Type} (Q : Qsort) (k : Queue)
    (sort : HPGnodeFields F M → HPGnodeFields F M → Int) (p : Addr) (i : Nat) :
    ∀ (fuel count : Nat) (g : CameraStatics F M) (e : Fault) (g1 : CameraStatics F M),
      renderQueues.observed.count Q k sort p i fuel count g = .error (e, g1) →
      g1.trace = g.trace
  | 0, _, g, e, g1, h => by
    rw [renderQueues.observed.count] at h
    cases h
    rfl
  | fuel + 1, count, g, e, g1, h => by
    rw [renderQueues.observed.count] at h
    split at h
    · split at h
      · cases h
        rfl
      · split at h
        · exact observed_count_stop Q k sort p i fuel _ _ e g1 h
        · have ih := observed_count_stop Q k sort p i fuel _ _ e g1 h
          rw [ih]
          cases k <;> rfl
    · cases h

theorem brackets_renders {F M : Type} (p : Addr) (t : List Call) :
    ∀ l : List (HPGnodeFields F M), (∀ m ∈ l, m.pipeline = p) →
      brackets (some (p, true))
        (l.map (fun m => Call.render m.pipeline m.data) ++ Call.postRender p :: t) =
        brackets none t
  | [], _ => by simp [brackets]
  | m :: l, h => by
    have hm : m.pipeline = p := h m (List.mem_cons_self _ _)
    have ih := brackets_renders p t l (fun x hx => h x (List.mem_cons_of_mem _ hx))
    simp [brackets, hm, ih]

/-- The bracket automaton reads the calls of one batch, of nodes that share the
pipeline of the first one, from outside a batch to outside a batch. -/
theorem brackets_batch {F M : Type} (nodes : List (HPGnodeFields F M))
    (h : OnePipeline nodes) (t : List Call) :
    brackets none (batch nodes ++ t) = brackets none t := by
  cases nodes with
  | nil => rfl
  | cons n rest =>
    have hall : ∀ m ∈ rest, m.pipeline = n.pipeline := fun m hm =>
      h n (by simp) m (List.mem_cons_of_mem _ hm)
    have ih := brackets_renders n.pipeline t rest hall
    simp only [batch, List.map_cons, List.cons_append, List.append_assoc,
      List.singleton_append, brackets]
    simp [ih]

/-- An observed dispatch loop that completes has added one batch over all live nodes
of its queue. -/
theorem observed_dispatch_ok {F M : Type} (Q : Qsort) (L : Hypermath F M) (k : Queue)
    (sort : HPGnodeFields F M → HPGnodeFields F M → Int) (fuel : Nat)
    (g g1 : CameraStatics F M)
    (h : renderQueues.observed.dispatch Q L k sort fuel 0 g = .ok g1) :
    g1.renderQueue = g.renderQueue ∧ g1.alphaQueue = g.alphaQueue ∧
      g1.trace = g.trace ++ batch (g.queue k).live ∧ OnePipeline (g.queue k).live := by
  have h1 : renderQueues.dispatch Q L k sort fuel 0 g = .ok g1 := by
    rw [observed_dispatch_refines, h]
    rfl
  obtain ⟨a, b, c, d, _⟩ := renderQueues_dispatch_ok Q L k sort fuel g g1 h1
  exact ⟨a, b, c, d⟩

/-- An observed dispatch loop that stops without a result has issued no callback, or
the `preRender` call of its first batch and nothing else. -/
theorem observed_dispatch_stop {F M : Type} (Q : Qsort) (L : Hypermath F M) (k : Queue)
    (sort : HPGnodeFields F M → HPGnodeFields F M → Int) (fuel : Nat)
    (g g1 : CameraStatics F M) (e : Fault)
    (h : renderQueues.observed.dispatch Q L k sort fuel 0 g = .error (e, g1)) :
    g1.trace = g.trace ∨
      (0 < (g.queue k).size ∧ ∃ p a, g1.trace = g.trace ++ [Call.preRender p a]) := by
  cases fuel with
  | zero =>
    rw [renderQueues.observed.dispatch] at h
    cases h
    exact Or.inl rfl
  | succ fuel =>
    rw [renderQueues.observed.dispatch] at h
    by_cases hs : 0 < (g.queue k).size
    · rw [if_pos hs] at h
      cases hd : (g.queue k).data[0]? with
      | none =>
        rw [hd] at h
        cases h
        exact Or.inl rfl
      | some n =>
        rw [hd] at h
        simp only at h
        have hq : ({ g with trace := g.trace ++ [Call.preRender n.pipeline n.addr] } :
            CameraStatics F M).queue k = g.queue k := by cases k <;> rfl
        cases hc : renderQueues.observed.count Q k sort n.pipeline 0 fuel 1
            { g with trace := g.trace ++ [Call.preRender n.pipeline n.addr] } with
        | error r =>
          obtain ⟨e2, g2⟩ := r
          rw [hc] at h
          cases h
          exact Or.inr ⟨hs, _, _, observed_count_stop Q k sort _ 0 fuel 1 _ _ _ hc⟩
        | ok r =>
          obtain ⟨count, g2⟩ := r
          rw [hc] at h
          simp only at h
          have hc1 : renderQueues.count Q k sort n.pipeline 0 fuel 1
              { g with trace := g.trace ++ [Call.preRender n.pipeline n.addr] } =
              .ok (count, g2) := by
            rw [observed_count_refines, hc]
            rfl
          obtain ⟨e2, ec, hp⟩ := renderQueues_count_ok Q k sort n.pipeline 0 fuel 1 _ _ hc1
          simp only at e2 ec hp
          subst e2
          rw [hq] at ec hp
          have ecs : count = (g.queue k).size := by omega
          have hlen : 0 + 0 + count ≤ (({ g with trace := g.trace ++
              [Call.preRender n.pipeline n.addr] } : CameraStatics F M).queue k).data.length := by
            rw [hq]
            by_cases h1 : count = 1
            · have := (List.getElem?_eq_some.1 hd).1
              omega
            · obtain ⟨m, hm, _⟩ := hp (count - 1) (by omega) (by omega)
              have := (List.getElem?_eq_some.1 hm).1
              omega
          obtain ⟨g3, hg3⟩ := renderQueues_run_terminates L k 0 count 0 _ hlen
          rw [← List.range_eq_range', observed_run_refines] at hg3
          cases hr : renderQueues.observed.run L k 0 (List.range count)
              { g with trace := g.trace ++ [Call.preRender n.pipeline n.addr] } with
          | error r =>
            rw [hr] at hg3
            cases hg3
          | ok g4 =>
            rw [hr] at h
            simp only at h
            have hr1 : renderQueues.run L k 0 (List.range' 0 count)
                { g with trace := g.trace ++ [Call.preRender n.pipeline n.addr] } = .ok g4 := by
              rw [← List.range_eq_range', observed_run_refines, hr]
              rfl
            obtain ⟨r1, r2, _, _⟩ := renderQueues_run_ok L k 0 count 0 _ g4 hr1
            have hq4 : ({ g4 with trace := g4.trace ++ [Call.postRender n.pipeline] } :
                CameraStatics F M).queue k = g.queue k := by
              cases k
              · show g4.alphaQueue = g.alphaQueue
                exact r2
              · show g4.renderQueue = g.renderQueue
                exact r1
            cases fuel with
            | zero =>
              rw [renderQueues.observed.count] at hc
              cases hc
            | succ fuel =>
              rw [renderQueues.observed.dispatch, if_neg (by rw [hq4]; omega)] at h
              cases h
    · rw [if_neg hs] at h
      cases h

theorem observed_eq_group {F M : Type} [Add F] [Zero F] [LT F]
    [DecidableRel (fun a b : F => a < b)] (K : FloatInt F) (Q : Qsort) (L : Hypermath F M)
    (fuel : Nat) (alphaSort renderSort : HPGnodeFields F M → HPGnodeFields F M → Int)
    (g : CameraStatics F M) :
    renderQueues.observed K Q L fuel alphaSort renderSort g =
      match renderQueues.observed.dispatch Q L .alphaQueue alphaSort fuel 0
          (renderQueues.group Q g) with
      | .error e => .error e
      | .ok g1 => renderQueues.observed.dispatch Q L .renderQueue renderSort fuel 0 g1 := rfl

theorem live_of_size_zero {α : Type} (v : HPGvector α) (h : v.size = 0) : v.live = [] := by
  rw [HPGvector.live, h, List.take_zero]

/-- C11: the pipeline callbacks that `renderQueues` has issued when its run ends, with
a result or stopped without one, are accepted by the bracket automaton:
`preRender` and `postRender` alternate starting with `preRender`, every `render`
lies between a `preRender` of its own pipeline and the next `postRender`, and no
`postRender` follows a `preRender` directly.  A run that completes ends outside a
batch, and with both queues empty no callback is issued. -/
theorem renderQueues_callbacks_bracketed {F M : Type} [Add F] [Zero F] [LT F]
    [DecidableRel (fun a b : F => a < b)]
    (K : FloatInt F) (Q : Qsort) (L : Hypermath F M) (fuel : Nat)
    (alphaSort renderSort : HPGnodeFields F M → HPGnodeFields F M → Int)
    (g : CameraStatics F M) :
    renderQueues K Q L fuel alphaSort renderSort g =
        (renderQueues.observed K Q L fuel alphaSort renderSort g).mapError Prod.fst ∧
      ∃ t s,
        (lastStatics (renderQueues.observed K Q L fuel alphaSort renderSort g)).trace =
          g.trace ++ t ∧
        brackets none t = some s ∧
        (completed (renderQueues.observed K Q L fuel alphaSort renderSort g) = true →
          s = none) ∧
        (g.alphaQueue.size = 0 ∧ g.renderQueue.size = 0 → t = []) := by
  refine ⟨observed_refines K Q L fuel alphaSort renderSort g, ?_⟩
  rw [observed_eq_group]
  have ht : (renderQueues.group Q g).trace = g.trace := rfl
  have hqa : (renderQueues.group Q g).queue .alphaQueue = g.alphaQueue := rfl
  have hsr : ((renderQueues.group Q g).queue .renderQueue).size = g.renderQueue.size := rfl
  cases ha : renderQueues.observed.dispatch Q L .alphaQueue alphaSort fuel 0
      (renderQueues.group Q g) with
  | error r =>
    obtain ⟨e, g1⟩ := r
    rcases observed_dispatch_stop Q L _ _ _ _ _ _ ha with h1 | ⟨hs, p, a, h1⟩
    · exact ⟨[], none, by simp [lastStatics, h1, ht], rfl, fun _ => rfl, fun _ => rfl⟩
    · refine ⟨[Call.preRender p a], some (p, false), by simp [lastStatics, h1, ht], rfl,
        fun hc => by simp [completed] at hc, fun he => ?_⟩
      rw [hqa] at hs
      omega
  | ok ga =>
    obtain ⟨a1, a2, a3, a4⟩ := observed_dispatch_ok Q L _ _ _ _ _ ha
    rw [hqa] at a3 a4
    rw [ht] at a3
    have hqr : ga.queue .renderQueue = (renderQueues.group Q g).queue .renderQueue := a1
    simp only
    cases hr : renderQueues.observed.dispatch Q L .renderQueue renderSort fuel 0 ga with
    | error r =>
      obtain ⟨e, g1⟩ := r
      rcases observed_dispatch_stop Q L _ _ _ _ _ _ hr with h1 | ⟨hs, p, a, h1⟩
      · refine ⟨batch g.alphaQueue.live, none, by simp [lastStatics, h1, a3], ?_,
          fun _ => rfl, fun he => ?_⟩
        · have := brackets_batch _ a4 []
          rw [List.append_nil] at this
          exact this
        · rw [live_of_size_zero _ he.1]
          rfl
      · refine ⟨batch g.alphaQueue.live ++ [Call.preRender p a], some (p, false),
          by simp [lastStatics, h1, a3], ?_, fun hc => by simp [completed] at hc,
          fun he => ?_⟩
        · rw [brackets_batch _ a4]
          rfl
        · rw [hqr, hsr] at hs
          omega
    | ok g1 =>
      obtain ⟨b1, b2, b3, b4⟩ := observed_dispatch_ok Q L _ _ _ _ _ hr
      rw [hqr] at b3 b4
      refine ⟨batch g.alphaQueue.live ++
          batch ((renderQueues.group Q g).queue .renderQueue).live, none,
        by simp [lastStatics, b3, a3], ?_, fun _ => rfl, fun he => ?_⟩
      · rw [brackets_batch _ a4]
        have := brackets_batch _ b4 []
        rw [List.append_nil] at this
        exact this
      · rw [live_of_size_zero _ he.1, live_of_size_zero _ (hsr.trans he.2)]
        rfl

/-- The run on `exampleQueues` (two opaque nodes with different pipelines) stops in
the inner loop of the first batch: what has been issued is its `preRender` call. -/
theorem observed_exampleQueues_stops :
    ∃ g1, renderQueues.observed exampleFloatInt exampleQsort (MatTerm.lib Int) 9 xGreaterThan
        xPositive exampleQueues = .error (Fault.outOfFuel, g1) ∧
      g1.trace = [Call.preRender 1 1] :=
  ⟨_, rfl, rfl⟩

/-! ### Live nodes -/

theorem noAddSince_trans {F M : Type} {s s1 s2 : HPGscene F M} (h : NoAddSince s s1)
    (h1 : NoAddSince s1 s2) : NoAddSince s s2 := by
  obtain ⟨a, t, b, c⟩ := h
  obtain ⟨a1, t1, b1, c1⟩ := h1
  refine ⟨a1.trans a, t ++ t1, by rw [b1, b, List.append_assoc], ?_⟩
  intro x hx
  rcases List.mem_append.1 hx with hx | hx
  · exact c x hx
  · exact c1 x hx

theorem noAddSince_call {F M : Type} (s : HPGscene F M) (c : Call)
    (hc : Call.isPartitionAddNode c = false) :
    NoAddSince s { s with trace := s.trace ++ [c] } :=
  ⟨rfl, [c], rfl, fun x hx => by rw [List.mem_singleton.1 hx]; exact hc⟩

mutual
theorem freeNode_noAdd {F M : Type}
    (hpgDeleteVector : (α : Type) → HPGvector α → HPGvector α) :
    ∀ (node : HPGnode F M) (scene : HPGscene F M),
      NoAddSince scene (freeNode hpgDeleteVector node scene).2
  | .mk f cs, scene => by
    have h0 := noAddSince_call scene (Call.delete f.delete f.data) rfl
    by_cases hc : f.childrenCapacity = 0
    · simp only [freeNode, hc, ne_eq, not_true_eq_false, if_false]
      exact h0
    · simp only [freeNode, hc, ne_eq, not_false_eq_true, if_true]
      exact noAddSince_trans h0 (freeNodes_noAdd hpgDeleteVector cs _)
theorem freeNodes_noAdd {F M : Type}
    (hpgDeleteVector : (α : Type) → HPGvector α → HPGvector α) :
    ∀ (nodes : List (HPGnode F M)) (scene : HPGscene F M),
      NoAddSince scene (freeNodes hpgDeleteVector nodes scene).2
  | [], scene => ⟨rfl, [], by simp [freeNodes], by simp⟩
  | c :: rest, scene => by
    simp only [freeNodes]
    exact noAddSince_trans (freeNode_noAdd hpgDeleteVector c scene)
      (freeNodes_noAdd hpgDeleteVector rest _)
end

mutual
theorem deleteNode_noAdd {F M : Type}
    (hpgDeleteVector : (α : Type) → HPGvector α → HPGvector α) :
    ∀ (node : HPGnode F M) (scene : HPGscene F M),
      NoAddSince { scene with trace := scene.trace ++ [Call.partitionRemoveNode node.fields.addr] }
        (deleteNode hpgDeleteVector node scene).2
  | .mk f cs, scene => by
    have h0 : NoAddSince
        { scene with trace := scene.trace ++ [Call.partitionRemoveNode f.addr] }
        { scene with
          trace := scene.trace ++ [Call.partitionRemoveNode f.addr]
          boundingSpherePool := hpgDeleteFrom f.boundingSphereSlot scene.boundingSpherePool
          transformPool := hpgDeleteFrom f.transformSlot scene.transformPool } :=
      ⟨rfl, [], by simp, by simp⟩
    have ih := deleteNodes_noAdd hpgDeleteVector cs
      { scene with
        trace := scene.trace ++ [Call.partitionRemoveNode f.addr]
        boundingSpherePool := hpgDeleteFrom f.boundingSphereSlot scene.boundingSpherePool
        transformPool := hpgDeleteFrom f.transformSlot scene.transformPool }
    simp only [deleteNode, HPGnode.fields]
    exact noAddSince_trans (noAddSince_trans h0 ih) (freeNode_noAdd hpgDeleteVector _ _)
theorem deleteNodes_noAdd {F M : Type}
    (hpgDeleteVector : (α : Type) → HPGvector α → HPGvector α) :
    ∀ (nodes : List (HPGnode F M)) (scene : HPGscene F M),
      NoAddSince scene (deleteNodes hpgDeleteVector nodes scene).2
  | [], scene => ⟨rfl, [], by simp [deleteNodes], by simp⟩
  | c :: rest, scene => by
    have h := deleteNode_noAdd hpgDeleteVector c scene
    have h1 := deleteNodes_noAdd hpgDeleteVector rest (deleteNode hpgDeleteVector c scene).2
    simp only [deleteNodes]
    exact noAddSince_trans
      (noAddSince_trans
        (noAddSince_call scene (Call.partitionRemoveNode c.fields.addr) rfl) h) h1
end

theorem freeNode_addr {F M : Type}
    (hpgDeleteVector : (α : Type) → HPGvector α → HPGvector α)
    (f : HPGnodeFields F M) (cs : List (HPGnode F M)) (scene : HPGscene F M) :
    (freeNode hpgDeleteVector (.mk f cs) scene).1.fields.addr = f.addr := by
  by_cases hc : f.childrenCapacity = 0
  · simp [freeNode, hc, HPGnode.fields]
  · simp [freeNode, hc, HPGnode.fields]

theorem deleteNode_addr {F M : Type}
    (hpgDeleteVector : (α : Type) → HPGvector α → HPGvector α)
    (node : HPGnode F M) (scene : HPGscene F M) :
    (deleteNode hpgDeleteVector node scene).1.fields.addr = node.fields.addr := by
  cases node with
  | mk f cs =>
    simp only [deleteNode]
    exact freeNode_addr hpgDeleteVector f _ _

theorem foldl_liveAfter_noAdd (a : Addr) :
    ∀ t : List Call, (∀ c ∈ t, Call.isPartitionAddNode c = false) →
      t.foldl (liveAfter a) false = false
  | [], _ => rfl
  | c :: t, h => by
    have hc := h c (List.mem_cons_self _ _)
    have ih := foldl_liveAfter_noAdd a t (fun x hx => h x (List.mem_cons_of_mem _ hx))
    cases c <;> simp_all [liveAfter, Call.isPartitionAddNode]

mutual
theorem put_reachable {F M : Type} (target : Addr) (new : HPGnode F M)
    (hn : new.fields.addr = target) :
    ∀ t : HPGnode F M, target ∈ t.subtree.map (fun f => f.addr) →
      target ∈ (HPGnode.put target new t).subtree.map (fun f => f.addr)
  | .mk f cs, h => by
    by_cases hf : f.addr = target
    · rw [HPGnode.put, if_pos hf]
      cases new with
      | mk g ds => simpa [HPGnode.subtree, HPGnode.fields] using Or.inl hn.symm
    · rw [HPGnode.put, if_neg hf]
      simp only [HPGnode.subtree, List.map_cons, List.mem_cons] at h ⊢
      rcases h with h | h
      · exact absurd h.symm hf
      · exact Or.inr (putList_reachable target new hn cs h)
theorem putList_reachable {F M : Type} (target : Addr) (new : HPGnode F M)
    (hn : new.fields.addr = target) :
    ∀ ts : List (HPGnode F M), target ∈ (subtreeOfList ts).map (fun f => f.addr) →
      target ∈ (subtreeOfList (putList target new ts)).map (fun f => f.addr)
  | [], h => by simp [subtreeOfList] at h
  | t :: ts, h => by
    simp only [subtreeOfList, putList, List.map_append, List.mem_append] at h ⊢
    rcases h with h | h
    · exact Or.inl (put_reachable target new hn t h)
    · exact Or.inr (putList_reachable target new hn ts h)
end

mutual
theorem store_subtree {F M : Type} (target : Addr)
    (w : HPGnodeFields F M → HPGnodeFields F M) :
    ∀ t : HPGnode F M, (t.store target w).subtree = t.subtree.map (storeAt target w)
  | .mk f cs => by
    simp only [HPGnode.store, HPGnode.subtree, List.map_cons, storeList_subtree target w cs]
theorem storeList_subtree {F M : Type} (target : Addr)
    (w : HPGnodeFields F M → HPGnodeFields F M) :
    ∀ ts : List (HPGnode F M),
      subtreeOfList (storeList target w ts) = (subtreeOfList ts).map (storeAt target w)
  | [] => rfl
  | t :: ts => by
    simp only [storeList, subtreeOfList, List.map_append, store_subtree target w t,
      storeList_subtree target w ts]
end

/-- A write through a node pointer that leaves the address field alone preserves the
invariant: the same nodes are reachable and the same nodes are live. -/
theorem store_reachableLive {F M : Type} (scene : HPGscene F M) (target : Addr)
    (w : HPGnodeFields F M → HPGnodeFields F M) (hw : ∀ n, (w n).addr = n.addr)
    (h : ReachableLive scene) : ReachableLive (scene.store target w) := by
  have hr : (scene.store target w).reachable = scene.reachable := by
    simp only [HPGscene.reachable, HPGscene.store, storeList_subtree, List.map_map]
    apply List.map_congr_left
    intro f _
    simp only [Function.comp, storeAt]
    split
    · exact hw f
    · rfl
  intro a ha
  rw [hr] at ha
  exact h a ha

mutual
theorem updateNode_addrs {F M : Type} [Add F] [One F] (L : Hypermath F M) :
    ∀ (node : HPGnode F M) (parent : Option M) (x y z : F) (mark : Bool) (trace : List Call),
      (updateNode L parent x y z mark node trace).1.subtree.map (fun f => f.addr) =
        node.subtree.map (fun f => f.addr)
  | .mk f cs, parent, x, y, z, mark, trace => by
    by_cases hd : (mark || f.needsUpdate) = true
    · simp only [updateNode, hd, if_true, HPGnode.subtree, List.map_cons]
      rw [updateNodes_addrs L cs]
    · rw [Bool.not_eq_true] at hd
      simp only [updateNode, hd, Bool.false_eq_true, if_false, HPGnode.subtree, List.map_cons]
      rw [updateNodes_addrs L cs]
theorem updateNodes_addrs {F M : Type} [Add F] [One F] (L : Hypermath F M) :
    ∀ (nodes : List (HPGnode F M)) (parent : Option M) (x y z : F) (mark : Bool)
      (trace : List Call),
      (subtreeOfList (updateNodes L parent x y z mark nodes trace).1).map (fun f => f.addr) =
        (subtreeOfList nodes).map (fun f => f.addr)
  | [], _, _, _, _, _, _ => rfl
  | t :: ts, parent, x, y, z, mark, trace => by
    simp only [updateNodes, subtreeOfList, List.map_append]
    rw [updateNode_addrs L t, updateNodes_addrs L ts]
end

theorem foldl_liveAfter_neutral (a : Addr) :
    ∀ (t : List Call) (b : Bool),
      (∀ c ∈ t, Call.isPartitionAddNode c = false ∧ Call.isPartitionRemoveNode c = false) →
      t.foldl (liveAfter a) b = b
  | [], _, _ => rfl
  | c :: t, b, h => by
    have hc := h c (List.mem_cons_self _ _)
    have ih := foldl_liveAfter_neutral a t b (fun x hx => h x (List.mem_cons_of_mem _ hx))
    cases c <;>
      simp_all [liveAfter, Call.isPartitionAddNode, Call.isPartitionRemoveNode]

/-- The update pass preserves the invariant: the same nodes are reachable, and the
calls it makes add or delete no node. -/
theorem hpgUpdateScene_reachableLive {F M : Type} [Add F] [Zero F] [One F]
    (L : Hypermath F M) (scene : HPGscene F M) (h : ReachableLive scene) :
    ReachableLive (hpgUpdateScene L scene) := by
  have hr : (hpgUpdateScene L scene).reachable = scene.reachable :=
    updateNodes_addrs L scene.topLevelNodes none 0 0 0 false scene.trace
  have ht := (hpgUpdateScene_spec L scene).2
  intro a ha
  rw [hr] at ha
  rw [HPGscene.live, ht, List.foldl_append, foldl_liveAfter_neutral]
  · exact h a ha
  · intro c hc
    simp only [notifications, List.mem_filterMap] at hc
    obtain ⟨ch, _, hch⟩ := hc
    cases hl : ch.getLast? with
    | none => rw [hl] at hch; cases hch
    | some f =>
      rw [hl] at hch
      cases hch
      exact ⟨rfl, rfl⟩

theorem subtreeOfList_append {F M : Type} :
    ∀ l l1 : List (HPGnode F M), subtreeOfList (l ++ l1) = subtreeOfList l ++ subtreeOfList l1
  | [], _ => rfl
  | t :: l, l1 => by
    show t.subtree ++ subtreeOfList (l ++ l1) = _
    rw [subtreeOfList_append l l1, subtreeOfList, List.append_assoc]

/-- With the scene itself as parent, `hpgAddNode` preserves the invariant: the node
added becomes reachable and live. -/
theorem hpgAddNode_reachableLive {F M : Type} [Zero F] (L : Hypermath F M) (V : SceneLib)
    (parentOf : Addr → Addr) (fresh : HPGnodeFields F M)
    (parent data pipeline deleteFunc : Addr) (w : SceneStatics F M)
    (h : ReachableLive (w.mem parent)) :
    ReachableLive ((hpgAddNode.body L V parentOf fresh parent data pipeline deleteFunc w
      parent).2.2.mem parent) ∧
      ((hpgAddNode.body L V parentOf fresh parent data pipeline deleteFunc w
        parent).2.2.mem parent).reachable =
        (w.mem parent).reachable ++
          [(hpgAddNode.body L V parentOf fresh parent data pipeline deleteFunc w parent).1] := by
  have hr : ((hpgAddNode.body L V parentOf fresh parent data pipeline deleteFunc w
        parent).2.2.mem parent).reachable =
      (w.mem parent).reachable ++
        [(hpgAddNode.body L V parentOf fresh parent data pipeline deleteFunc w parent).1] := by
    simp [hpgAddNode.body, HPGscene.reachable, subtreeOfList_append, subtreeOfList,
      HPGnode.subtree]
  have ht : ((hpgAddNode.body L V parentOf fresh parent data pipeline deleteFunc w
        parent).2.2.mem parent).trace =
      (w.mem parent).trace ++
        [Call.partitionAddNode
          (hpgAddNode.body L V parentOf fresh parent data pipeline deleteFunc w parent).1
          (w.mem parent).partitionStruct] := by
    simp [hpgAddNode.body]
  refine ⟨?_, hr⟩
  intro a ha
  rw [hr, List.mem_append, List.mem_singleton] at ha
  rw [HPGscene.live, ht, List.foldl_append, List.foldl_cons, List.foldl_nil, liveAfter]
  rcases ha with ha | ha
  · split
    · rfl
    · exact h a ha
  · rw [if_pos ha.symm]

/-- After `hpgDeleteNode(node)` the node is still where it was in the scene and is no
longer live. -/
theorem hpgDeleteNode_after {F M : Type}
    (hpgDeleteVector : (α : Type) → HPGvector α → HPGvector α) (node : HPGnode F M)
    (scene : HPGscene F M) :
    (hpgDeleteNode hpgDeleteVector node scene).2.topLevelNodes = scene.topLevelNodes ∧
      (node.fields.addr ∈ scene.reachable →
        node.fields.addr ∈ (hpgDeleteNode.after hpgDeleteVector node scene).reachable) ∧
      (hpgDeleteNode.after hpgDeleteVector node scene).live node.fields.addr = false := by
  obtain ⟨h1, t, h2, h3⟩ := deleteNode_noAdd hpgDeleteVector node scene
  simp only at h1 h2
  refine ⟨h1, fun hr => ?_, ?_⟩
  · simp only [hpgDeleteNode.after, HPGscene.reachable, hpgDeleteNode]
    rw [h1]
    exact putList_reachable _ _ (deleteNode_addr hpgDeleteVector node scene) _ hr
  · simp only [hpgDeleteNode.after, HPGscene.live, hpgDeleteNode]
    rw [h2, List.foldl_append, List.foldl_append, List.foldl_cons, List.foldl_nil, liveAfter,
      if_pos rfl]
    exact foldl_liveAfter_noAdd _ t h3

/-- C21: `hpgDeleteNode` does not write the vector that holds the pointer to the node.
For every node reachable in a scene, after `hpgDeleteNode(node)` the node is still
reachable from the top-level list and is not live, so the invariant is broken.  At
a concrete input: `hpgAddNode` with the scene as parent adds the node at address `1`
and the invariant holds; after `hpgDeleteNode` on that node the scene still reaches
address `1`, whose transform slot is back in the pool; and the next update pass
visits the node and notifies the partition for it. -/
theorem hpgDeleteNode_keeps_node_reachable {F M : Type}
    (hpgDeleteVector : (α : Type) → HPGvector α → HPGvector α) (node : HPGnode F M)
    (scene : HPGscene F M) :
    (hpgDeleteNode hpgDeleteVector node scene).2.topLevelNodes = scene.topLevelNodes ∧
      (node.fields.addr ∈ scene.reachable →
        node.fields.addr ∈ (hpgDeleteNode.after hpgDeleteVector node scene).reachable ∧
          (hpgDeleteNode.after hpgDeleteVector node scene).live node.fields.addr = false ∧
          ¬ ReachableLive (hpgDeleteNode.after hpgDeleteVector node scene)) ∧
      (∃ p w, hpgAddNode (MatTerm.lib Int) exampleSceneLib exampleNoParents 1
          (exampleFields 0 0 false 0) 10 105 1 0 exampleEmptyStatics = .ok (1, p, w) ∧
        w.mem 10 = exampleAdded) ∧
      ReachableLive exampleAdded ∧
      (hpgDeleteNode.after hpgDeleteVector exampleAddedNode exampleAdded).reachable = [1] ∧
      (hpgDeleteNode.after hpgDeleteVector exampleAddedNode exampleAdded).transformPool.free =
        [1] ∧
      (hpgUpdateScene (MatTerm.lib Int)
          (hpgDeleteNode.after hpgDeleteVector exampleAddedNode exampleAdded)).trace =
        [Call.partitionAddNode 1 50, Call.partitionRemoveNode 1, Call.delete 7 105,
          Call.partitionUpdateNode 1] := by
  obtain ⟨h1, h2, h3⟩ := hpgDeleteNode_after hpgDeleteVector node scene
  refine ⟨h1, fun hr => ⟨h2 hr, h3, fun hinv => ?_⟩, ⟨_, _, rfl, rfl⟩, by decide, rfl, rfl, rfl⟩
  have := hinv _ (h2 hr)
  rw [h3] at this
  cases this

end HPG
